import Mathlib

/-!
# risu, AArch64 register snapshot (`risu_reginfo_aarch64.c`)

A shallow embedding of the snapshot layout calculator, the equality check,
the mismatch report and the capture routine of `risu_reginfo_aarch64.c`.

Memory is byte addressed.  A pointer is modelled by the view of memory it
gives: `p i` is the byte stored at address `p + i`.  A `struct reginfo` is the
view from its first byte; integer fields are read little-endian (AArch64) at
their offsets, so a byte-wise `memcmp` and the field-wise comparisons of the
report look at the same bytes.
-/

namespace Risu

/-! ## Bytes and memory -/

/-- One byte of memory. -/
abbrev Byte := Fin 256

/-- Memory as seen through a pointer `p`: `p i` is the byte at address `p + i`. -/
abbrev Mem := Nat → Byte

/-- Pointer arithmetic on a byte pointer: the view of `(char *)p + k`. -/
def ptr_add (p : Mem) (k : Nat) : Mem := fun i => p (k + i)

/-- The low byte of a number. -/
def byteOf (v : Nat) : Byte := ⟨v % 256, Nat.mod_lt v (by decide)⟩

/-- Little-endian load of an `n`-byte unsigned integer at `p + off`. -/
def load (p : Mem) (off : Nat) : Nat → Nat
  | 0 => 0
  | n + 1 => (p off).val + 256 * load p (off + 1) n

/-- Load of a `uint16_t` at byte offset `off`. -/
def rd16 (p : Mem) (off : Nat) : Nat := load p off 2

/-- Load of a `uint32_t` at byte offset `off`. -/
def rd32 (p : Mem) (off : Nat) : Nat := load p off 4

/-- Load of a `uint64_t` at byte offset `off`. -/
def rd64 (p : Mem) (off : Nat) : Nat := load p off 8

/-- Little-endian store of the low `n` bytes of `v` at `p + off`. -/
def store (p : Mem) (off n v : Nat) : Mem :=
  fun i => if off ≤ i ∧ i < off + n then byteOf (v / 256 ^ (i - off)) else p i

/-- The libc `memset(p, c, n)`: the first `n` bytes become `c`. -/
def memset (p : Mem) (c : Byte) (n : Nat) : Mem :=
  fun i => if i < n then c else p i

/-- The libc `memcpy(dst + off, src, n)`, seen from `dst`. -/
def memcpy (dst : Mem) (off : Nat) (src : Mem) (n : Nat) : Mem :=
  fun i => if off ≤ i ∧ i < off + n then src (i - off) else dst i

/-- The scan of `memcmp` from byte `i` on, over `n` remaining bytes: the
difference of the first pair of bytes that differ, 0 when there is none. -/
def memcmpFrom (s1 s2 : Mem) (i : Nat) : Nat → Int
  | 0 => 0
  | n + 1 =>
    if s1 i = s2 i then memcmpFrom s1 s2 (i + 1) n
    else ((s1 i).val : Int) - ((s2 i).val : Int)

/-- The libc `memcmp(s1, s2, n)`. -/
def memcmp (s1 s2 : Mem) (n : Nat) : Int := memcmpFrom s1 s2 0 n

/-! ## Constants of the signal frame and of the snapshot layout -/

/-- Modelled from the spec: `SVE_VQ_BYTES` of the kernel header
`asm/sigcontext.h` (not among the sources), the bytes of one quadword of a
scalable vector. -/
def SVE_VQ_BYTES : Nat := 16

/-- Modelled from the spec: `SVE_VQ_MAX`, which `risu_reginfo_aarch64.h` (not
among the sources) redefines as the architectural maximum of 16 quadwords; it
sizes the variable region of the snapshot. -/
def SVE_VQ_MAX : Nat := 16

/-- Modelled from the spec: `SVE_NUM_ZREGS` of `asm/sigcontext.h` (not among
the sources), the fixed count of Z registers. -/
def SVE_NUM_ZREGS : Nat := 32

/-- Modelled from the spec: `SVE_NUM_PREGS` of `asm/sigcontext.h` (not among
the sources), the fixed count of P registers (the FFR comes after them). -/
def SVE_NUM_PREGS : Nat := 16

/-- Modelled from the spec: `sve_vq_from_vl` of `asm/sigcontext.h` (not among
the sources), the quadword count of a vector length in bytes. -/
def sve_vq_from_vl (vl : Nat) : Nat := vl / SVE_VQ_BYTES

/-- Modelled from the spec: `sve_vl_from_vq` of `asm/sigcontext.h` (not among
the sources), the vector length in bytes of a quadword count. -/
def sve_vl_from_vq (vq : Nat) : Nat := vq * SVE_VQ_BYTES

/-- Modelled from the spec: `SVE_SIG_ZREG_SIZE` of `asm/sigcontext.h` (not
among the sources), the bytes of one Z register at width `vq`. -/
def SVE_SIG_ZREG_SIZE (vq : Nat) : Nat := vq * SVE_VQ_BYTES

/-- Modelled from the spec: `SVE_SIG_PREG_SIZE` of `asm/sigcontext.h` (not
among the sources), the bytes of one P register at width `vq`: one bit per
byte of a Z register. -/
def SVE_SIG_PREG_SIZE (vq : Nat) : Nat := vq * (SVE_VQ_BYTES / 8)

/-- Modelled from the spec: `SVE_SIG_FFR_SIZE` of `asm/sigcontext.h` (not
among the sources); the first-fault register has the size of a P register. -/
def SVE_SIG_FFR_SIZE (vq : Nat) : Nat := SVE_SIG_PREG_SIZE vq

/-- Modelled from the spec: `sizeof(struct sve_context)` of `asm/sigcontext.h`
(not among the sources): the record head (tag and size, 4 bytes each), the
16-bit vector length and three reserved 16-bit words. -/
def sizeof_sve_context : Nat := 16

/-- Modelled from the spec: `SVE_SIG_REGS_OFFSET` of `asm/sigcontext.h` (not
among the sources), the offset of the register payload in an SVE record: the
size of `struct sve_context` rounded up to a quadword. -/
def SVE_SIG_REGS_OFFSET : Nat :=
  (sizeof_sve_context + (SVE_VQ_BYTES - 1)) / SVE_VQ_BYTES * SVE_VQ_BYTES

/-- Modelled from the spec: `SVE_SIG_ZREG_OFFSET` of `asm/sigcontext.h` (not
among the sources), the offset of Z register `n` in an SVE record. -/
def SVE_SIG_ZREG_OFFSET (vq n : Nat) : Nat :=
  SVE_SIG_REGS_OFFSET + SVE_SIG_ZREG_SIZE vq * n

/-- Modelled from the spec: `SVE_SIG_ZREGS_SIZE` of `asm/sigcontext.h` (not
among the sources), the bytes of all Z registers. -/
def SVE_SIG_ZREGS_SIZE (vq : Nat) : Nat :=
  SVE_SIG_ZREG_OFFSET vq SVE_NUM_ZREGS - SVE_SIG_REGS_OFFSET

/-- Modelled from the spec: `SVE_SIG_PREGS_OFFSET` of `asm/sigcontext.h` (not
among the sources): the P registers follow the Z registers. -/
def SVE_SIG_PREGS_OFFSET (vq : Nat) : Nat :=
  SVE_SIG_REGS_OFFSET + SVE_SIG_ZREGS_SIZE vq

/-- Modelled from the spec: `SVE_SIG_PREG_OFFSET` of `asm/sigcontext.h` (not
among the sources), the offset of P register `n` in an SVE record. -/
def SVE_SIG_PREG_OFFSET (vq n : Nat) : Nat :=
  SVE_SIG_PREGS_OFFSET vq + SVE_SIG_PREG_SIZE vq * n

/-- Modelled from the spec: `SVE_SIG_PREGS_SIZE` of `asm/sigcontext.h` (not
among the sources), the bytes of all P registers. -/
def SVE_SIG_PREGS_SIZE (vq : Nat) : Nat :=
  SVE_SIG_PREG_OFFSET vq SVE_NUM_PREGS - SVE_SIG_PREGS_OFFSET vq

/-- Modelled from the spec: `SVE_SIG_FFR_OFFSET` of `asm/sigcontext.h` (not
among the sources): the first-fault register follows the P registers. -/
def SVE_SIG_FFR_OFFSET (vq : Nat) : Nat :=
  SVE_SIG_PREGS_OFFSET vq + SVE_SIG_PREGS_SIZE vq

/-- Modelled from the spec: `SVE_SIG_REGS_SIZE` of `asm/sigcontext.h` (not
among the sources), the bytes of the whole Z/P/FFR payload. -/
def SVE_SIG_REGS_SIZE (vq : Nat) : Nat :=
  SVE_SIG_FFR_OFFSET vq + SVE_SIG_FFR_SIZE vq - SVE_SIG_REGS_OFFSET

/-- Modelled from the spec: `SVE_SIG_CONTEXT_SIZE` of `asm/sigcontext.h` (not
among the sources), the size of an SVE record that carries a payload of
width `vq`. -/
def SVE_SIG_CONTEXT_SIZE (vq : Nat) : Nat :=
  SVE_SIG_REGS_OFFSET + SVE_SIG_REGS_SIZE vq

/-- Modelled from the spec: `ROUND_UP(SIZE, POW2)` of
`risu_reginfo_aarch64.h` (not among the sources), `SIZE` rounded up to a
multiple of the power of two `POW2`. -/
def ROUND_UP (size pow2 : Nat) : Nat := (size + pow2 - 1) / pow2 * pow2

/-- Modelled from the spec: `RISU_SVE_REGS_SIZE(VQ)` of
`risu_reginfo_aarch64.h` (not among the sources), the scalable-vector block
size: the Z/P/FFR payload rounded up to 16 bytes. -/
def RISU_SVE_REGS_SIZE (vq : Nat) : Nat := ROUND_UP (SVE_SIG_REGS_SIZE vq) 16

/-- Modelled from the spec: `RISU_SIMD_REGS_SIZE` of `risu_reginfo_aarch64.h`
(not among the sources), the block of 32 SIMD vectors of 128 bits. -/
def RISU_SIMD_REGS_SIZE : Nat := 32 * 16

/-! ## `struct reginfo`

Modelled from the spec and from the field accesses of the source; the
declaration itself is in `risu_reginfo_aarch64.h`:

    uint64_t fault_address;   uint64_t regs[31];
    uint64_t sp;              uint64_t pc;
    uint32_t flags;           uint32_t faulting_insn;
    uint32_t fpsr;            uint32_t fpcr;
    uint16_t sve_vl;          uint16_t reserved;
    char extra[RISU_SVE_REGS_SIZE(SVE_VQ_MAX)] __attribute__((aligned(16)));
-/

/-- A snapshot: the memory of a `struct reginfo`, seen from its first byte. -/
abbrev reginfo := Mem

/-- Modelled from the spec: the offset of each member of `struct reginfo`,
whose declaration (`risu_reginfo_aarch64.h`) is not among the sources. -/
def off_fault_address : Nat := 0

/-- Modelled from the spec: offset of `regs[i]` in `struct reginfo` (the
declaration is not among the sources). -/
def off_regs (i : Nat) : Nat := 8 + 8 * i

/-- Modelled from the spec: offset of `sp` in `struct reginfo` (the
declaration is not among the sources). -/
def off_sp : Nat := 256

/-- Modelled from the spec: offset of `pc` in `struct reginfo` (the
declaration is not among the sources). -/
def off_pc : Nat := 264

/-- Modelled from the spec: offset of `flags` in `struct reginfo` (the
declaration is not among the sources). -/
def off_flags : Nat := 272

/-- Modelled from the spec: offset of `faulting_insn` in `struct reginfo`
(the declaration is not among the sources). -/
def off_faulting_insn : Nat := 276

/-- Modelled from the spec: offset of `fpsr` in `struct reginfo` (the
declaration is not among the sources). -/
def off_fpsr : Nat := 280

/-- Modelled from the spec: offset of `fpcr` in `struct reginfo` (the
declaration is not among the sources). -/
def off_fpcr : Nat := 284

/-- Modelled from the spec: offset of `sve_vl` in `struct reginfo` (the
declaration is not among the sources). -/
def off_sve_vl : Nat := 288

/-- Modelled from the spec: offset of `reserved` in `struct reginfo` (the
declaration is not among the sources). -/
def off_reserved : Nat := 290

/-- Modelled from the spec: `offsetof(struct reginfo, extra)`, the length of
the fixed header: the members end at byte 292 and `extra` is aligned to 16
(the declaration is not among the sources). -/
def offsetof_extra : Nat := 304

/-- Modelled from the spec: `sizeof(struct reginfo)`, the header and the
variable region sized for the maximum vector width (the declaration is not
among the sources). -/
def sizeof_reginfo : Nat := offsetof_extra + RISU_SVE_REGS_SIZE SVE_VQ_MAX

/-- Field `ri->fault_address`. -/
def reginfo.fault_address (ri : reginfo) : Nat := rd64 ri off_fault_address

/-- Field `ri->regs[i]`. -/
def reginfo.regs (ri : reginfo) (i : Nat) : Nat := rd64 ri (off_regs i)

/-- Field `ri->sp`. -/
def reginfo.sp (ri : reginfo) : Nat := rd64 ri off_sp

/-- Field `ri->pc`. -/
def reginfo.pc (ri : reginfo) : Nat := rd64 ri off_pc

/-- Field `ri->flags`. -/
def reginfo.flags (ri : reginfo) : Nat := rd32 ri off_flags

/-- Field `ri->faulting_insn`. -/
def reginfo.faulting_insn (ri : reginfo) : Nat := rd32 ri off_faulting_insn

/-- Field `ri->fpsr`. -/
def reginfo.fpsr (ri : reginfo) : Nat := rd32 ri off_fpsr

/-- Field `ri->fpcr`. -/
def reginfo.fpcr (ri : reginfo) : Nat := rd32 ri off_fpcr

/-- Field `ri->sve_vl`. -/
def reginfo.sve_vl (ri : reginfo) : Nat := rd16 ri off_sve_vl

/-- Modelled from the spec: the offset in `struct reginfo` of the pointer
that `reginfo_vreg(ri, i)` of `risu_reginfo_aarch64.h` (not among the sources)
returns, `&ri->extra[i * 16]`. -/
def reginfo_vreg_off (i : Nat) : Nat := offsetof_extra + i * 16

/-- Modelled from the spec: the offset in `struct reginfo` of the pointer
that `reginfo_zreg(ri, vq, i)` of `risu_reginfo_aarch64.h` (not among the
sources) returns, `&ri->extra[SVE_SIG_ZREG_OFFSET(vq, i) - SVE_SIG_REGS_OFFSET]`. -/
def reginfo_zreg_off (vq i : Nat) : Nat :=
  offsetof_extra + (SVE_SIG_ZREG_OFFSET vq i - SVE_SIG_REGS_OFFSET)

/-- Modelled from the spec: the offset in `struct reginfo` of the pointer
that `reginfo_preg(ri, vq, i)` of `risu_reginfo_aarch64.h` (not among the
sources) returns, `&ri->extra[SVE_SIG_PREG_OFFSET(vq, i) - SVE_SIG_REGS_OFFSET]`;
`i = SVE_NUM_PREGS` gives the FFR. -/
def reginfo_preg_off (vq i : Nat) : Nat :=
  offsetof_extra + (SVE_SIG_PREG_OFFSET vq i - SVE_SIG_REGS_OFFSET)

/-- The pointer `reginfo_vreg(ri, i)` to SIMD vector `i`. -/
def reginfo_vreg (ri : reginfo) (i : Nat) : Mem := ptr_add ri (reginfo_vreg_off i)

/-- The pointer `reginfo_zreg(ri, vq, i)` to Z register `i`. -/
def reginfo_zreg (ri : reginfo) (vq i : Nat) : Mem := ptr_add ri (reginfo_zreg_off vq i)

/-- The pointer `reginfo_preg(ri, vq, i)` to P register `i` (the FFR for
`i = SVE_NUM_PREGS`). -/
def reginfo_preg (ri : reginfo) (vq i : Nat) : Mem := ptr_add ri (reginfo_preg_off vq i)

/-! ## Layout calculator and equality -/

/-- The C function `reginfo_size`: the significant byte length of a snapshot. -/
def reginfo_size (ri : reginfo) : Nat :=
  let size := offsetof_extra
  if reginfo.sve_vl ri ≠ 0 then
    let vq := sve_vq_from_vl (reginfo.sve_vl ri)
    size + RISU_SVE_REGS_SIZE vq
  else
    size + RISU_SIMD_REGS_SIZE

/-- The C function `reginfo_is_eq`: nonzero (1) when the snapshots are equal. -/
def reginfo_is_eq (r1 r2 : reginfo) : Int :=
  if memcmp r1 r2 (reginfo_size r1) = 0 then 1 else 0

/-! ## Output streams and `printf` conversions -/

/-- A stdio stream: the characters written to it so far and its error
indicator. -/
structure FILE where
  /-- The characters written so far. -/
  buf : String
  /-- The error indicator, read by `ferror`. -/
  err : Bool

/-- The libc `ferror`. -/
def ferror (f : FILE) : Bool := f.err

/-- The libc `fprintf(f, ...)` once the conversions are expanded to the text
`s`: the text is appended to the stream. -/
def fprintf (f : FILE) (s : String) : FILE := { f with buf := f.buf ++ s }

/-- The conversion `%0<width>x`: lower-case hexadecimal, padded on the left
with zeros to at least `width` characters. -/
def fmt_x (width v : Nat) : String :=
  let ds := Nat.toDigits 16 v
  String.mk (List.replicate (width - ds.length) '0' ++ ds)

/-- The conversion `%d` of a non-negative integer. -/
def fmt_d (v : Nat) : String := String.mk (Nat.toDigits 10 v)

/-- The conversion `%-<width>d` of a non-negative integer: decimal, padded on
the right with blanks to at least `width` characters. -/
def fmt_d_left (width v : Nat) : String :=
  let ds := Nat.toDigits 10 v
  String.mk (ds ++ List.replicate (width - ds.length) ' ')

/-- The C expression `!ferror(f)` as an `int`. -/
def not_ferror (f : FILE) : Int := if ferror f then 0 else 1

/-! ## Mismatch report -/

/-- The C function `sve_zreg_is_eq`. -/
def sve_zreg_is_eq (vq : Nat) (z1 z2 : Mem) : Int :=
  if memcmp z1 z2 (vq * 16) = 0 then 1 else 0

/-- The C function `sve_preg_is_eq`. -/
def sve_preg_is_eq (vq : Nat) (p1 p2 : Mem) : Int :=
  if memcmp p1 p2 (vq * 2) = 0 then 1 else 0

/-- The C function `sve_dump_preg`: the lanes `p[vq-1]`, ..., `p[0]`, four
hexadecimal digits each. -/
def sve_dump_preg (f : FILE) (vq : Nat) (p : Mem) : FILE :=
  (List.range vq).reverse.foldl (fun f q => fprintf f (fmt_x 4 (rd16 p (2 * q)))) f

/-- The C function `sve_dump_preg_diff`. -/
def sve_dump_preg_diff (f : FILE) (vq : Nat) (p1 p2 : Mem) : FILE :=
  let f := sve_dump_preg f vq p1
  let f := fprintf f " vs "
  let f := sve_dump_preg f vq p2
  fprintf f "\n"

/-- One iteration of the loop of `sve_dump_zreg_diff`, on the stream and the
current value of `pad`. -/
def sve_dump_zreg_diff_step (za zb : Mem) (st : FILE × String) (q : Nat) : FILE × String :=
  let za0 := rd64 za (8 * (2 * q))
  let za1 := rd64 za (8 * (2 * q + 1))
  let zb0 := rd64 zb (8 * (2 * q))
  let zb1 := rd64 zb (8 * (2 * q + 1))
  if za0 ≠ zb0 ∨ za1 ≠ zb1 then
    (fprintf st.1 (st.2 ++ "q" ++ fmt_d_left 2 q ++ ": " ++ fmt_x 16 za1 ++ fmt_x 16 za0
        ++ " vs " ++ fmt_x 16 zb1 ++ fmt_x 16 zb0 ++ "\n"),
      "      ")
  else st

/-- The C function `sve_dump_zreg_diff`: one line for each differing lane. -/
def sve_dump_zreg_diff (f : FILE) (vq : Nat) (za zb : Mem) : FILE :=
  ((List.range vq).foldl (sve_dump_zreg_diff_step za zb) (f, "")).1

/-- The C function `reginfo_dump`: the stream after the dump and the
returned flag. -/
def reginfo_dump (ri : reginfo) (f : FILE) : FILE × Int :=
  let f := fprintf f ("  faulting insn " ++ fmt_x 8 (reginfo.faulting_insn ri) ++ "\n")
  let f := (List.range 31).foldl
    (fun f i => fprintf f ("  X" ++ fmt_d_left 2 i ++ "    : "
      ++ fmt_x 16 (reginfo.regs ri i) ++ "\n")) f
  let f := fprintf f ("  sp     : " ++ fmt_x 16 (reginfo.sp ri) ++ "\n")
  let f := fprintf f ("  pc     : " ++ fmt_x 16 (reginfo.pc ri) ++ "\n")
  let f := fprintf f ("  flags  : " ++ fmt_x 8 (reginfo.flags ri) ++ "\n")
  let f := fprintf f ("  fpsr   : " ++ fmt_x 8 (reginfo.fpsr ri) ++ "\n")
  let f := fprintf f ("  fpcr   : " ++ fmt_x 8 (reginfo.fpcr ri) ++ "\n")
  if reginfo.sve_vl ri ≠ 0 then
    let vq := sve_vq_from_vl (reginfo.sve_vl ri)
    let f := fprintf f ("  vl     : " ++ fmt_d (reginfo.sve_vl ri) ++ "\n")
    let f := (List.range SVE_NUM_ZREGS).foldl
      (fun f i =>
        let z := reginfo_zreg ri vq i
        let f := fprintf f ("  Z" ++ fmt_d_left 2 i ++ " q" ++ fmt_d_left 2 0 ++ ": "
          ++ fmt_x 16 (rd64 z (8 * 1)) ++ fmt_x 16 (rd64 z (8 * 0)) ++ "\n")
        ((List.range vq).drop 1).foldl
          (fun f q => fprintf f ("      q" ++ fmt_d_left 2 q ++ ": "
            ++ fmt_x 16 (rd64 z (8 * (q * 2 + 1))) ++ fmt_x 16 (rd64 z (8 * (q * 2))) ++ "\n")) f) f
    let f := (List.range (SVE_NUM_PREGS + 1)).foldl
      (fun f i =>
        let p := reginfo_preg ri vq i
        let f := if i = SVE_NUM_PREGS then fprintf f "  FFR    : "
                 else fprintf f ("  P" ++ fmt_d_left 2 i ++ "    : ")
        let f := sve_dump_preg f vq p
        fprintf f "\n") f
    (f, not_ferror f)
  else
    let f := (List.range 32).foldl
      (fun f i =>
        let v := reginfo_vreg ri i
        fprintf f ("  V" ++ fmt_d_left 2 i ++ "    : "
          ++ fmt_x 16 (rd64 v (8 * 1)) ++ fmt_x 16 (rd64 v (8 * 0)) ++ "\n")) f
    (f, not_ferror f)

/-- The C function `reginfo_dump_mismatch`: the stream after the report and
the returned flag. -/
def reginfo_dump_mismatch (m a : reginfo) (f : FILE) : FILE × Int :=
  let f := fprintf f "mismatch detail (master : apprentice):\n"
  let f := if reginfo.faulting_insn m ≠ reginfo.faulting_insn a then
      fprintf f ("  faulting insn mismatch " ++ fmt_x 8 (reginfo.faulting_insn m) ++ " vs "
        ++ fmt_x 8 (reginfo.faulting_insn a) ++ "\n")
    else f
  let f := (List.range 31).foldl
    (fun f i =>
      if reginfo.regs m i ≠ reginfo.regs a i then
        fprintf f ("  X" ++ fmt_d_left 2 i ++ "    : " ++ fmt_x 16 (reginfo.regs m i) ++ " vs "
          ++ fmt_x 16 (reginfo.regs a i) ++ "\n")
      else f) f
  let f := if reginfo.sp m ≠ reginfo.sp a then
      fprintf f ("  sp     : " ++ fmt_x 16 (reginfo.sp m) ++ " vs "
        ++ fmt_x 16 (reginfo.sp a) ++ "\n")
    else f
  let f := if reginfo.pc m ≠ reginfo.pc a then
      fprintf f ("  pc     : " ++ fmt_x 16 (reginfo.pc m) ++ " vs "
        ++ fmt_x 16 (reginfo.pc a) ++ "\n")
    else f
  let f := if reginfo.flags m ≠ reginfo.flags a then
      fprintf f ("  flags  : " ++ fmt_x 8 (reginfo.flags m) ++ " vs "
        ++ fmt_x 8 (reginfo.flags a) ++ "\n")
    else f
  let f := if reginfo.fpsr m ≠ reginfo.fpsr a then
      fprintf f ("  fpsr   : " ++ fmt_x 8 (reginfo.fpsr m) ++ " vs "
        ++ fmt_x 8 (reginfo.fpsr a) ++ "\n")
    else f
  let f := if reginfo.fpcr m ≠ reginfo.fpcr a then
      fprintf f ("  fpcr   : " ++ fmt_x 8 (reginfo.fpcr m) ++ " vs "
        ++ fmt_x 8 (reginfo.fpcr a) ++ "\n")
    else f
  let f := if reginfo.sve_vl m ≠ reginfo.sve_vl a then
      fprintf f ("  vl    : " ++ fmt_d (reginfo.sve_vl m) ++ " vs "
        ++ fmt_d (reginfo.sve_vl a) ++ "\n")
    else f
  if reginfo.sve_vl m ≠ 0 then
    let vq := sve_vq_from_vl (reginfo.sve_vl m)
    let f := (List.range SVE_NUM_ZREGS).foldl
      (fun f i =>
        let zm := reginfo_zreg m vq i
        let za := reginfo_zreg a vq i
        if sve_zreg_is_eq vq zm za = 0 then
          let f := fprintf f ("  Z" ++ fmt_d_left 2 i ++ " ")
          sve_dump_zreg_diff f vq zm za
        else f) f
    let f := (List.range (SVE_NUM_PREGS + 1)).foldl
      (fun f i =>
        let pm := reginfo_preg m vq i
        let pa := reginfo_preg a vq i
        if sve_preg_is_eq vq pm pa = 0 then
          let f := if i = SVE_NUM_PREGS then fprintf f "  FFR   : "
                   else fprintf f ("  P" ++ fmt_d_left 2 i ++ "    : ")
          sve_dump_preg_diff f vq pm pa
        else f) f
    (f, not_ferror f)
  else
    let f := (List.range 32).foldl
      (fun f i =>
        let mv := reginfo_vreg m i
        let av := reginfo_vreg a i
        if rd64 mv (8 * 0) ≠ rd64 av (8 * 0) ∨ rd64 mv (8 * 1) ≠ rd64 av (8 * 1) then
          fprintf f ("  V" ++ fmt_d_left 2 i ++ "    : "
            ++ fmt_x 16 (rd64 mv (8 * 1)) ++ fmt_x 16 (rd64 mv (8 * 0)) ++ " vs "
            ++ fmt_x 16 (rd64 av (8 * 1)) ++ fmt_x 16 (rd64 av (8 * 0)) ++ "\n")
        else f) f
    (f, not_ferror f)

/-! ## Capture

The trap-time context is modelled by the members of `uc->uc_mcontext` that
`reginfo_init` reads, and by the memory of the process, `mem`, in which the
extension records and the faulting instruction lie.  A pointer into `mem` is
an address, `0` being `NULL`.  The snapshot written is an object of its own:
it does not overlap the memory that is read. -/

/-- Modelled from the spec: `FPSIMD_MAGIC` of `asm/sigcontext.h` (not among
the sources), the tag of the FP/SIMD record. -/
def FPSIMD_MAGIC : Nat := 0x46508001

/-- Modelled from the spec: `SVE_MAGIC` of `asm/sigcontext.h` (not among the
sources), the tag of the scalable-vector record. -/
def SVE_MAGIC : Nat := 0x53564501

/-- Modelled from the spec: `EXTRA_MAGIC` of `asm/sigcontext.h` (not among
the sources), the tag of the record that points to the overflow area. -/
def EXTRA_MAGIC : Nat := 0x45585401

/-- Modelled from the spec: offset of `magic` in `struct _aarch64_ctx` of
`asm/sigcontext.h` (not among the sources), the head of every record. -/
def off_ctx_magic : Nat := 0

/-- Modelled from the spec: offset of `size` in `struct _aarch64_ctx` of
`asm/sigcontext.h` (not among the sources). -/
def off_ctx_size : Nat := 4

/-- Modelled from the spec: offset of `fpsr` in `struct fpsimd_context` of
`asm/sigcontext.h` (not among the sources). -/
def off_fpsimd_fpsr : Nat := 8

/-- Modelled from the spec: offset of `fpcr` in `struct fpsimd_context` of
`asm/sigcontext.h` (not among the sources). -/
def off_fpsimd_fpcr : Nat := 12

/-- Modelled from the spec: offset of `vregs` in `struct fpsimd_context` of
`asm/sigcontext.h` (not among the sources). -/
def off_fpsimd_vregs : Nat := 16

/-- Modelled from the spec: `sizeof(struct fpsimd_context)` of
`asm/sigcontext.h` (not among the sources): the head, `fpsr`, `fpcr` and 32
vectors of 16 bytes. -/
def sizeof_fpsimd_context : Nat := 528

/-- Modelled from the spec: offset of `datap` in `struct extra_context` of
`asm/sigcontext.h` (not among the sources), the address of the overflow area. -/
def off_extra_datap : Nat := 8

/-- Modelled from the spec: offset of `vl` in `struct sve_context` of
`asm/sigcontext.h` (not among the sources). -/
def off_sve_vl_ctx : Nat := 8

/-- Modelled from the spec: the members of `uc->uc_mcontext` (`struct
sigcontext` of `asm/sigcontext.h`, not among the sources) that `reginfo_init`
reads.  The scalar members are 64-bit values; `reserved` is the address of
`__reserved[0]`, the first extension record. -/
structure ucontext_t where
  /-- Member `uc_mcontext.fault_address`. -/
  fault_address : Nat
  /-- Members `uc_mcontext.regs[i]`. -/
  regs : Nat → Nat
  /-- Member `uc_mcontext.sp`. -/
  sp : Nat
  /-- Member `uc_mcontext.pc`. -/
  pc : Nat
  /-- Member `uc_mcontext.pstate`. -/
  pstate : Nat
  /-- The address `&uc_mcontext.__reserved[0]`. -/
  reserved : Nat

/-- The local variables of the record walk of `reginfo_init`. -/
structure walk_state where
  /-- The record the walk is at, `NULL` when the walk is over. -/
  ctx : Nat
  /-- The overflow area still to visit, `NULL` when there is none. -/
  extra : Nat
  /-- The FP/SIMD record found so far. -/
  fp : Nat
  /-- The scalable-vector record found so far. -/
  sve : Nat
  deriving DecidableEq

/-- The state in which `reginfo_init` enters the record walk. -/
def walk_start (uc : ucontext_t) : walk_state :=
  { ctx := uc.reserved, extra := 0, fp := 0, sve := 0 }

/-- One iteration of the loop `while (ctx)` of `reginfo_init`, for
`ctx != NULL`: the `switch` on the tag, then the advance by the declared size
(64-bit pointer arithmetic). -/
def walk_step (mem : Mem) (s : walk_state) : walk_state :=
  let magic := rd32 mem (s.ctx + off_ctx_magic)
  let next := (s.ctx + rd32 mem (s.ctx + off_ctx_size)) % 2 ^ 64
  if magic = FPSIMD_MAGIC then { s with fp := s.ctx, ctx := next }
  else if magic = SVE_MAGIC then { s with sve := s.ctx, ctx := next }
  else if magic = EXTRA_MAGIC then
    { s with extra := rd64 mem (s.ctx + off_extra_datap), ctx := next }
  else if magic = 0 then { s with ctx := s.extra, extra := 0 }
  else { s with ctx := next }

/-- The loop `while (ctx)` of `reginfo_init`, run for at most `fuel`
iterations: the state at the exit of the loop, `none` when the loop has not
ended by then. -/
def walk (mem : Mem) : Nat → walk_state → Option walk_state
  | 0, s => if s.ctx = 0 then some s else none
  | fuel + 1, s => if s.ctx = 0 then some s else walk mem fuel (walk_step mem s)

/-- The C function `reginfo_init`, for a run whose record walk takes at most
`fuel` iterations: the snapshot written over `ri` and the text written to
`stderr`; `none` when the walk has not ended by then.  `image_start_address`
and `test_sve` are the globals of those names. -/
def reginfo_init (mem : Mem) (image_start_address test_sve : Nat) (fuel : Nat)
    (ri : reginfo) (uc : ucontext_t) : Option (reginfo × String) :=
  let ri := memset ri 0 sizeof_reginfo
  let ri := (List.range 31).foldl (fun ri i => store ri (off_regs i) 8 (uc.regs i)) ri
  let ri := store ri off_sp 8 0xdeadbeefdeadbeef
  let ri := store ri off_pc 8 ((uc.pc + 2 ^ 64 - image_start_address % 2 ^ 64) % 2 ^ 64)
  let ri := store ri off_flags 4 (uc.pstate &&& 0xf0000000)
  let ri := store ri off_fault_address 8 uc.fault_address
  let ri := store ri off_faulting_insn 4 (rd32 mem uc.pc)
  match walk mem fuel (walk_start uc) with
  | none => none
  | some w =>
    let fp := w.fp
    let sve := w.sve
    if fp = 0 ∨ rd32 mem (fp + off_ctx_size) ≠ sizeof_fpsimd_context then
      some (ri, "risu_reginfo_aarch64: failed to get FP/SIMD state\n")
    else
      let ri := store ri off_fpsr 4 (rd32 mem (fp + off_fpsimd_fpsr))
      let ri := store ri off_fpcr 4 (rd32 mem (fp + off_fpsimd_fpcr))
      let simd := memcpy ri (reginfo_vreg_off 0) (ptr_add mem (fp + off_fpsimd_vregs))
        RISU_SIMD_REGS_SIZE
      if test_sve ≠ 0 then
        let vq := test_sve
        if sve = 0 then
          some (ri, "risu_reginfo_aarch64: failed to get SVE state\n")
        else if rd16 mem (sve + off_sve_vl_ctx) ≠ sve_vl_from_vq vq then
          some (ri, "risu_reginfo_aarch64: unexpected SVE state: "
            ++ fmt_d (rd16 mem (sve + off_sve_vl_ctx)) ++ " != "
            ++ fmt_d (sve_vl_from_vq vq) ++ "\n")
        else if rd32 mem (sve + off_ctx_size) ≤ SVE_SIG_CONTEXT_SIZE 0 then
          some (simd, "")
        else if rd32 mem (sve + off_ctx_size) < SVE_SIG_CONTEXT_SIZE vq then
          some (ri, "risu_reginfo_aarch64: failed to get complete SVE state\n")
        else
          let ri := store ri off_sve_vl 2 (rd16 mem (sve + off_sve_vl_ctx))
          let ri := memcpy ri (reginfo_zreg_off vq 0) (ptr_add mem (sve + SVE_SIG_REGS_OFFSET))
            (SVE_SIG_REGS_SIZE vq)
          some (ri, "")
      else
        some (simd, "")


/-! ## Concrete snapshots -/

/-- The snapshot whose bytes are all zero. -/
def zero_reginfo : reginfo := fun _ => 0

/-- The snapshot that is zero everywhere except for its `sve_vl` field. -/
def reginfo_with_vl (vl : Nat) : reginfo := store zero_reginfo off_sve_vl 2 vl

/-! ## The text of the mismatch report, field by field

These definitions word the report the way the specification does: the fixed
header, then one text for each field that differs, in the order of the
dump.  The theorems below compare them with `reginfo_dump_mismatch`. -/

/-- Concatenation of texts, in order. -/
def concat : List String → String
  | [] => ""
  | s :: l => s ++ concat l

/-- The fixed header line of the report. -/
def mismatch_header : String := "mismatch detail (master : apprentice):\n"

/-- The text `s` when the field differs, nothing otherwise. -/
def line_if (c : Prop) [Decidable c] (s : String) : List String := if c then [s] else []

/-- Report line of `faulting_insn`. -/
def line_faulting_insn (m a : reginfo) : String :=
  "  faulting insn mismatch " ++ fmt_x 8 (reginfo.faulting_insn m) ++ " vs "
    ++ fmt_x 8 (reginfo.faulting_insn a) ++ "\n"

/-- Report line of general register `i`. -/
def line_xreg (m a : reginfo) (i : Nat) : String :=
  "  X" ++ fmt_d_left 2 i ++ "    : " ++ fmt_x 16 (reginfo.regs m i) ++ " vs "
    ++ fmt_x 16 (reginfo.regs a i) ++ "\n"

/-- Report line of `sp`. -/
def line_sp (m a : reginfo) : String :=
  "  sp     : " ++ fmt_x 16 (reginfo.sp m) ++ " vs " ++ fmt_x 16 (reginfo.sp a) ++ "\n"

/-- Report line of `pc`. -/
def line_pc (m a : reginfo) : String :=
  "  pc     : " ++ fmt_x 16 (reginfo.pc m) ++ " vs " ++ fmt_x 16 (reginfo.pc a) ++ "\n"

/-- Report line of `flags`. -/
def line_flags (m a : reginfo) : String :=
  "  flags  : " ++ fmt_x 8 (reginfo.flags m) ++ " vs " ++ fmt_x 8 (reginfo.flags a) ++ "\n"

/-- Report line of `fpsr`. -/
def line_fpsr (m a : reginfo) : String :=
  "  fpsr   : " ++ fmt_x 8 (reginfo.fpsr m) ++ " vs " ++ fmt_x 8 (reginfo.fpsr a) ++ "\n"

/-- Report line of `fpcr`. -/
def line_fpcr (m a : reginfo) : String :=
  "  fpcr   : " ++ fmt_x 8 (reginfo.fpcr m) ++ " vs " ++ fmt_x 8 (reginfo.fpcr a) ++ "\n"

/-- Report line of `sve_vl`. -/
def line_vl (m a : reginfo) : String :=
  "  vl    : " ++ fmt_d (reginfo.sve_vl m) ++ " vs " ++ fmt_d (reginfo.sve_vl a) ++ "\n"

/-- Report line of SIMD vector `i`: high half first, both sides. -/
def line_vreg (m a : reginfo) (i : Nat) : String :=
  "  V" ++ fmt_d_left 2 i ++ "    : "
    ++ fmt_x 16 (rd64 (reginfo_vreg m i) 8) ++ fmt_x 16 (rd64 (reginfo_vreg m i) 0) ++ " vs "
    ++ fmt_x 16 (rd64 (reginfo_vreg a i) 8) ++ fmt_x 16 (rd64 (reginfo_vreg a i) 0) ++ "\n"

/-- SIMD vector `i` differs: some byte of its 16 bytes does. -/
def vreg_differs (m a : reginfo) (i : Nat) : Prop :=
  ∃ k, k < 16 ∧ reginfo_vreg m i k ≠ reginfo_vreg a i k

instance (m a : reginfo) (i : Nat) : Decidable (vreg_differs m a i) :=
  inferInstanceAs (Decidable (∃ k, k < 16 ∧ reginfo_vreg m i k ≠ reginfo_vreg a i k))

/-- The lines of the scalar fields that differ, in the order of the dump. -/
def scalar_lines (m a : reginfo) : List String :=
  line_if (reginfo.faulting_insn m ≠ reginfo.faulting_insn a) (line_faulting_insn m a)
  ++ ((List.range 31).filter (fun i => decide (reginfo.regs m i ≠ reginfo.regs a i))).map
      (line_xreg m a)
  ++ line_if (reginfo.sp m ≠ reginfo.sp a) (line_sp m a)
  ++ line_if (reginfo.pc m ≠ reginfo.pc a) (line_pc m a)
  ++ line_if (reginfo.flags m ≠ reginfo.flags a) (line_flags m a)
  ++ line_if (reginfo.fpsr m ≠ reginfo.fpsr a) (line_fpsr m a)
  ++ line_if (reginfo.fpcr m ≠ reginfo.fpcr a) (line_fpcr m a)
  ++ line_if (reginfo.sve_vl m ≠ reginfo.sve_vl a) (line_vl m a)

/-- Lane `q` (128 bits) of the Z registers at `za` and `zb` differs. -/
def zreg_lane_differs (za zb : Mem) (q : Nat) : Prop :=
  ∃ k, k < 16 ∧ za (16 * q + k) ≠ zb (16 * q + k)

instance (za zb : Mem) (q : Nat) : Decidable (zreg_lane_differs za zb q) :=
  inferInstanceAs (Decidable (∃ k, k < 16 ∧ za (16 * q + k) ≠ zb (16 * q + k)))

/-- The lanes of a Z register that differ, in increasing order. -/
def zreg_differing_lanes (vq : Nat) (za zb : Mem) : List Nat :=
  (List.range vq).filter (fun q => decide (zreg_lane_differs za zb q))

/-- The line of lane `q` of a Z register: what stands for the label, the lane
number, then the two 64-bit halves, high half first, of both sides. -/
def zreg_lane_line (pad : String) (za zb : Mem) (q : Nat) : String :=
  pad ++ "q" ++ fmt_d_left 2 q ++ ": "
    ++ fmt_x 16 (rd64 za (16 * q + 8)) ++ fmt_x 16 (rd64 za (16 * q)) ++ " vs "
    ++ fmt_x 16 (rd64 zb (16 * q + 8)) ++ fmt_x 16 (rd64 zb (16 * q)) ++ "\n"

/-- The lines of one Z register after its label: the first lane that differs
directly after the label, each further one padded with six blanks. -/
def zreg_diff_lines (vq : Nat) (za zb : Mem) : List String :=
  match zreg_differing_lanes vq za zb with
  | [] => []
  | q :: qs => zreg_lane_line "" za zb q :: qs.map (zreg_lane_line "      " za zb)

/-- The label of Z register `i`. -/
def zreg_label (i : Nat) : String := "  Z" ++ fmt_d_left 2 i ++ " "

/-- The text of Z register `i` in the report. -/
def zreg_text (m a : reginfo) (vq i : Nat) : String :=
  zreg_label i ++ concat (zreg_diff_lines vq (reginfo_zreg m vq i) (reginfo_zreg a vq i))

/-- Z register `i` differs: some byte of its `16 * vq` bytes does. -/
def zreg_differs (m a : reginfo) (vq i : Nat) : Prop :=
  ∃ k, k < vq * 16 ∧ reginfo_zreg m vq i k ≠ reginfo_zreg a vq i k

instance (m a : reginfo) (vq i : Nat) : Decidable (zreg_differs m a vq i) :=
  inferInstanceAs (Decidable (∃ k, k < vq * 16 ∧ reginfo_zreg m vq i k ≠ reginfo_zreg a vq i k))

/-- All lanes of a predicate register, highest lane first, four hexadecimal
digits each. -/
def preg_lanes_text (vq : Nat) (p : Mem) : String :=
  concat ((List.range vq).reverse.map (fun q => fmt_x 4 (rd16 p (2 * q))))

/-- The label of predicate register `i`; register `SVE_NUM_PREGS` is the FFR. -/
def preg_label (i : Nat) : String :=
  if i = SVE_NUM_PREGS then "  FFR   : " else "  P" ++ fmt_d_left 2 i ++ "    : "

/-- The line of predicate register `i` in the report: the whole register of
both sides. -/
def preg_line (m a : reginfo) (vq i : Nat) : String :=
  preg_label i ++ preg_lanes_text vq (reginfo_preg m vq i) ++ " vs "
    ++ preg_lanes_text vq (reginfo_preg a vq i) ++ "\n"

/-- Predicate register `i` differs: some byte of its `2 * vq` bytes does. -/
def preg_differs (m a : reginfo) (vq i : Nat) : Prop :=
  ∃ k, k < vq * 2 ∧ reginfo_preg m vq i k ≠ reginfo_preg a vq i k

instance (m a : reginfo) (vq i : Nat) : Decidable (preg_differs m a vq i) :=
  inferInstanceAs (Decidable (∃ k, k < vq * 2 ∧ reginfo_preg m vq i k ≠ reginfo_preg a vq i k))

/-- The texts of the vector registers that differ: Z registers then P
registers and FFR when the master's `sve_vl` is set, SIMD vectors otherwise. -/
def vector_lines (m a : reginfo) : List String :=
  if reginfo.sve_vl m ≠ 0 then
    ((List.range SVE_NUM_ZREGS).filter
        (fun i => decide (zreg_differs m a (sve_vq_from_vl (reginfo.sve_vl m)) i))).map
      (zreg_text m a (sve_vq_from_vl (reginfo.sve_vl m)))
    ++ ((List.range (SVE_NUM_PREGS + 1)).filter
        (fun i => decide (preg_differs m a (sve_vq_from_vl (reginfo.sve_vl m)) i))).map
      (preg_line m a (sve_vq_from_vl (reginfo.sve_vl m)))
  else
    ((List.range 32).filter (fun i => decide (vreg_differs m a i))).map (line_vreg m a)

/-- Offset in `struct reginfo` of lane `q` (16 bytes) of Z register `i` at
width `vq`. -/
def zreg_lane_offset (vq i q : Nat) : Nat := reginfo_zreg_off vq i + 16 * q

/-- Offset in `struct reginfo` of lane `q` (2 bytes) of predicate register
`i` at width `vq`; register `SVE_NUM_PREGS` is the FFR. -/
def preg_lane_offset (vq i q : Nat) : Nat := reginfo_preg_off vq i + 2 * q

/-- A stream on which nothing has been written. -/
def empty_file : FILE := { buf := "", err := false }

/-- Two quadwords wide, with some content in lane 0 of Z0. -/
def z_base : reginfo := store (reginfo_with_vl 32) offsetof_extra 16 0x1111

/-- Master of the Z register scenario: lane 1 of Z5 holds `aa:bb`. -/
def z_master : reginfo :=
  store z_base (zreg_lane_offset 2 5 1) 16 0x00000000000000aa00000000000000bb

/-- Apprentice of the Z register scenario: lane 1 of Z5 holds `aa:cc`. -/
def z_apprentice : reginfo :=
  store z_base (zreg_lane_offset 2 5 1) 16 0x00000000000000aa00000000000000cc

/-- Two quadwords wide, with lane 1 of P3 holding `abcd`. -/
def p_base : reginfo := store (reginfo_with_vl 32) (preg_lane_offset 2 3 1) 2 0xabcd

/-- Master of the predicate register scenario: lane 0 of P3 holds `00ff`. -/
def p_master : reginfo := store p_base (preg_lane_offset 2 3 0) 2 0x00ff

/-- Apprentice of the predicate register scenario: lane 0 of P3 holds `00fe`. -/
def p_apprentice : reginfo := store p_base (preg_lane_offset 2 3 0) 2 0x00fe

/-! ## The fields of a SIMD snapshot, in the order of the dump -/

/-- The fields that `reginfo_dump` renders when `sve_vl` is 0. -/
inductive SimdField where
  | faulting_insn
  | X (i : Nat)
  | sp
  | pc
  | flags
  | fpsr
  | fpcr
  | V (i : Nat)

/-- The rendered fields in the order in which `reginfo_dump` writes them:
`faulting_insn`, X0..X30, `sp`, `pc`, `flags`, `fpsr`, `fpcr`, V0..V31. -/
def simd_fields : List SimdField :=
  [SimdField.faulting_insn] ++ (List.range 31).map SimdField.X
    ++ [SimdField.sp, SimdField.pc, SimdField.flags, SimdField.fpsr, SimdField.fpcr]
    ++ (List.range 32).map SimdField.V

/-- The value of a field of a snapshot; a SIMD vector is its 128-bit value. -/
def field_value (ri : reginfo) : SimdField → Nat
  | .faulting_insn => reginfo.faulting_insn ri
  | .X i => reginfo.regs ri i
  | .sp => reginfo.sp ri
  | .pc => reginfo.pc ri
  | .flags => reginfo.flags ri
  | .fpsr => reginfo.fpsr ri
  | .fpcr => reginfo.fpcr ri
  | .V i => load (reginfo_vreg ri i) 0 16

/-- The line of a field in the mismatch report. -/
def field_mismatch_line (m a : reginfo) : SimdField → String
  | .faulting_insn => line_faulting_insn m a
  | .X i => line_xreg m a i
  | .sp => line_sp m a
  | .pc => line_pc m a
  | .flags => line_flags m a
  | .fpsr => line_fpsr m a
  | .fpcr => line_fpcr m a
  | .V i => line_vreg m a i

/-- The line of a field in the dump of one snapshot. -/
def field_dump_line (ri : reginfo) : SimdField → String
  | .faulting_insn => "  faulting insn " ++ fmt_x 8 (reginfo.faulting_insn ri) ++ "\n"
  | .X i => "  X" ++ fmt_d_left 2 i ++ "    : " ++ fmt_x 16 (reginfo.regs ri i) ++ "\n"
  | .sp => "  sp     : " ++ fmt_x 16 (reginfo.sp ri) ++ "\n"
  | .pc => "  pc     : " ++ fmt_x 16 (reginfo.pc ri) ++ "\n"
  | .flags => "  flags  : " ++ fmt_x 8 (reginfo.flags ri) ++ "\n"
  | .fpsr => "  fpsr   : " ++ fmt_x 8 (reginfo.fpsr ri) ++ "\n"
  | .fpcr => "  fpcr   : " ++ fmt_x 8 (reginfo.fpcr ri) ++ "\n"
  | .V i => "  V" ++ fmt_d_left 2 i ++ "    : " ++ fmt_x 16 (rd64 (reginfo_vreg ri i) 8)
      ++ fmt_x 16 (rd64 (reginfo_vreg ri i) 0) ++ "\n"

/-- The lines of the fields that differ, in the order of the dump. -/
def simd_mismatch_lines (m a : reginfo) : List String :=
  (simd_fields.filter (fun fld => decide (field_value m fld ≠ field_value a fld))).map
    (field_mismatch_line m a)

/-- Master of the `fpsr` scenario: a SIMD snapshot with `fpsr = 0x10`. -/
def fpsr_master : reginfo := store zero_reginfo off_fpsr 4 0x10

/-- Apprentice of the `fpsr` scenario: the same snapshot with `fpsr = 0x11`. -/
def fpsr_apprentice : reginfo := store zero_reginfo off_fpsr 4 0x11

/-! ## The steps of the capture

`reginfo_init` is the record walk between two steps that do not loop: the
fill of the header, and the copies made from the records found. -/

/-- The snapshot after the first part of `reginfo_init`: the zero fill and the
stores of the general registers, `sp`, `pc`, `flags`, `fault_address` and
`faulting_insn`. -/
def init_header (mem : Mem) (image_start_address : Nat) (ri : reginfo) (uc : ucontext_t) :
    reginfo :=
  let ri := memset ri 0 sizeof_reginfo
  let ri := (List.range 31).foldl (fun ri i => store ri (off_regs i) 8 (uc.regs i)) ri
  let ri := store ri off_sp 8 0xdeadbeefdeadbeef
  let ri := store ri off_pc 8 ((uc.pc + 2 ^ 64 - image_start_address % 2 ^ 64) % 2 ^ 64)
  let ri := store ri off_flags 4 (uc.pstate &&& 0xf0000000)
  let ri := store ri off_fault_address 8 uc.fault_address
  store ri off_faulting_insn 4 (rd32 mem uc.pc)

/-- The snapshot after the stores of `fpsr` and `fpcr` from the FP/SIMD
record at `fp`. -/
def init_fp (mem : Mem) (ri : reginfo) (fp : Nat) : reginfo :=
  store (store ri off_fpsr 4 (rd32 mem (fp + off_fpsimd_fpsr))) off_fpcr 4
    (rd32 mem (fp + off_fpsimd_fpcr))

/-- The snapshot after the copy of the 32 SIMD vectors of the FP/SIMD record
at `fp`. -/
def init_simd (mem : Mem) (ri : reginfo) (fp : Nat) : reginfo :=
  memcpy ri (reginfo_vreg_off 0) (ptr_add mem (fp + off_fpsimd_vregs)) RISU_SIMD_REGS_SIZE

/-- The snapshot after the store of `sve_vl` and the copy of the Z/P/FFR
payload of the scalable-vector record at `sve`. -/
def init_sve (mem : Mem) (vq : Nat) (ri : reginfo) (sve : Nat) : reginfo :=
  memcpy (store ri off_sve_vl 2 (rd16 mem (sve + off_sve_vl_ctx))) (reginfo_zreg_off vq 0)
    (ptr_add mem (sve + SVE_SIG_REGS_OFFSET)) (SVE_SIG_REGS_SIZE vq)

/-- The part of `reginfo_init` after the record walk, on the snapshot `ri`
filled so far and the records `fp` and `sve` found by the walk. -/
def init_finish (mem : Mem) (test_sve : Nat) (ri : reginfo) (fp sve : Nat) :
    reginfo × String :=
  if fp = 0 ∨ rd32 mem (fp + off_ctx_size) ≠ sizeof_fpsimd_context then
    (ri, "risu_reginfo_aarch64: failed to get FP/SIMD state\n")
  else if test_sve ≠ 0 then
    if sve = 0 then
      (init_fp mem ri fp, "risu_reginfo_aarch64: failed to get SVE state\n")
    else if rd16 mem (sve + off_sve_vl_ctx) ≠ sve_vl_from_vq test_sve then
      (init_fp mem ri fp, "risu_reginfo_aarch64: unexpected SVE state: "
        ++ fmt_d (rd16 mem (sve + off_sve_vl_ctx)) ++ " != "
        ++ fmt_d (sve_vl_from_vq test_sve) ++ "\n")
    else if rd32 mem (sve + off_ctx_size) ≤ SVE_SIG_CONTEXT_SIZE 0 then
      (init_simd mem (init_fp mem ri fp) fp, "")
    else if rd32 mem (sve + off_ctx_size) < SVE_SIG_CONTEXT_SIZE test_sve then
      (init_fp mem ri fp, "risu_reginfo_aarch64: failed to get complete SVE state\n")
    else
      (init_sve mem test_sve (init_fp mem ri fp) sve, "")
  else
    (init_simd mem (init_fp mem ri fp) fp, "")

/-- Two memories agree on their first `n` bytes. -/
def agree_below (n : Nat) (r1 r2 : Mem) : Prop := ∀ i, i < n → r1 i = r2 i

/-! ## A concrete capture -/

/-- A process memory with one FP/SIMD record at address `0x1000` (`fpsr = 0x10`,
`fpcr = 0x03000000`, V0 = 0x55), followed by the zero tag, and the instruction
word `0xd503201f` at address `0x400010`. -/
def w_mem : Mem :=
  store (store (store (store (store (store (fun _ => 0)
    0x1000 4 FPSIMD_MAGIC) 0x1004 4 sizeof_fpsimd_context) 0x1008 4 0x10)
    0x100c 4 0x03000000) 0x1010 16 0x55) 0x400010 4 0xd503201f

/-- A context trapped at `pc = 0x400010` with the real stack pointer in `sp`. -/
def w_uc (sp : Nat) : ucontext_t :=
  { fault_address := 0, regs := fun i => 100 + i, sp := sp, pc := 0x400010,
    pstate := 0x60001000, reserved := 0x1000 }

/-- The memory `w_mem` with a scalable-vector record after the FP/SIMD record,
at address `0x1210`: vector length 16 (one quadword) and declared size 16, the
record head alone, without payload; the zero tag follows at `0x1220`. -/
def w_mem_bare : Mem :=
  store (store (store w_mem 0x1210 4 SVE_MAGIC) 0x1214 4 16) 0x1218 2 16

/-- The memory `w_mem` with a complete scalable-vector record after the
FP/SIMD record, at address `0x1210`: vector length 16 (one quadword), declared
size 576, and a payload whose first Z register is `0x77`; the zero tag follows
at `0x1450`. -/
def w_mem_sve : Mem :=
  store (store (store (store w_mem 0x1210 4 SVE_MAGIC) 0x1214 4 576) 0x1218 2 16)
    0x1220 16 0x77

/-- A process memory without any record: the first tag is already zero. -/
def w_mem_empty : Mem := store (fun _ => 0) 0x400010 4 0xd503201f

/-! ## The command-line option -/

/-- What a call of `process_arch_opt` ends in. -/
inductive outcome where
  /-- The function returned; the global `test_sve` holds the value. -/
  | returned (test_sve : Int)
  /-- The function called `exit(status)` after writing `err` to `stderr`. -/
  | exited (status : Int) (err : String)
  /-- The `assert` failed. -/
  | aborted
  deriving DecidableEq

/-- The libc `strtol(arg, 0, 10)` on an argument that spells the integer `v`
in decimal: `v` itself when it fits a `long` (64 bits), `LONG_MAX` or
`LONG_MIN` otherwise. -/
def strtol (v : Int) : Int :=
  if v > 2 ^ 63 - 1 then 2 ^ 63 - 1 else if v < -(2 ^ 63) then -(2 ^ 63) else v

/-- The conversion of a `long` to `int` in the assignment to `test_sve`: the
value modulo `2 ^ 32`, in the range of a 32-bit signed integer. -/
def long_to_int (x : Int) : Int := (x + 2 ^ 31) % 2 ^ 32 - 2 ^ 31

/-- The libc constant `EXIT_FAILURE`. -/
def EXIT_FAILURE : Int := 1

/-- The C function `process_arch_opt`, called with the option code `opt` and
an argument that spells the integer `arg`; `FIRST_ARCH_OPT` is the constant
of that name of `risu.h` (not among the sources). -/
def process_arch_opt (FIRST_ARCH_OPT opt : Int) (arg : Int) : outcome :=
  if opt ≠ FIRST_ARCH_OPT then outcome.aborted
  else
    let test_sve := long_to_int (strtol arg)
    if test_sve ≤ 0 ∨ test_sve > SVE_VQ_MAX then
      outcome.exited EXIT_FAILURE ("Invalid value for VQ (1-" ++ fmt_d SVE_VQ_MAX ++ ")\n")
    else outcome.returned test_sve

/-- The bytes of the variable region that the report renders: the 32 SIMD
vectors when `sve_vl` is 0, the Z, P and FFR registers at the snapshot's
width otherwise. -/
def rendered_extra (m : reginfo) : Nat :=
  if reginfo.sve_vl m ≠ 0 then SVE_SIG_REGS_SIZE (sve_vq_from_vl (reginfo.sve_vl m))
  else RISU_SIMD_REGS_SIZE

/-- A snapshot that is zero except for `fault_address = 1`. -/
def fault_address_one : reginfo := store zero_reginfo off_fault_address 8 1

/-! ## Record lists

The extension records of a context, described apart from the memory that
holds them, to state what the record walk does on a list of records. -/

/-- An extension record: its tag, its declared size, and its bytes, seen from
its first byte. -/
structure record where
  /-- The tag, `head.magic`. -/
  tag : Nat
  /-- The declared size, `head.size`. -/
  size : Nat
  /-- The bytes of the record. -/
  body : Mem

/-- The records of `l` lie in `mem` one after the other from address `a`:
each at a nonzero 64-bit address, with a nonzero tag, a positive declared
size, and its `size` bytes; the next one starts `size` bytes further; after
the last one comes a zero tag. -/
def lays_out (mem : Mem) : Nat → List record → Prop
  | a, [] => 0 < a ∧ rd32 mem (a + off_ctx_magic) = 0
  | a, r :: l =>
    0 < a ∧ a + r.size < 2 ^ 64
    ∧ rd32 mem (a + off_ctx_magic) = r.tag ∧ rd32 mem (a + off_ctx_size) = r.size
    ∧ r.tag ≠ 0 ∧ 0 < r.size
    ∧ (∀ j, j < r.size → mem (a + j) = r.body j)
    ∧ lays_out mem (a + r.size) l

/-- The records of a list laid out from address `a`, each with its address. -/
def layout : Nat → List record → List (Nat × record)
  | _, [] => []
  | a, r :: l => (a, r) :: layout (a + r.size) l

/-- The address of the zero tag that ends a list laid out from address `a`. -/
def layout_end : Nat → List record → Nat
  | a, [] => a
  | a, r :: l => layout_end (a + r.size) l

/-- The addresses at which the loop runs for a list laid out from `a`: each
record in order, then the zero tag. -/
def visited (a : Nat) (l : List record) : List Nat :=
  (layout a l).map Prod.fst ++ [layout_end a l]

/-- The address of the last record with tag `t` among records with
addresses, `p0` when there is none. -/
def last_tagged (t : Nat) (p0 : Nat) (al : List (Nat × record)) : Nat :=
  al.foldl (fun p x => if x.2.tag = t then x.1 else p) p0

/-- The `datap` of the last `EXTRA_MAGIC` record among records with
addresses, read from `mem`; `d0` when there is none. -/
def last_datap (mem : Mem) (d0 : Nat) (al : List (Nat × record)) : Nat :=
  al.foldl (fun d x => if x.2.tag = EXTRA_MAGIC then rd64 mem (x.1 + off_extra_datap) else d) d0

/-- The state of the walk at the zero tag at address `e`, after the records
`al` were visited from state `s`: the last FP/SIMD record, the last SVE
record, and the overflow area of the last `EXTRA_MAGIC` record. -/
def scan (mem : Mem) (s : walk_state) (al : List (Nat × record)) (e : Nat) : walk_state :=
  { ctx := e
    extra := last_datap mem s.extra al
    fp := last_tagged FPSIMD_MAGIC s.fp al
    sve := last_tagged SVE_MAGIC s.sve al }

/-- The addresses at which the body of the loop `while (ctx)` runs, for at
most `fuel` iterations. -/
def walk_trace (mem : Mem) : Nat → walk_state → List Nat
  | 0, _ => []
  | fuel + 1, s => if s.ctx = 0 then [] else s.ctx :: walk_trace mem fuel (walk_step mem s)

/-! ## Concrete record chains -/

/-- The memory `w_mem` with an `EXTRA_MAGIC` record after the FP/SIMD record,
at address `0x1210`, of declared size 32 and with `datap = 0x3000`; the inline
zero tag follows at `0x1230`.  The overflow area at `0x3000` holds an SVE
record of declared size 16 and vector length 16, and then a zero tag at
`0x3010`. -/
def w_mem_extra : Mem :=
  store (store (store (store (store (store w_mem
    0x1210 4 EXTRA_MAGIC) 0x1214 4 32) 0x1218 8 0x3000)
    0x3000 4 SVE_MAGIC) 0x3004 4 16) 0x3008 2 16

/-- The inline records of `w_mem_extra`. -/
def w_inline : List record :=
  [⟨FPSIMD_MAGIC, 528, ptr_add w_mem_extra 0x1000⟩, ⟨EXTRA_MAGIC, 32, ptr_add w_mem_extra 0x1210⟩]

/-- The records of the overflow area of `w_mem_extra`. -/
def w_overflow : List record := [⟨SVE_MAGIC, 16, ptr_add w_mem_extra 0x3000⟩]

/-- A memory whose inline list is one `EXTRA_MAGIC` record at `0x1000`
(declared size 32, zero tag at `0x1020`) with `datap = 0x2000`, and whose
overflow area at `0x2000` is one `EXTRA_MAGIC` record (declared size 32, zero
tag at `0x2020`) with `datap = 0x2000` again. -/
def loop_mem : Mem :=
  store (store (store (store (store (store (fun _ => 0)
    0x1000 4 EXTRA_MAGIC) 0x1004 4 32) 0x1008 8 0x2000)
    0x2000 4 EXTRA_MAGIC) 0x2004 4 32) 0x2008 8 0x2000

/-! ## Well-formed contexts and the insertion of a record -/

/-- An SVE record declares at least the size of `struct sve_context`, the
fixed part with the field `vl`, which `reginfo_init` reads before it looks
at the declared size. -/
def header_fits (r : record) : Prop := r.tag = SVE_MAGIC → 16 ≤ r.size

/-- A well-formed context in memory `mem`, with its inline records `I` laid
out from address `a` and the records `O` of its overflow area: the SVE
records declare at least their fixed part; when no overflow area is pending
at the inline zero tag, `O` is empty; otherwise `O` is laid out from the
`datap` of the last `EXTRA_MAGIC` record of `I`, and holds no `EXTRA_MAGIC`
record. -/
def well_formed (mem : Mem) (a : Nat) (I O : List record) : Prop :=
  lays_out mem a I
  ∧ (∀ r, r ∈ I → header_fits r)
  ∧ (∀ r, r ∈ O → header_fits r ∧ r.tag ≠ EXTRA_MAGIC)
  ∧ (last_datap mem 0 (layout a I) = 0 → O = [])
  ∧ (last_datap mem 0 (layout a I) ≠ 0 → lays_out mem (last_datap mem 0 (layout a I)) O)

/-- The list `l2` is the list `l1` with the record `u` inserted at some
position. -/
def inserted (u : record) (l1 l2 : List record) : Prop :=
  ∃ A B, l1 = A ++ B ∧ l2 = A ++ u :: B

/-- The last record with tag `t` of a list, if any. -/
def last_of (t : Nat) (l : List record) : Option record :=
  l.foldl (fun o r => if r.tag = t then some r else o) none

/-- The pointer `p` is `NULL` when there is no record, and otherwise points
in `mem` to the bytes of the record, whose size field holds its size. -/
def points_to (mem : Mem) (p : Nat) : Option record → Prop
  | none => p = 0
  | some r => p ≠ 0 ∧ rd32 mem (p + off_ctx_size) = r.size
      ∧ ∀ j, j < r.size → mem (p + j) = r.body j

/-- The memory `w_mem` after the insertion of a record of the unrecognised
tag `0x4b564d01` and of declared size 16 in front of the FP/SIMD record, which
moves to `0x1010`; the zero tag follows at `0x1220`. -/
def w_mem_ins : Mem :=
  store (store (store (memcpy (fun _ => 0) 0x1010 (ptr_add w_mem 0x1000) 528)
    0x1000 4 0x4b564d01) 0x1004 4 16) 0x400010 4 0xd503201f

/-- The inserted record of `w_mem_ins`. -/
def w_unknown : record := ⟨0x4b564d01, 16, ptr_add w_mem_ins 0x1000⟩

/-- The FP/SIMD record of `w_mem`. -/
def w_fpsimd : record := ⟨FPSIMD_MAGIC, 528, ptr_add w_mem 0x1000⟩

/-! ## Theorems -/

theorem byte_val_ne {a b : Byte} (h : a ≠ b) : ((a.val : Int) - (b.val : Int)) ≠ 0 := by
  intro h0
  apply h
  apply Fin.ext
  omega

theorem memcmpFrom_eq_zero_iff (s1 s2 : Mem) (n : Nat) :
    ∀ i, memcmpFrom s1 s2 i n = 0 ↔ ∀ j, j < n → s1 (i + j) = s2 (i + j) := by
  induction n with
  | zero => intro i; simp [memcmpFrom]
  | succ n ih =>
    intro i
    unfold memcmpFrom
    by_cases h : s1 i = s2 i
    · rw [if_pos h, ih (i + 1)]
      constructor
      · intro hj j hlt
        cases j with
        | zero => simpa using h
        | succ j =>
          have := hj j (by omega)
          rwa [show i + (j + 1) = i + 1 + j by omega]
      · intro hj j hlt
        have := hj (j + 1) (by omega)
        rwa [show i + (j + 1) = i + 1 + j by omega] at this
    · rw [if_neg h]
      constructor
      · intro h0; exact absurd h0 (byte_val_ne h)
      · intro hj; exact absurd (by simpa using hj 0 (by omega)) h

theorem memcmp_eq_zero_iff (s1 s2 : Mem) (n : Nat) :
    memcmp s1 s2 n = 0 ↔ ∀ j, j < n → s1 j = s2 j := by
  unfold memcmp
  rw [memcmpFrom_eq_zero_iff]
  simp

theorem load_congr (p q : Mem) (n : Nat) :
    ∀ a b, (∀ j, j < n → p (a + j) = q (b + j)) → load p a n = load q b n := by
  induction n with
  | zero => intro a b _; rfl
  | succ n ih =>
    intro a b h
    unfold load
    have h0 := h 0 (by omega)
    simp only [Nat.add_zero] at h0
    rw [h0, ih (a + 1) (b + 1)]
    intro j hj
    have := h (j + 1) (by omega)
    rwa [show a + (j + 1) = a + 1 + j by omega, show b + (j + 1) = b + 1 + j by omega] at this

theorem load_lt (p : Mem) (n : Nat) : ∀ a, load p a n < 256 ^ n := by
  induction n with
  | zero => intro a; simp [load]
  | succ n ih =>
    intro a
    unfold load
    have h1 := ih (a + 1)
    have h2 := (p a).isLt
    rw [pow_succ]
    omega

theorem load_inj (p q : Mem) (n : Nat) :
    ∀ a b, load p a n = load q b n → ∀ j, j < n → p (a + j) = q (b + j) := by
  induction n with
  | zero => intro a b _ j hj; omega
  | succ n ih =>
    intro a b h j hj
    unfold load at h
    have hp := (p a).isLt
    have hq := (q b).isLt
    have h0 : (p a).val = (q b).val := by omega
    have h1 : load p (a + 1) n = load q (b + 1) n := by omega
    cases j with
    | zero => simpa using Fin.ext h0
    | succ j =>
      have := ih (a + 1) (b + 1) h1 j (by omega)
      rwa [show a + (j + 1) = a + 1 + j by omega, show b + (j + 1) = b + 1 + j by omega]

theorem load_eq_iff (p q : Mem) (n a b : Nat) :
    load p a n = load q b n ↔ ∀ j, j < n → p (a + j) = q (b + j) :=
  ⟨load_inj p q n a b, load_congr p q n a b⟩

theorem RISU_SVE_REGS_SIZE_eq (vq : Nat) : RISU_SVE_REGS_SIZE vq = (546 * vq + 15) / 16 * 16 := by
  simp only [RISU_SVE_REGS_SIZE, ROUND_UP, SVE_SIG_REGS_SIZE, SVE_SIG_FFR_OFFSET, SVE_SIG_FFR_SIZE,
    SVE_SIG_PREGS_OFFSET, SVE_SIG_PREGS_SIZE, SVE_SIG_PREG_OFFSET, SVE_SIG_PREG_SIZE,
    SVE_SIG_ZREGS_SIZE, SVE_SIG_ZREG_OFFSET, SVE_SIG_ZREG_SIZE, SVE_SIG_REGS_OFFSET,
    sizeof_sve_context, SVE_VQ_BYTES, SVE_NUM_ZREGS, SVE_NUM_PREGS]
  omega

theorem offsetof_extra_le_reginfo_size (ri : reginfo) : offsetof_extra ≤ reginfo_size ri := by
  simp only [reginfo_size]
  split <;> omega

theorem sve_vl_congr (r1 r2 : reginfo) (h : ∀ i, i < offsetof_extra → r1 i = r2 i) :
    reginfo.sve_vl r1 = reginfo.sve_vl r2 := by
  unfold reginfo.sve_vl rd16
  apply load_congr
  intro j hj
  apply h
  simp only [off_sve_vl, offsetof_extra]
  omega

theorem reginfo_size_congr (r1 r2 : reginfo) (h : reginfo.sve_vl r1 = reginfo.sve_vl r2) :
    reginfo_size r1 = reginfo_size r2 := by
  unfold reginfo_size
  rw [h]

theorem reginfo_is_eq_ne_zero_iff (r1 r2 : reginfo) :
    reginfo_is_eq r1 r2 ≠ 0 ↔ ∀ i, i < reginfo_size r1 → r1 i = r2 i := by
  unfold reginfo_is_eq
  rw [← memcmp_eq_zero_iff]
  split <;> simp_all

theorem reginfo_is_eq_eq_zero_iff (r1 r2 : reginfo) :
    reginfo_is_eq r1 r2 = 0 ↔ ∃ i, i < reginfo_size r1 ∧ r1 i ≠ r2 i := by
  have h := reginfo_is_eq_ne_zero_iff r1 r2
  constructor
  · intro h0
    by_contra hne
    push_neg at hne
    exact (h.mpr hne) h0
  · rintro ⟨i, hi, hne⟩
    by_contra h0
    exact hne (h.mp h0 i hi)

/-- C1. `reginfo_is_eq r1 r2` is nonzero exactly when the first
`reginfo_size r1` bytes of the two snapshots are identical; one differing bit
inside that range makes it 0; bytes past that range do not affect it. -/
theorem reginfo_is_eq_bytes (r1 r2 : reginfo) :
    (reginfo_is_eq r1 r2 ≠ 0 ↔ ∀ i, i < reginfo_size r1 → r1 i = r2 i)
    ∧ (∀ i k, i < reginfo_size r1 →
        (r1 i).val.testBit k ≠ (r2 i).val.testBit k → reginfo_is_eq r1 r2 = 0)
    ∧ (∀ r1' r2' : reginfo,
        (∀ i, i < reginfo_size r1 → r1' i = r1 i ∧ r2' i = r2 i) →
        reginfo_is_eq r1' r2' = reginfo_is_eq r1 r2) := by
  refine ⟨reginfo_is_eq_ne_zero_iff r1 r2, ?_, ?_⟩
  · intro i k hi hbit
    rw [reginfo_is_eq_eq_zero_iff]
    refine ⟨i, hi, ?_⟩
    intro heq
    rw [heq] at hbit
    exact hbit rfl
  · intro r1' r2' h
    have hsz : reginfo_size r1' = reginfo_size r1 := by
      apply reginfo_size_congr
      apply sve_vl_congr
      intro i hi
      exact (h i (lt_of_lt_of_le hi (offsetof_extra_le_reginfo_size r1))).1
    unfold reginfo_is_eq
    rw [hsz]
    have : memcmp r1' r2' (reginfo_size r1) = 0 ↔ memcmp r1 r2 (reginfo_size r1) = 0 := by
      rw [memcmp_eq_zero_iff, memcmp_eq_zero_iff]
      constructor
      · intro hh j hj
        rw [← (h j hj).1, ← (h j hj).2]
        exact hh j hj
      · intro hh j hj
        rw [(h j hj).1, (h j hj).2]
        exact hh j hj
    by_cases hm : memcmp r1 r2 (reginfo_size r1) = 0
    · rw [if_pos hm, if_pos (this.mpr hm)]
    · rw [if_neg hm, if_neg (fun hh => hm (this.mp hh))]

/-- C2. `reginfo_is_eq` is reflexive for every snapshot, and symmetric for
every pair of snapshots with the same `sve_vl`. -/
theorem reginfo_is_eq_refl_symm :
    (∀ x : reginfo, reginfo_is_eq x x ≠ 0)
    ∧ (∀ a b : reginfo, reginfo.sve_vl a = reginfo.sve_vl b →
        (reginfo_is_eq a b ≠ 0 ↔ reginfo_is_eq b a ≠ 0)) := by
  constructor
  · intro x
    rw [reginfo_is_eq_ne_zero_iff]
    intro i _
    rfl
  · intro a b h
    rw [reginfo_is_eq_ne_zero_iff, reginfo_is_eq_ne_zero_iff, reginfo_size_congr a b h]
    constructor <;> intro hh i hi <;> exact (hh i hi).symm

/-- C3. `reginfo_size ri` is the fixed header length `offsetof(struct reginfo,
extra)` plus `RISU_SIMD_REGS_SIZE` (32 * 16 bytes) when `sve_vl` is 0 and plus
`RISU_SVE_REGS_SIZE(sve_vl / 16)` otherwise; it depends on `sve_vl` only. -/
theorem reginfo_size_spec :
    (∀ ri : reginfo, reginfo.sve_vl ri = 0 →
        reginfo_size ri = offsetof_extra + RISU_SIMD_REGS_SIZE)
    ∧ (∀ ri : reginfo, reginfo.sve_vl ri ≠ 0 →
        reginfo_size ri = offsetof_extra + RISU_SVE_REGS_SIZE (reginfo.sve_vl ri / 16))
    ∧ RISU_SIMD_REGS_SIZE = 32 * 16
    ∧ (∀ r1 r2 : reginfo, reginfo.sve_vl r1 = reginfo.sve_vl r2 →
        reginfo_size r1 = reginfo_size r2) := by
  refine ⟨?_, ?_, rfl, reginfo_size_congr⟩
  · intro ri h
    simp [reginfo_size, h]
  · intro ri h
    simp [reginfo_size, h, sve_vq_from_vl, SVE_VQ_BYTES]

/-- C4. Over the valid widths `sve_vl = 16 * vq`, `1 ≤ vq ≤ SVE_VQ_MAX`,
`reginfo_size` is strictly increasing in the width, whatever the other bytes
of the two snapshots are. -/
theorem reginfo_size_strict_mono (r1 r2 : reginfo) (vq1 vq2 : Nat)
    (h1 : 1 ≤ vq1) (h12 : vq1 < vq2) (_h2 : vq2 ≤ SVE_VQ_MAX)
    (hr1 : reginfo.sve_vl r1 = 16 * vq1) (hr2 : reginfo.sve_vl r2 = 16 * vq2) :
    reginfo_size r1 < reginfo_size r2 := by
  have e1 : reginfo_size r1 = offsetof_extra + RISU_SVE_REGS_SIZE vq1 := by
    simp only [reginfo_size, hr1, sve_vq_from_vl, SVE_VQ_BYTES]
    rw [if_pos (by omega)]
    congr 2
    omega
  have e2 : reginfo_size r2 = offsetof_extra + RISU_SVE_REGS_SIZE vq2 := by
    simp only [reginfo_size, hr2, sve_vq_from_vl, SVE_VQ_BYTES]
    rw [if_pos (by omega)]
    congr 2
    omega
  rw [e1, e2, RISU_SVE_REGS_SIZE_eq, RISU_SVE_REGS_SIZE_eq]
  omega

/-- Witness of C4: widths of 1 and 2 quadwords, sizes 864 and 1408. -/
theorem reginfo_size_strict_mono_witness :
    reginfo_size (reginfo_with_vl 16) = 864 ∧ reginfo_size (reginfo_with_vl 32) = 1408
    ∧ reginfo_size (reginfo_with_vl 16) < reginfo_size (reginfo_with_vl 32) :=
  ⟨by decide, by decide,
    reginfo_size_strict_mono (reginfo_with_vl 16) (reginfo_with_vl 32) 1 2
      (by decide) (by decide) (by decide) (by decide) (by decide)⟩

/-! ### Streams and texts -/

theorem fprintf_buf (f : FILE) (s : String) : (fprintf f s).buf = f.buf ++ s := rfl

theorem fprintf_err (f : FILE) (s : String) : (fprintf f s).err = f.err := rfl

theorem fprintf_empty (f : FILE) : fprintf f "" = f := by
  cases f
  simp [fprintf]

theorem fprintf_fprintf (f : FILE) (s t : String) :
    fprintf (fprintf f s) t = fprintf f (s ++ t) := by
  simp [fprintf, String.append_assoc]

theorem concat_append (l1 l2 : List String) : concat (l1 ++ l2) = concat l1 ++ concat l2 := by
  induction l1 with
  | nil => simp [concat]
  | cons s l ih => simp [concat, ih, String.append_assoc]

theorem concat_singleton (s : String) : concat [s] = s := by
  simp [concat]

theorem concat_line_if (c : Prop) [Decidable c] (s : String) :
    concat (line_if c s) = if c then s else "" := by
  unfold line_if
  split <;> simp [concat]

theorem ite_fprintf (c : Prop) [Decidable c] (f : FILE) (s : String) :
    (if c then fprintf f s else f) = fprintf f (concat (line_if c s)) := by
  rw [concat_line_if]
  split
  · rfl
  · rw [fprintf_empty]

/-- A loop that writes `s i` for the indices where `c i` holds writes the
texts of those indices in order. -/
theorem foldl_fprintf_filter (c : Nat → Prop) [∀ i, Decidable (c i)] (s : Nat → String)
    (step : FILE → Nat → FILE) (l : List Nat)
    (hstep : ∀ f i, i ∈ l → step f i = if c i then fprintf f (s i) else f) :
    ∀ f, l.foldl step f = fprintf f (concat ((l.filter (fun i => decide (c i))).map s)) := by
  induction l with
  | nil => intro f; simp [concat, fprintf_empty]
  | cons i l ih =>
    intro f
    rw [List.foldl_cons, ih (fun f j hj => hstep f j (List.mem_cons_of_mem _ hj)),
      hstep f i (List.mem_cons_self _ _)]
    by_cases hc : c i
    · rw [if_pos hc, List.filter_cons_of_pos (by simpa using hc), List.map_cons, concat,
        fprintf_fprintf]
    · rw [if_neg hc, List.filter_cons_of_neg (by simpa using hc)]

/-- A loop that writes `s i` for every index writes all the texts in order. -/
theorem foldl_fprintf_map (s : Nat → String) (l : List Nat) :
    ∀ f, l.foldl (fun f i => fprintf f (s i)) f = fprintf f (concat (l.map s)) := by
  induction l with
  | nil => intro f; simp [concat, fprintf_empty]
  | cons i l ih =>
    intro f
    rw [List.foldl_cons, ih, List.map_cons, concat, fprintf_fprintf]

/-! ### Comparisons of the report, byte by byte -/

theorem rd64_pair_ne_iff (p q : Mem) (a : Nat) :
    (rd64 p a ≠ rd64 q a ∨ rd64 p (a + 8) ≠ rd64 q (a + 8))
      ↔ ∃ k, k < 16 ∧ p (a + k) ≠ q (a + k) := by
  unfold rd64
  constructor
  · intro h
    by_contra hne
    push_neg at hne
    rcases h with h | h
    · exact h (load_congr p q 8 a a (fun j hj => hne j (by omega)))
    · refine h (load_congr p q 8 (a + 8) (a + 8) (fun j hj => ?_))
      have := hne (8 + j) (by omega)
      rwa [show a + (8 + j) = a + 8 + j by omega] at this
  · rintro ⟨k, hk, hne⟩
    by_contra hh
    push_neg at hh
    by_cases hk8 : k < 8
    · exact hne (load_inj p q 8 a a hh.1 k hk8)
    · have := load_inj p q 8 (a + 8) (a + 8) hh.2 (k - 8) (by omega)
      rw [show a + 8 + (k - 8) = a + k by omega] at this
      exact hne this

theorem sve_zreg_is_eq_eq_zero_iff (vq : Nat) (z1 z2 : Mem) :
    sve_zreg_is_eq vq z1 z2 = 0 ↔ ∃ k, k < vq * 16 ∧ z1 k ≠ z2 k := by
  unfold sve_zreg_is_eq
  have h := memcmp_eq_zero_iff z1 z2 (vq * 16)
  by_cases hm : memcmp z1 z2 (vq * 16) = 0
  · rw [if_pos hm]
    simp only [one_ne_zero, false_iff, not_exists, not_and, not_not]
    exact h.mp hm
  · rw [if_neg hm]
    simp only [true_iff]
    by_contra hne
    push_neg at hne
    exact hm (h.mpr hne)

theorem sve_preg_is_eq_eq_zero_iff (vq : Nat) (p1 p2 : Mem) :
    sve_preg_is_eq vq p1 p2 = 0 ↔ ∃ k, k < vq * 2 ∧ p1 k ≠ p2 k := by
  unfold sve_preg_is_eq
  have h := memcmp_eq_zero_iff p1 p2 (vq * 2)
  by_cases hm : memcmp p1 p2 (vq * 2) = 0
  · rw [if_pos hm]
    simp only [one_ne_zero, false_iff, not_exists, not_and, not_not]
    exact h.mp hm
  · rw [if_neg hm]
    simp only [true_iff]
    by_contra hne
    push_neg at hne
    exact hm (h.mpr hne)

/-! ### The loops of the report -/

theorem sve_dump_preg_eq (f : FILE) (vq : Nat) (p : Mem) :
    sve_dump_preg f vq p = fprintf f (preg_lanes_text vq p) := by
  unfold sve_dump_preg preg_lanes_text
  exact foldl_fprintf_map (fun q => fmt_x 4 (rd16 p (2 * q))) _ f

theorem sve_dump_preg_diff_eq (f : FILE) (vq : Nat) (p1 p2 : Mem) :
    sve_dump_preg_diff f vq p1 p2
      = fprintf f (preg_lanes_text vq p1 ++ " vs " ++ preg_lanes_text vq p2 ++ "\n") := by
  simp only [sve_dump_preg_diff, sve_dump_preg_eq, fprintf_fprintf, String.append_assoc]

theorem sve_dump_zreg_diff_step_eq (za zb : Mem) (st : FILE × String) (q : Nat) :
    sve_dump_zreg_diff_step za zb st q
      = if zreg_lane_differs za zb q then
          (fprintf st.1 (zreg_lane_line st.2 za zb q), "      ")
        else st := by
  unfold sve_dump_zreg_diff_step
  have hiff := rd64_pair_ne_iff za zb (16 * q)
  have e1 : 8 * (2 * q) = 16 * q := by omega
  have e2 : 8 * (2 * q + 1) = 16 * q + 8 := by omega
  simp only [e1, e2]
  by_cases h : zreg_lane_differs za zb q
  · rw [if_pos (hiff.mpr h), if_pos h]
    simp only [zreg_lane_line, String.append_assoc]
  · rw [if_neg (fun hh => h (hiff.mp hh)), if_neg h]

/-- Once a line has been written, the loop of `sve_dump_zreg_diff` pads each
further line with six blanks. -/
theorem sve_dump_zreg_diff_loop_padded (za zb : Mem) (l : List Nat) :
    ∀ f, l.foldl (sve_dump_zreg_diff_step za zb) (f, "      ")
      = (fprintf f (concat ((l.filter (fun q => decide (zreg_lane_differs za zb q))).map
            (zreg_lane_line "      " za zb))), "      ") := by
  induction l with
  | nil => intro f; simp [concat, fprintf_empty]
  | cons q l ih =>
    intro f
    rw [List.foldl_cons, sve_dump_zreg_diff_step_eq]
    by_cases h : zreg_lane_differs za zb q
    · rw [if_pos h, ih, List.filter_cons_of_pos (by simpa using h), List.map_cons, concat,
        fprintf_fprintf]
    · rw [if_neg h, ih, List.filter_cons_of_neg (by simpa using h)]

/-- The loop of `sve_dump_zreg_diff` from its start, over any list of lanes. -/
theorem sve_dump_zreg_diff_loop (za zb : Mem) (l : List Nat) :
    ∀ f, (l.foldl (sve_dump_zreg_diff_step za zb) (f, "")).1
      = fprintf f (concat
          (match l.filter (fun q => decide (zreg_lane_differs za zb q)) with
           | [] => []
           | q :: qs => zreg_lane_line "" za zb q :: qs.map (zreg_lane_line "      " za zb))) := by
  induction l with
  | nil => intro f; simp [concat, fprintf_empty]
  | cons q l ih =>
    intro f
    rw [List.foldl_cons, sve_dump_zreg_diff_step_eq]
    by_cases h : zreg_lane_differs za zb q
    · rw [if_pos h, sve_dump_zreg_diff_loop_padded, List.filter_cons_of_pos (by simpa using h)]
      simp only [concat, fprintf_fprintf]
    · rw [if_neg h, ih, List.filter_cons_of_neg (by simpa using h)]

theorem sve_dump_zreg_diff_eq (f : FILE) (vq : Nat) (za zb : Mem) :
    sve_dump_zreg_diff f vq za zb = fprintf f (concat (zreg_diff_lines vq za zb)) := by
  unfold sve_dump_zreg_diff zreg_diff_lines zreg_differing_lanes
  exact sve_dump_zreg_diff_loop za zb _ f

/-! ### The whole report -/

theorem xreg_loop_eq (m a : reginfo) (f : FILE) :
    (List.range 31).foldl
      (fun f i =>
        if reginfo.regs m i ≠ reginfo.regs a i then
          fprintf f ("  X" ++ fmt_d_left 2 i ++ "    : " ++ fmt_x 16 (reginfo.regs m i) ++ " vs "
            ++ fmt_x 16 (reginfo.regs a i) ++ "\n")
        else f) f
    = fprintf f (concat (((List.range 31).filter
        (fun i => decide (reginfo.regs m i ≠ reginfo.regs a i))).map (line_xreg m a))) :=
  foldl_fprintf_filter (fun i => reginfo.regs m i ≠ reginfo.regs a i) (line_xreg m a) _ _
    (fun _ _ _ => rfl) f

theorem vreg_loop_eq (m a : reginfo) (f : FILE) :
    (List.range 32).foldl
      (fun f i =>
        let mv := reginfo_vreg m i
        let av := reginfo_vreg a i
        if rd64 mv (8 * 0) ≠ rd64 av (8 * 0) ∨ rd64 mv (8 * 1) ≠ rd64 av (8 * 1) then
          fprintf f ("  V" ++ fmt_d_left 2 i ++ "    : "
            ++ fmt_x 16 (rd64 mv (8 * 1)) ++ fmt_x 16 (rd64 mv (8 * 0)) ++ " vs "
            ++ fmt_x 16 (rd64 av (8 * 1)) ++ fmt_x 16 (rd64 av (8 * 0)) ++ "\n")
        else f) f
    = fprintf f (concat (((List.range 32).filter
        (fun i => decide (vreg_differs m a i))).map (line_vreg m a))) := by
  apply foldl_fprintf_filter (fun i => vreg_differs m a i) (line_vreg m a)
  intro f i _
  have hiff := rd64_pair_ne_iff (reginfo_vreg m i) (reginfo_vreg a i) 0
  simp only [Nat.zero_add] at hiff
  show (if rd64 (reginfo_vreg m i) 0 ≠ rd64 (reginfo_vreg a i) 0
        ∨ rd64 (reginfo_vreg m i) 8 ≠ rd64 (reginfo_vreg a i) 8 then _ else _) = _
  by_cases h : vreg_differs m a i
  · rw [if_pos (hiff.mpr h), if_pos h]
    rfl
  · rw [if_neg (fun hh => h (hiff.mp hh)), if_neg h]

theorem zreg_loop_eq (m a : reginfo) (vq : Nat) (f : FILE) :
    (List.range SVE_NUM_ZREGS).foldl
      (fun f i =>
        let zm := reginfo_zreg m vq i
        let za := reginfo_zreg a vq i
        if sve_zreg_is_eq vq zm za = 0 then
          let f := fprintf f ("  Z" ++ fmt_d_left 2 i ++ " ")
          sve_dump_zreg_diff f vq zm za
        else f) f
    = fprintf f (concat (((List.range SVE_NUM_ZREGS).filter
        (fun i => decide (zreg_differs m a vq i))).map (zreg_text m a vq))) := by
  apply foldl_fprintf_filter (fun i => zreg_differs m a vq i) (zreg_text m a vq)
  intro f i _
  have hiff := sve_zreg_is_eq_eq_zero_iff vq (reginfo_zreg m vq i) (reginfo_zreg a vq i)
  show (if sve_zreg_is_eq vq (reginfo_zreg m vq i) (reginfo_zreg a vq i) = 0 then
          sve_dump_zreg_diff (fprintf f ("  Z" ++ fmt_d_left 2 i ++ " ")) vq
            (reginfo_zreg m vq i) (reginfo_zreg a vq i)
        else f) = _
  by_cases h : zreg_differs m a vq i
  · rw [if_pos (hiff.mpr h), if_pos h, sve_dump_zreg_diff_eq, fprintf_fprintf]
    rfl
  · rw [if_neg (fun hh => h (hiff.mp hh)), if_neg h]

theorem preg_loop_eq (m a : reginfo) (vq : Nat) (f : FILE) :
    (List.range (SVE_NUM_PREGS + 1)).foldl
      (fun f i =>
        let pm := reginfo_preg m vq i
        let pa := reginfo_preg a vq i
        if sve_preg_is_eq vq pm pa = 0 then
          let f := if i = SVE_NUM_PREGS then fprintf f "  FFR   : "
                   else fprintf f ("  P" ++ fmt_d_left 2 i ++ "    : ")
          sve_dump_preg_diff f vq pm pa
        else f) f
    = fprintf f (concat (((List.range (SVE_NUM_PREGS + 1)).filter
        (fun i => decide (preg_differs m a vq i))).map (preg_line m a vq))) := by
  apply foldl_fprintf_filter (fun i => preg_differs m a vq i) (preg_line m a vq)
  intro f i _
  have hiff := sve_preg_is_eq_eq_zero_iff vq (reginfo_preg m vq i) (reginfo_preg a vq i)
  show (if sve_preg_is_eq vq (reginfo_preg m vq i) (reginfo_preg a vq i) = 0 then
          sve_dump_preg_diff
            (if i = SVE_NUM_PREGS then fprintf f "  FFR   : "
              else fprintf f ("  P" ++ fmt_d_left 2 i ++ "    : ")) vq
            (reginfo_preg m vq i) (reginfo_preg a vq i)
        else f) = _
  by_cases h : preg_differs m a vq i
  · rw [if_pos (hiff.mpr h), if_pos h, sve_dump_preg_diff_eq]
    have hl : (if i = SVE_NUM_PREGS then fprintf f "  FFR   : "
        else fprintf f ("  P" ++ fmt_d_left 2 i ++ "    : ")) = fprintf f (preg_label i) := by
      unfold preg_label
      split <;> rfl
    rw [hl, fprintf_fprintf]
    simp only [preg_line, String.append_assoc]
  · rw [if_neg (fun hh => h (hiff.mp hh)), if_neg h]

/-- The report of `reginfo_dump_mismatch` is the header, the lines of the
scalar fields that differ, then the texts of the vector registers that
differ. -/
theorem reginfo_dump_mismatch_eq (m a : reginfo) (f : FILE) :
    (reginfo_dump_mismatch m a f).1
      = fprintf f (mismatch_header ++ concat (scalar_lines m a ++ vector_lines m a)) := by
  by_cases hvl : reginfo.sve_vl m ≠ 0
  · simp only [reginfo_dump_mismatch, if_pos hvl]
    rw [preg_loop_eq, zreg_loop_eq, xreg_loop_eq]
    simp only [ite_fprintf]
    simp only [fprintf_fprintf]
    simp only [vector_lines, if_pos hvl, scalar_lines, concat_append, mismatch_header,
      line_faulting_insn, line_sp, line_pc, line_flags, line_fpsr, line_fpcr, line_vl,
      String.append_assoc]
  · simp only [reginfo_dump_mismatch, if_neg hvl]
    rw [vreg_loop_eq, xreg_loop_eq]
    simp only [ite_fprintf]
    simp only [fprintf_fprintf]
    simp only [vector_lines, if_neg hvl, scalar_lines, concat_append, mismatch_header,
      line_faulting_insn, line_sp, line_pc, line_flags, line_fpsr, line_fpcr, line_vl,
      String.append_assoc]

/-! ### Which lines are written -/

theorem reginfo_vreg_apply (m : reginfo) (i k : Nat) :
    reginfo_vreg m i k = m (offsetof_extra + 16 * i + k) := by
  show m _ = m _
  congr 1
  simp only [reginfo_vreg_off]
  ring

theorem SVE_SIG_REGS_OFFSET_eq : SVE_SIG_REGS_OFFSET = 16 := by decide

theorem reginfo_zreg_apply (m : reginfo) (vq i k : Nat) :
    reginfo_zreg m vq i k = m (offsetof_extra + 16 * (vq * i) + k) := by
  show m _ = m _
  congr 1
  simp only [reginfo_zreg_off, SVE_SIG_ZREG_OFFSET, SVE_SIG_ZREG_SIZE, SVE_SIG_REGS_OFFSET_eq,
    SVE_VQ_BYTES, Nat.add_sub_cancel_left]
  ring

theorem reginfo_preg_apply (m : reginfo) (vq i k : Nat) :
    reginfo_preg m vq i k = m (offsetof_extra + 512 * vq + 2 * (vq * i) + k) := by
  show m _ = m _
  congr 1
  simp only [reginfo_preg_off, SVE_SIG_PREG_OFFSET, SVE_SIG_PREGS_OFFSET, SVE_SIG_ZREGS_SIZE, SVE_SIG_PREG_SIZE,
    SVE_SIG_ZREG_OFFSET, SVE_SIG_ZREG_SIZE, SVE_SIG_REGS_OFFSET_eq, SVE_VQ_BYTES, SVE_NUM_ZREGS,
    Nat.add_sub_cancel_left]
  have : 16 + vq * 16 * 32 + vq * (16 / 8) * i - 16 = vq * 16 * 32 + vq * (16 / 8) * i := by
    omega
  rw [this]
  norm_num
  ring

theorem reginfo_size_of_sve (m : reginfo) (h : reginfo.sve_vl m ≠ 0) :
    reginfo_size m
      = offsetof_extra + (546 * sve_vq_from_vl (reginfo.sve_vl m) + 15) / 16 * 16 := by
  simp only [reginfo_size, if_pos h, RISU_SVE_REGS_SIZE_eq]

theorem reginfo_size_of_simd (m : reginfo) (h : reginfo.sve_vl m = 0) :
    reginfo_size m = offsetof_extra + 512 := by
  simp [reginfo_size, h, RISU_SIMD_REGS_SIZE]

/-- Snapshots that agree on the bytes of the scalar fields that the report
renders have no scalar line in the report. -/
theorem scalar_lines_eq_nil (m a : reginfo)
    (h : ∀ k, 8 ≤ k → k < 290 → m k = a k) : scalar_lines m a = [] := by
  have hfi : reginfo.faulting_insn m = reginfo.faulting_insn a :=
    load_congr m a 4 _ _ (fun j hj => h _ (by simp only [off_faulting_insn]; omega)
      (by simp only [off_faulting_insn]; omega))
  have hx : ∀ i, i < 31 → reginfo.regs m i = reginfo.regs a i := fun i hi =>
    load_congr m a 8 _ _ (fun j hj => h _ (by simp only [off_regs]; omega)
      (by simp only [off_regs]; omega))
  have hsp : reginfo.sp m = reginfo.sp a :=
    load_congr m a 8 _ _ (fun j hj => h _ (by simp only [off_sp]; omega)
      (by simp only [off_sp]; omega))
  have hpc : reginfo.pc m = reginfo.pc a :=
    load_congr m a 8 _ _ (fun j hj => h _ (by simp only [off_pc]; omega)
      (by simp only [off_pc]; omega))
  have hfl : reginfo.flags m = reginfo.flags a :=
    load_congr m a 4 _ _ (fun j hj => h _ (by simp only [off_flags]; omega)
      (by simp only [off_flags]; omega))
  have hfpsr : reginfo.fpsr m = reginfo.fpsr a :=
    load_congr m a 4 _ _ (fun j hj => h _ (by simp only [off_fpsr]; omega)
      (by simp only [off_fpsr]; omega))
  have hfpcr : reginfo.fpcr m = reginfo.fpcr a :=
    load_congr m a 4 _ _ (fun j hj => h _ (by simp only [off_fpcr]; omega)
      (by simp only [off_fpcr]; omega))
  have hvl : reginfo.sve_vl m = reginfo.sve_vl a :=
    load_congr m a 2 _ _ (fun j hj => h _ (by simp only [off_sve_vl]; omega)
      (by simp only [off_sve_vl]; omega))
  have hxs : (List.range 31).filter (fun i => decide (reginfo.regs m i ≠ reginfo.regs a i)) = [] := by
    rw [List.filter_eq_nil_iff]
    intro i hi
    simp [hx i (List.mem_range.mp hi)]
  unfold scalar_lines
  rw [hxs]
  simp [line_if, hfi, hsp, hpc, hfl, hfpsr, hfpcr, hvl]

/-- A list without repetition in which exactly one element satisfies `p`
filters to that element. -/
theorem filter_eq_singleton (p : Nat → Bool) (i : Nat) (l : List Nat) (hnd : l.Nodup)
    (hi : i ∈ l) (hp : p i = true) (hrest : ∀ j, j ∈ l → j ≠ i → p j = false) :
    l.filter p = [i] := by
  induction l with
  | nil => simp at hi
  | cons x l ih =>
    rw [List.nodup_cons] at hnd
    by_cases hx : x = i
    · subst hx
      rw [List.filter_cons_of_pos hp]
      congr 1
      rw [List.filter_eq_nil_iff]
      intro j hj
      have hne : j ≠ x := fun h => hnd.1 (h ▸ hj)
      simp [hrest j (List.mem_cons_of_mem _ hj) hne]
    · have hx' : p x = false := hrest x (List.mem_cons_self _ _) hx
      rw [List.filter_cons_of_neg (by simp [hx'])]
      apply ih hnd.2
      · rcases List.mem_cons.mp hi with h | h
        · exact absurd h.symm hx
        · exact h
      · intro j hj hne
        exact hrest j (List.mem_cons_of_mem _ hj) hne

/-- C5. The report of a snapshot against itself is the fixed header line
`mismatch detail (master : apprentice):` alone: no field line is written,
whatever the snapshot holds (in particular for `sve_vl` zero or a valid
width). -/
theorem reginfo_dump_mismatch_self (x : reginfo) (f : FILE) :
    (reginfo_dump_mismatch x x f).1.buf = f.buf ++ "mismatch detail (master : apprentice):\n"
    ∧ (reginfo_dump_mismatch x x f).1 = fprintf f mismatch_header
    ∧ scalar_lines x x ++ vector_lines x x = [] := by
  have hs : scalar_lines x x = [] := scalar_lines_eq_nil x x (fun _ _ _ => rfl)
  have hv : vector_lines x x = [] := by
    unfold vector_lines
    split
    · simp [zreg_differs, preg_differs]
    · simp [vreg_differs]
  have h := reginfo_dump_mismatch_eq x x f
  rw [hs, hv] at h
  simp only [List.append_nil, concat, String.append_empty] at h
  refine ⟨?_, h, by rw [hs, hv]; rfl⟩
  rw [h]
  rfl

/-! ### One differing lane of one Z register -/

theorem load_ptr_add (p : Mem) (o x n : Nat) : load (ptr_add p o) x n = load p (o + x) n :=
  load_congr _ _ n _ _ (fun j _ => by
    show p _ = p _
    congr 1
    omega)

theorem zreg_lane_offset_eq (vq i q : Nat) :
    zreg_lane_offset vq i q = offsetof_extra + 16 * (vq * i) + 16 * q := by
  simp only [zreg_lane_offset, reginfo_zreg_off, SVE_SIG_ZREG_OFFSET, SVE_SIG_ZREG_SIZE, SVE_SIG_REGS_OFFSET_eq,
    SVE_VQ_BYTES, Nat.add_sub_cancel_left]
  ring

theorem zreg_differs_iff_lane (m a : reginfo) (vq i : Nat) :
    zreg_differs m a vq i
      ↔ ∃ q, q < vq ∧ zreg_lane_differs (reginfo_zreg m vq i) (reginfo_zreg a vq i) q := by
  unfold zreg_differs zreg_lane_differs
  constructor
  · rintro ⟨k, hk, hne⟩
    refine ⟨k / 16, by omega, k % 16, by omega, ?_⟩
    rwa [show 16 * (k / 16) + k % 16 = k by omega]
  · rintro ⟨q, hq, k, hk, hne⟩
    exact ⟨16 * q + k, by omega, hne⟩

theorem mem_zreg_differing_lanes (vq : Nat) (za zb : Mem) (q : Nat) :
    q ∈ zreg_differing_lanes vq za zb ↔ q < vq ∧ zreg_lane_differs za zb q := by
  simp [zreg_differing_lanes, List.mem_filter]

theorem zreg_differing_lanes_sorted (vq : Nat) (za zb : Mem) :
    (zreg_differing_lanes vq za zb).Pairwise (fun x y => x < y) :=
  List.Pairwise.sublist (List.filter_sublist _) (List.pairwise_lt_range vq)

theorem zreg_diff_lines_getElem (vq : Nat) (za zb : Mem) (n : Nat) :
    (zreg_diff_lines vq za zb)[n]?
      = ((zreg_differing_lanes vq za zb)[n]?).map
          (zreg_lane_line (if n = 0 then "" else "      ") za zb) := by
  unfold zreg_diff_lines
  cases zreg_differing_lanes vq za zb with
  | nil => simp
  | cons q qs =>
    cases n with
    | zero => simp
    | succ n => simp [List.getElem?_map]

theorem zreg_diff_lines_length (vq : Nat) (za zb : Mem) :
    (zreg_diff_lines vq za zb).length = (zreg_differing_lanes vq za zb).length := by
  unfold zreg_diff_lines
  cases zreg_differing_lanes vq za zb with
  | nil => rfl
  | cons q qs => simp

/-- The scenario of one differing lane: the lines of the report. -/
theorem one_zreg_lane_lines (m a : reginfo) (i q : Nat)
    (hvl : reginfo.sve_vl m ≠ 0)
    (hi : i < SVE_NUM_ZREGS) (hq : q < sve_vq_from_vl (reginfo.sve_vl m))
    (hdiff : ∃ k, k < 16 ∧
      m (zreg_lane_offset (sve_vq_from_vl (reginfo.sve_vl m)) i q + k)
        ≠ a (zreg_lane_offset (sve_vq_from_vl (reginfo.sve_vl m)) i q + k))
    (hrest : ∀ k, k < reginfo_size m →
      ¬ (zreg_lane_offset (sve_vq_from_vl (reginfo.sve_vl m)) i q ≤ k
          ∧ k < zreg_lane_offset (sve_vq_from_vl (reginfo.sve_vl m)) i q + 16) →
      m k = a k) :
    scalar_lines m a ++ vector_lines m a
      = [zreg_label i ++ zreg_lane_line ""
          (reginfo_zreg m (sve_vq_from_vl (reginfo.sve_vl m)) i)
          (reginfo_zreg a (sve_vq_from_vl (reginfo.sve_vl m)) i) q] := by
  generalize hvq : sve_vq_from_vl (reginfo.sve_vl m) = vq at *
  have hsz := reginfo_size_of_sve m hvl
  rw [hvq] at hsz
  rw [zreg_lane_offset_eq] at hdiff hrest
  simp only [SVE_NUM_ZREGS] at hi
  simp only [offsetof_extra] at hsz hdiff hrest
  have hi31 : vq * i ≤ vq * 31 := Nat.mul_le_mul_left vq (by omega)
  -- the scalar fields agree
  have hs : scalar_lines m a = [] := scalar_lines_eq_nil m a (fun k _ hk =>
    hrest k (by omega) (by omega))
  -- the lanes of register `i`, other than `q`, agree
  have hlanes : zreg_differing_lanes vq (reginfo_zreg m vq i) (reginfo_zreg a vq i) = [q] := by
    unfold zreg_differing_lanes
    apply filter_eq_singleton _ q _ (List.nodup_range vq) (List.mem_range.mpr hq)
    · simp only [decide_eq_true_eq, zreg_lane_differs, reginfo_zreg_apply, offsetof_extra]
      obtain ⟨k, hk, hne⟩ := hdiff
      exact ⟨k, hk, by rwa [show 304 + 16 * (vq * i) + (16 * q + k)
        = 304 + 16 * (vq * i) + 16 * q + k by omega]⟩
    · intro j hj hne
      have hj := List.mem_range.mp hj
      simp only [decide_eq_false_iff_not, zreg_lane_differs, reginfo_zreg_apply, offsetof_extra,
        not_exists, not_and, not_not]
      intro k hk
      exact hrest _ (by omega) (by omega)
  -- the other Z registers agree
  have hz : (List.range SVE_NUM_ZREGS).filter (fun j => decide (zreg_differs m a vq j)) = [i] := by
    apply filter_eq_singleton _ i _ (List.nodup_range _) (List.mem_range.mpr (by
      simp only [SVE_NUM_ZREGS]; exact hi))
    · simp only [decide_eq_true_eq, zreg_differs, reginfo_zreg_apply, offsetof_extra]
      obtain ⟨k, hk, hne⟩ := hdiff
      exact ⟨16 * q + k, by omega, by rwa [show 304 + 16 * (vq * i) + (16 * q + k)
        = 304 + 16 * (vq * i) + 16 * q + k by omega]⟩
    · intro j hj hne
      have hj := List.mem_range.mp hj
      simp only [SVE_NUM_ZREGS] at hj
      simp only [decide_eq_false_iff_not, zreg_differs, reginfo_zreg_apply, offsetof_extra,
        not_exists, not_and, not_not]
      intro k hk
      have hj31 : vq * j ≤ vq * 31 := Nat.mul_le_mul_left vq (by omega)
      rcases Nat.lt_or_gt_of_ne hne with hlt | hgt
      · have h1 : vq * (j + 1) ≤ vq * i := Nat.mul_le_mul_left vq hlt
        rw [Nat.mul_succ] at h1
        exact hrest _ (by omega) (by omega)
      · have h1 : vq * (i + 1) ≤ vq * j := Nat.mul_le_mul_left vq hgt
        rw [Nat.mul_succ] at h1
        exact hrest _ (by omega) (by omega)
  -- the predicate registers agree
  have hp : (List.range (SVE_NUM_PREGS + 1)).filter (fun j => decide (preg_differs m a vq j))
      = [] := by
    rw [List.filter_eq_nil_iff]
    intro j hj
    have hj := List.mem_range.mp hj
    simp only [SVE_NUM_PREGS] at hj
    simp only [decide_eq_true_eq, preg_differs, reginfo_preg_apply, offsetof_extra,
      not_exists, not_and, not_not]
    intro k hk
    have hj16 : vq * j ≤ vq * 16 := Nat.mul_le_mul_left vq (by omega)
    exact hrest _ (by omega) (by omega)
  rw [hs, List.nil_append]
  unfold vector_lines
  rw [if_pos hvl, hvq, hz, hp]
  simp only [List.map_cons, List.map_nil, List.append_nil, zreg_text, zreg_diff_lines, hlanes,
    concat, String.append_empty]

/-- C6. Two scalable-vector snapshots of the same width `vq` that differ in
exactly one 128-bit lane `q` of exactly one Z register `i`, and nowhere else
in the significant range, give a report of the header and exactly one line:
the label of Z register `i`, then lane `q` with its two 64-bit halves, high
half first, of the master then of the apprentice.  More generally
`sve_dump_zreg_diff` writes one line for each differing lane of the register,
in increasing lane order, the first directly after the label and each
further one padded with six blanks; and in the report a Z register has a
text exactly when it has a differing lane. -/
theorem reginfo_dump_mismatch_one_zreg_lane :
    (∀ (m a : reginfo) (f : FILE) (vq i q : Nat),
      reginfo.sve_vl m ≠ 0 → reginfo.sve_vl a = reginfo.sve_vl m →
      sve_vq_from_vl (reginfo.sve_vl m) = vq →
      i < SVE_NUM_ZREGS → q < vq →
      (∃ k, k < 16 ∧ m (zreg_lane_offset vq i q + k) ≠ a (zreg_lane_offset vq i q + k)) →
      (∀ k, k < reginfo_size m →
        ¬ (zreg_lane_offset vq i q ≤ k ∧ k < zreg_lane_offset vq i q + 16) → m k = a k) →
      (reginfo_dump_mismatch m a f).1.buf
        = f.buf ++ "mismatch detail (master : apprentice):\n"
          ++ ("  Z" ++ fmt_d_left 2 i ++ " ")
          ++ ("q" ++ fmt_d_left 2 q ++ ": "
              ++ fmt_x 16 (rd64 m (zreg_lane_offset vq i q + 8))
              ++ fmt_x 16 (rd64 m (zreg_lane_offset vq i q)) ++ " vs "
              ++ fmt_x 16 (rd64 a (zreg_lane_offset vq i q + 8))
              ++ fmt_x 16 (rd64 a (zreg_lane_offset vq i q)) ++ "\n"))
    ∧ (∀ (f : FILE) (vq : Nat) (za zb : Mem),
        sve_dump_zreg_diff f vq za zb = fprintf f (concat (zreg_diff_lines vq za zb))
        ∧ (zreg_diff_lines vq za zb).length = (zreg_differing_lanes vq za zb).length
        ∧ (∀ q, q ∈ zreg_differing_lanes vq za zb ↔ q < vq ∧ zreg_lane_differs za zb q)
        ∧ (zreg_differing_lanes vq za zb).Pairwise (fun x y => x < y)
        ∧ (∀ n, (zreg_diff_lines vq za zb)[n]?
            = ((zreg_differing_lanes vq za zb)[n]?).map
                (zreg_lane_line (if n = 0 then "" else "      ") za zb)))
    ∧ (∀ (m a : reginfo) (f : FILE), reginfo.sve_vl m ≠ 0 →
        (reginfo_dump_mismatch m a f).1
          = fprintf f (mismatch_header ++ concat (scalar_lines m a
              ++ (((List.range SVE_NUM_ZREGS).filter
                    (fun i => decide (∃ q, q < sve_vq_from_vl (reginfo.sve_vl m)
                      ∧ zreg_lane_differs
                          (reginfo_zreg m (sve_vq_from_vl (reginfo.sve_vl m)) i)
                          (reginfo_zreg a (sve_vq_from_vl (reginfo.sve_vl m)) i) q))).map
                    (fun i => zreg_label i ++ concat (zreg_diff_lines
                      (sve_vq_from_vl (reginfo.sve_vl m))
                      (reginfo_zreg m (sve_vq_from_vl (reginfo.sve_vl m)) i)
                      (reginfo_zreg a (sve_vq_from_vl (reginfo.sve_vl m)) i)))
                  ++ ((List.range (SVE_NUM_PREGS + 1)).filter
                    (fun i => decide
                      (preg_differs m a (sve_vq_from_vl (reginfo.sve_vl m)) i))).map
                    (preg_line m a (sve_vq_from_vl (reginfo.sve_vl m))))))) := by
  refine ⟨?_, ?_, ?_⟩
  · intro m a f vq i q hvl _ hvq hi hq hdiff hrest
    subst hvq
    have h := reginfo_dump_mismatch_eq m a f
    rw [one_zreg_lane_lines m a i q hvl hi hq hdiff hrest] at h
    rw [h]
    simp only [fprintf_buf, concat, mismatch_header, zreg_label, zreg_lane_line, rd64,
      reginfo_zreg, load_ptr_add, zreg_lane_offset, reginfo_zreg_off, String.append_assoc, String.append_empty,
      String.empty_append, Nat.add_assoc]
  · intro f vq za zb
    exact ⟨sve_dump_zreg_diff_eq f vq za zb, zreg_diff_lines_length vq za zb,
      mem_zreg_differing_lanes vq za zb, zreg_differing_lanes_sorted vq za zb,
      zreg_diff_lines_getElem vq za zb⟩
  · intro m a f hvl
    rw [reginfo_dump_mismatch_eq]
    unfold vector_lines
    rw [if_pos hvl]
    have hfun : (fun i => decide (zreg_differs m a (sve_vq_from_vl (reginfo.sve_vl m)) i))
        = (fun i => decide (∃ q, q < sve_vq_from_vl (reginfo.sve_vl m)
            ∧ zreg_lane_differs
                (reginfo_zreg m (sve_vq_from_vl (reginfo.sve_vl m)) i)
                (reginfo_zreg a (sve_vq_from_vl (reginfo.sve_vl m)) i) q)) := by
      funext i
      simp only [zreg_differs_iff_lane]
    rw [hfun]
    rfl

theorem zreg_lane_offset_2_5_1 : zreg_lane_offset 2 5 1 = 480 := by decide

/-- Witness of C6: width of 2 quadwords, Z0 identical, Z5 differing in lane 1
only; the report is the header and the line of lane 1 under the label of Z5. -/
theorem reginfo_dump_mismatch_one_zreg_lane_witness :
    (reginfo_dump_mismatch z_master z_apprentice empty_file).1.buf
      = "mismatch detail (master : apprentice):\n"
        ++ "  Z5  q1 : 00000000000000aa00000000000000bb vs 00000000000000aa00000000000000cc\n" :=
  (reginfo_dump_mismatch_one_zreg_lane.1 z_master z_apprentice empty_file 2 5 1
    (by decide) (by decide) (by decide) (by decide) (by decide)
    ⟨0, by decide, by decide⟩
    (by
      intro k _ hk
      rw [zreg_lane_offset_2_5_1] at hk
      simp only [z_master, z_apprentice, store, zreg_lane_offset_2_5_1]
      rw [if_neg (by omega), if_neg (by omega)])).trans (by decide)

/-! ### One differing lane of one predicate register -/

theorem preg_lane_offset_eq (vq i q : Nat) :
    preg_lane_offset vq i q = offsetof_extra + 512 * vq + 2 * (vq * i) + 2 * q := by
  simp only [preg_lane_offset, reginfo_preg_off, SVE_SIG_PREG_OFFSET, SVE_SIG_PREGS_OFFSET, SVE_SIG_ZREGS_SIZE,
    SVE_SIG_PREG_SIZE, SVE_SIG_ZREG_OFFSET, SVE_SIG_ZREG_SIZE, SVE_SIG_REGS_OFFSET_eq,
    SVE_VQ_BYTES, SVE_NUM_ZREGS, Nat.add_sub_cancel_left]
  have : 16 + vq * 16 * 32 + vq * (16 / 8) * i - 16 = vq * 16 * 32 + vq * (16 / 8) * i := by
    omega
  rw [this]
  norm_num
  ring

/-- The scenario of one differing predicate lane: the lines of the report. -/
theorem one_preg_lane_lines (m a : reginfo) (i q : Nat)
    (hvl : reginfo.sve_vl m ≠ 0)
    (hi : i < SVE_NUM_PREGS + 1) (hq : q < sve_vq_from_vl (reginfo.sve_vl m))
    (hdiff : ∃ k, k < 2 ∧
      m (preg_lane_offset (sve_vq_from_vl (reginfo.sve_vl m)) i q + k)
        ≠ a (preg_lane_offset (sve_vq_from_vl (reginfo.sve_vl m)) i q + k))
    (hrest : ∀ k, k < reginfo_size m →
      ¬ (preg_lane_offset (sve_vq_from_vl (reginfo.sve_vl m)) i q ≤ k
          ∧ k < preg_lane_offset (sve_vq_from_vl (reginfo.sve_vl m)) i q + 2) →
      m k = a k) :
    scalar_lines m a ++ vector_lines m a
      = [preg_line m a (sve_vq_from_vl (reginfo.sve_vl m)) i] := by
  generalize hvq : sve_vq_from_vl (reginfo.sve_vl m) = vq at *
  have hsz := reginfo_size_of_sve m hvl
  rw [hvq] at hsz
  rw [preg_lane_offset_eq] at hdiff hrest
  simp only [SVE_NUM_PREGS] at hi
  simp only [offsetof_extra] at hsz hdiff hrest
  have hi16 : vq * i ≤ vq * 16 := Nat.mul_le_mul_left vq (by omega)
  have hs : scalar_lines m a = [] := scalar_lines_eq_nil m a (fun k _ hk =>
    hrest k (by omega) (by omega))
  have hz : (List.range SVE_NUM_ZREGS).filter (fun j => decide (zreg_differs m a vq j)) = [] := by
    rw [List.filter_eq_nil_iff]
    intro j hj
    have hj := List.mem_range.mp hj
    simp only [SVE_NUM_ZREGS] at hj
    simp only [decide_eq_true_eq, zreg_differs, reginfo_zreg_apply, offsetof_extra,
      not_exists, not_and, not_not]
    intro k hk
    have hj31 : vq * j ≤ vq * 31 := Nat.mul_le_mul_left vq (by omega)
    exact hrest _ (by omega) (by omega)
  have hp : (List.range (SVE_NUM_PREGS + 1)).filter (fun j => decide (preg_differs m a vq j))
      = [i] := by
    apply filter_eq_singleton _ i _ (List.nodup_range _) (List.mem_range.mpr (by
      simp only [SVE_NUM_PREGS]; exact hi))
    · simp only [decide_eq_true_eq, preg_differs, reginfo_preg_apply, offsetof_extra]
      obtain ⟨k, hk, hne⟩ := hdiff
      exact ⟨2 * q + k, by omega, by rwa [show 304 + 512 * vq + 2 * (vq * i) + (2 * q + k)
        = 304 + 512 * vq + 2 * (vq * i) + 2 * q + k by omega]⟩
    · intro j hj hne
      have hj := List.mem_range.mp hj
      simp only [SVE_NUM_PREGS] at hj
      simp only [decide_eq_false_iff_not, preg_differs, reginfo_preg_apply, offsetof_extra,
        not_exists, not_and, not_not]
      intro k hk
      have hj16 : vq * j ≤ vq * 16 := Nat.mul_le_mul_left vq (by omega)
      rcases Nat.lt_or_gt_of_ne hne with hlt | hgt
      · have h1 : vq * (j + 1) ≤ vq * i := Nat.mul_le_mul_left vq hlt
        rw [Nat.mul_succ] at h1
        exact hrest _ (by omega) (by omega)
      · have h1 : vq * (i + 1) ≤ vq * j := Nat.mul_le_mul_left vq hgt
        rw [Nat.mul_succ] at h1
        exact hrest _ (by omega) (by omega)
  rw [hs, List.nil_append]
  unfold vector_lines
  rw [if_pos hvl, hvq, hz, hp]
  rfl

theorem preg_lanes_text_eq (m : reginfo) (vq i : Nat) :
    preg_lanes_text vq (reginfo_preg m vq i)
      = concat ((List.range vq).reverse.map
          (fun q => fmt_x 4 (rd16 m (preg_lane_offset vq i q)))) := by
  unfold preg_lanes_text
  congr 1

/-- C7. Two scalable-vector snapshots of the same width `vq` that differ in
exactly one 16-bit lane of exactly one predicate register `i` (P0..P15, or
the FFR for `i = 16`), and nowhere else in the significant range, give a
report of the header and exactly one line: the label of the register, all
`vq` lanes of the master, highest lane first and 4 hexadecimal digits each,
then ` vs `, then all `vq` lanes of the apprentice; the lanes that are equal
are part of the line. -/
theorem reginfo_dump_mismatch_one_preg_lane (m a : reginfo) (f : FILE) (vq i q : Nat)
    (hvl : reginfo.sve_vl m ≠ 0) (_hvla : reginfo.sve_vl a = reginfo.sve_vl m)
    (hvq : sve_vq_from_vl (reginfo.sve_vl m) = vq)
    (hi : i < SVE_NUM_PREGS + 1) (hq : q < vq)
    (hdiff : ∃ k, k < 2 ∧ m (preg_lane_offset vq i q + k) ≠ a (preg_lane_offset vq i q + k))
    (hrest : ∀ k, k < reginfo_size m →
      ¬ (preg_lane_offset vq i q ≤ k ∧ k < preg_lane_offset vq i q + 2) → m k = a k) :
    (reginfo_dump_mismatch m a f).1.buf
      = f.buf ++ "mismatch detail (master : apprentice):\n"
        ++ (if i = SVE_NUM_PREGS then "  FFR   : " else "  P" ++ fmt_d_left 2 i ++ "    : ")
        ++ concat ((List.range vq).reverse.map
            (fun j => fmt_x 4 (rd16 m (preg_lane_offset vq i j))))
        ++ " vs "
        ++ concat ((List.range vq).reverse.map
            (fun j => fmt_x 4 (rd16 a (preg_lane_offset vq i j))))
        ++ "\n"
    ∧ (∀ j, j < vq → j ≠ q →
        rd16 m (preg_lane_offset vq i j) = rd16 a (preg_lane_offset vq i j)) := by
  subst hvq
  constructor
  · have h := reginfo_dump_mismatch_eq m a f
    rw [one_preg_lane_lines m a i q hvl hi hq hdiff hrest] at h
    rw [h]
    simp only [fprintf_buf, concat, mismatch_header, preg_line, preg_label, preg_lanes_text_eq,
      String.append_assoc, String.append_empty]
  · intro j hj hne
    have hsz := reginfo_size_of_sve m hvl
    rw [preg_lane_offset_eq] at hrest
    simp only [SVE_NUM_PREGS] at hi
    rw [preg_lane_offset_eq]
    simp only [offsetof_extra] at hsz hrest ⊢
    have hi16 : sve_vq_from_vl (reginfo.sve_vl m) * i ≤ sve_vq_from_vl (reginfo.sve_vl m) * 16 :=
      Nat.mul_le_mul_left _ (by omega)
    exact load_congr m a 2 _ _ (fun k hk => hrest _ (by omega) (by omega))

theorem preg_lane_offset_2_3_0 : preg_lane_offset 2 3 0 = 1340 := by decide

/-- Witness of C7: width of 2 quadwords, P3 differing in lane 0 only; the
line shows both lanes of both sides. -/
theorem reginfo_dump_mismatch_one_preg_lane_witness :
    (reginfo_dump_mismatch p_master p_apprentice empty_file).1.buf
      = "mismatch detail (master : apprentice):\n" ++ "  P3     : abcd00ff vs abcd00fe\n" :=
  (reginfo_dump_mismatch_one_preg_lane p_master p_apprentice empty_file 2 3 0
    (by decide) (by decide) (by decide) (by decide) (by decide)
    ⟨0, by decide, by decide⟩
    (by
      intro k _ hk
      rw [preg_lane_offset_2_3_0] at hk
      simp only [p_master, p_apprentice, store, preg_lane_offset_2_3_0]
      rw [if_neg (by omega), if_neg (by omega)])).1.trans (by decide)

/-! ### The report of two SIMD snapshots -/

theorem vreg_differs_iff_value (m a : reginfo) (i : Nat) :
    vreg_differs m a i ↔ field_value m (SimdField.V i) ≠ field_value a (SimdField.V i) := by
  unfold vreg_differs field_value
  rw [Ne, load_eq_iff]
  simp only [Nat.zero_add]
  constructor
  · rintro ⟨k, hk, hne⟩ h
    exact hne (h k hk)
  · intro h
    by_contra hne
    push_neg at hne
    exact h hne

theorem map_filter_cons_line_if {α : Type} (P : α → Prop) [∀ x, Decidable (P x)]
    (g : α → String) (x : α) (l : List α) :
    List.map g (List.filter (fun y => decide (P y)) (x :: l))
      = line_if (P x) (g x) ++ List.map g (List.filter (fun y => decide (P y)) l) := by
  unfold line_if
  by_cases h : P x
  · rw [List.filter_cons_of_pos (by simpa using h), if_pos h]
    rfl
  · rw [List.filter_cons_of_neg (by simpa using h), if_neg h]
    rfl

theorem simd_lines_eq (m a : reginfo) (hm : reginfo.sve_vl m = 0) (ha : reginfo.sve_vl a = 0) :
    scalar_lines m a ++ vector_lines m a = simd_mismatch_lines m a := by
  have hV : (fun i => decide (vreg_differs m a i))
      = (fun i => decide (field_value m (SimdField.V i) ≠ field_value a (SimdField.V i))) := by
    funext i
    simp only [vreg_differs_iff_value]
  have hvl0 : line_if (reginfo.sve_vl m ≠ reginfo.sve_vl a) (line_vl m a) = [] := by
    simp [line_if, hm, ha]
  unfold vector_lines scalar_lines simd_mismatch_lines simd_fields
  rw [if_neg (by simp [hm]), hV, hvl0]
  simp only [List.filter_append, List.map_append, List.filter_map, List.map_map]
  simp only [map_filter_cons_line_if (fun fld => field_value m fld ≠ field_value a fld),
    List.filter_nil, List.map_nil, List.append_nil, List.append_assoc]
  generalize List.range 31 = lx
  generalize List.range 32 = lv
  simp only [field_value, field_mismatch_line, Function.comp_def]

/-- The dump of a SIMD snapshot is one line for each field, in the order of
`simd_fields`. -/
theorem reginfo_dump_simd_eq (ri : reginfo) (f : FILE) (h : reginfo.sve_vl ri = 0) :
    (reginfo_dump ri f).1 = fprintf f (concat (simd_fields.map (field_dump_line ri))) := by
  have hX : ∀ f : FILE, (List.range 31).foldl
      (fun f i => fprintf f ("  X" ++ fmt_d_left 2 i ++ "    : "
        ++ fmt_x 16 (reginfo.regs ri i) ++ "\n")) f
      = fprintf f (concat ((List.range 31).map (field_dump_line ri ∘ SimdField.X))) :=
    fun f => foldl_fprintf_map _ _ f
  have hVr : ∀ f : FILE, (List.range 32).foldl
      (fun f i =>
        let v := reginfo_vreg ri i
        fprintf f ("  V" ++ fmt_d_left 2 i ++ "    : "
          ++ fmt_x 16 (rd64 v (8 * 1)) ++ fmt_x 16 (rd64 v (8 * 0)) ++ "\n")) f
      = fprintf f (concat ((List.range 32).map (field_dump_line ri ∘ SimdField.V))) :=
    fun f => foldl_fprintf_map _ _ f
  simp only [reginfo_dump, if_neg (not_not.mpr h)]
  rw [hVr, hX]
  unfold simd_fields
  generalize List.range 31 = lx
  generalize List.range 32 = lv
  simp only [fprintf_fprintf]
  simp only [List.map_append, List.map_map, concat_append, List.map_cons,
    List.map_nil, concat_singleton]
  simp only [concat, field_dump_line, String.append_assoc, String.append_empty]

/-- Two SIMD snapshots that differ in `fpsr` and nowhere else in the
significant range: the only line of the report is the one of `fpsr`. -/
theorem only_fpsr_lines (m a : reginfo) (hvl : reginfo.sve_vl m = 0)
    (hne : reginfo.fpsr m ≠ reginfo.fpsr a)
    (hrest : ∀ k, k < reginfo_size m → ¬ (off_fpsr ≤ k ∧ k < off_fpsr + 4) → m k = a k) :
    scalar_lines m a ++ vector_lines m a = [line_fpsr m a] := by
  rw [reginfo_size_of_simd m hvl] at hrest
  simp only [off_fpsr, offsetof_extra] at hrest
  have hfi : reginfo.faulting_insn m = reginfo.faulting_insn a :=
    load_congr m a 4 _ _ (fun j hj => hrest _ (by simp only [off_faulting_insn]; omega)
      (by simp only [off_faulting_insn]; omega))
  have hx : ∀ i, i < 31 → reginfo.regs m i = reginfo.regs a i := fun i hi =>
    load_congr m a 8 _ _ (fun j hj => hrest _ (by simp only [off_regs]; omega)
      (by simp only [off_regs]; omega))
  have hsp : reginfo.sp m = reginfo.sp a :=
    load_congr m a 8 _ _ (fun j hj => hrest _ (by simp only [off_sp]; omega)
      (by simp only [off_sp]; omega))
  have hpc : reginfo.pc m = reginfo.pc a :=
    load_congr m a 8 _ _ (fun j hj => hrest _ (by simp only [off_pc]; omega)
      (by simp only [off_pc]; omega))
  have hfl : reginfo.flags m = reginfo.flags a :=
    load_congr m a 4 _ _ (fun j hj => hrest _ (by simp only [off_flags]; omega)
      (by simp only [off_flags]; omega))
  have hfpcr : reginfo.fpcr m = reginfo.fpcr a :=
    load_congr m a 4 _ _ (fun j hj => hrest _ (by simp only [off_fpcr]; omega)
      (by simp only [off_fpcr]; omega))
  have hvla : reginfo.sve_vl m = reginfo.sve_vl a :=
    load_congr m a 2 _ _ (fun j hj => hrest _ (by simp only [off_sve_vl]; omega)
      (by simp only [off_sve_vl]; omega))
  have hxs : (List.range 31).filter (fun i => decide (reginfo.regs m i ≠ reginfo.regs a i))
      = [] := by
    rw [List.filter_eq_nil_iff]
    intro i hi
    simp [hx i (List.mem_range.mp hi)]
  have hvs : (List.range 32).filter (fun i => decide (vreg_differs m a i)) = [] := by
    rw [List.filter_eq_nil_iff]
    intro i hi
    have hi := List.mem_range.mp hi
    simp only [decide_eq_true_eq, vreg_differs, reginfo_vreg_apply, offsetof_extra,
      not_exists, not_and, not_not]
    intro k hk
    exact hrest _ (by omega) (by omega)
  unfold scalar_lines vector_lines
  rw [hxs, if_neg (not_not.mpr hvl), hvs]
  simp [line_if, hfi, hsp, hpc, hfl, hfpcr, hvla, hne]

/-- C8. For two snapshots with `sve_vl = 0` the report is the header and then
exactly one line for each field among `faulting_insn`, X0..X30, `sp`, `pc`,
`flags`, `fpsr`, `fpcr`, V0..V31 whose values differ, none for a field whose
values are equal, in that field order, which is the order in which
`reginfo_dump` writes the fields.  Two such snapshots that differ in `fpsr`
only are unequal for `reginfo_is_eq`, and their report has the `fpsr` line
only. -/
theorem reginfo_dump_mismatch_simd :
    (∀ (m a : reginfo) (f : FILE), reginfo.sve_vl m = 0 → reginfo.sve_vl a = 0 →
      (reginfo_dump_mismatch m a f).1.buf
        = f.buf ++ "mismatch detail (master : apprentice):\n"
          ++ concat ((simd_fields.filter
                (fun fld => decide (field_value m fld ≠ field_value a fld))).map
              (field_mismatch_line m a))
      ∧ (reginfo_dump m f).1.buf = f.buf ++ concat (simd_fields.map (field_dump_line m)))
    ∧ (∀ (m a : reginfo) (f : FILE), reginfo.sve_vl m = 0 →
        reginfo.fpsr m ≠ reginfo.fpsr a →
        (∀ k, k < reginfo_size m → ¬ (off_fpsr ≤ k ∧ k < off_fpsr + 4) → m k = a k) →
        reginfo_is_eq m a = 0
        ∧ (reginfo_dump_mismatch m a f).1.buf
            = f.buf ++ "mismatch detail (master : apprentice):\n"
              ++ ("  fpsr   : " ++ fmt_x 8 (reginfo.fpsr m) ++ " vs "
                  ++ fmt_x 8 (reginfo.fpsr a) ++ "\n")) := by
  constructor
  · intro m a f hm ha
    constructor
    · rw [reginfo_dump_mismatch_eq, simd_lines_eq m a hm ha]
      simp only [fprintf_buf, simd_mismatch_lines, mismatch_header, String.append_assoc]
    · rw [reginfo_dump_simd_eq m f hm]
      rfl
  · intro m a f hm hne hrest
    constructor
    · rw [reginfo_is_eq_eq_zero_iff]
      by_contra hall
      push_neg at hall
      apply hne
      refine load_congr m a 4 _ _ (fun j hj => hall _ ?_)
      rw [reginfo_size_of_simd m hm]
      simp only [off_fpsr, offsetof_extra]
      omega
    · rw [reginfo_dump_mismatch_eq, only_fpsr_lines m a hm hne hrest]
      simp only [fprintf_buf, concat, mismatch_header, line_fpsr, String.append_assoc,
        String.append_empty]

/-- Witness of C8: two SIMD snapshots identical except for `fpsr` (0x10 and
0x11) are unequal, and their report is the header and the `fpsr` line. -/
theorem reginfo_dump_mismatch_simd_witness :
    reginfo_is_eq fpsr_master fpsr_apprentice = 0
    ∧ (reginfo_dump_mismatch fpsr_master fpsr_apprentice empty_file).1.buf
        = "mismatch detail (master : apprentice):\n" ++ "  fpsr   : 00000010 vs 00000011\n" := by
  have h := reginfo_dump_mismatch_simd.2 fpsr_master fpsr_apprentice empty_file
    (by decide) (by decide)
    (by
      intro k _ hk
      simp only [fpsr_master, fpsr_apprentice, store]
      rw [if_neg hk, if_neg hk])
  exact ⟨h.1, h.2.trans (by decide)⟩

/-! ### Loads and stores -/

theorem store_apply_outside (p : Mem) (off n v i : Nat) (h : i < off ∨ off + n ≤ i) :
    store p off n v i = p i := by
  unfold store
  rw [if_neg (by omega)]

theorem memcpy_apply_outside (dst : Mem) (off : Nat) (src : Mem) (n i : Nat)
    (h : i < off ∨ off + n ≤ i) : memcpy dst off src n i = dst i := by
  unfold memcpy
  rw [if_neg (by omega)]

theorem load_mod (p : Mem) (n : Nat) : ∀ a, load p a (n + 1) % 256 = (p a).val := by
  intro a
  unfold load
  have := (p a).isLt
  omega

theorem load_bytes (v : Nat) (n : Nat) :
    ∀ (p : Mem) (a : Nat), (∀ j, j < n → p (a + j) = byteOf (v / 256 ^ j)) →
      load p a n = v % 256 ^ n := by
  induction n generalizing v with
  | zero => intro p a _; simp [load, Nat.mod_one]
  | succ n ih =>
    intro p a h
    unfold load
    have h0 := h 0 (by omega)
    simp only [Nat.add_zero, pow_zero, Nat.div_one] at h0
    have h1 : load p (a + 1) n = (v / 256) % 256 ^ n := by
      apply ih (v / 256) p (a + 1)
      intro j hj
      have := h (j + 1) (by omega)
      rw [show a + (j + 1) = a + 1 + j by omega] at this
      rw [this, pow_succ, Nat.div_div_eq_div_mul, Nat.mul_comm]
    rw [h0, h1]
    show v % 256 + 256 * (v / 256 % 256 ^ n) = v % 256 ^ (n + 1)
    rw [pow_succ, Nat.mul_comm (256 ^ n) 256, Nat.mod_mul]

theorem load_store_same (p : Mem) (off n v : Nat) :
    load (store p off n v) off n = v % 256 ^ n := by
  apply load_bytes
  intro j hj
  unfold store
  rw [if_pos (by omega), Nat.add_sub_cancel_left]

theorem load_store_outside (p : Mem) (off n v a k : Nat) (h : a + k ≤ off ∨ off + n ≤ a) :
    load (store p off n v) a k = load p a k :=
  load_congr _ _ k a a (fun j hj => store_apply_outside p off n v (a + j) (by omega))

theorem load_memcpy_outside (dst : Mem) (off : Nat) (src : Mem) (n a k : Nat)
    (h : a + k ≤ off ∨ off + n ≤ a) :
    load (memcpy dst off src n) a k = load dst a k :=
  load_congr _ _ k a a (fun j hj => memcpy_apply_outside dst off src n (a + j) (by omega))

theorem reginfo_zreg_off_zero (vq : Nat) : reginfo_zreg_off vq 0 = offsetof_extra := by
  simp [reginfo_zreg_off, SVE_SIG_ZREG_OFFSET]

theorem reginfo_vreg_off_zero : reginfo_vreg_off 0 = offsetof_extra := by
  simp [reginfo_vreg_off]

/-! ### The steps of the capture -/

/-- The capture is the header fill, the record walk, and the copies. -/
theorem reginfo_init_eq (mem : Mem) (isa ts fuel : Nat) (ri : reginfo) (uc : ucontext_t) :
    reginfo_init mem isa ts fuel ri uc
      = (walk mem fuel (walk_start uc)).map
          (fun w => init_finish mem ts (init_header mem isa ri uc) w.fp w.sve) := by
  unfold reginfo_init
  cases walk mem fuel (walk_start uc) with
  | none => rfl
  | some w =>
    simp only [Option.map_some']
    unfold init_finish init_header init_fp init_simd init_sve
    split_ifs <;> rfl

theorem sizeof_reginfo_eq : sizeof_reginfo = 9040 := by decide

theorem agree_below_store (n : Nat) (r1 r2 : Mem) (off k v : Nat) (h : agree_below n r1 r2) :
    agree_below n (store r1 off k v) (store r2 off k v) := by
  intro i hi
  unfold store
  split
  · rfl
  · exact h i hi

theorem agree_below_memcpy (n : Nat) (r1 r2 : Mem) (off : Nat) (src : Mem) (k : Nat)
    (h : agree_below n r1 r2) :
    agree_below n (memcpy r1 off src k) (memcpy r2 off src k) := by
  intro i hi
  unfold memcpy
  split
  · rfl
  · exact h i hi

theorem agree_below_memset (n : Nat) (r1 r2 : Mem) (c : Byte) :
    agree_below n (memset r1 c n) (memset r2 c n) := by
  intro i hi
  unfold memset
  rw [if_pos hi, if_pos hi]

theorem agree_below_regs (n : Nat) (regs : Nat → Nat) (l : List Nat) :
    ∀ r1 r2 : Mem, agree_below n r1 r2 →
      agree_below n (l.foldl (fun ri i => store ri (off_regs i) 8 (regs i)) r1)
        (l.foldl (fun ri i => store ri (off_regs i) 8 (regs i)) r2) := by
  induction l with
  | nil => intro r1 r2 h; exact h
  | cons x l ih =>
    intro r1 r2 h
    exact ih _ _ (agree_below_store n r1 r2 _ _ _ h)

theorem regs_loop_outside (regs : Nat → Nat) (l : List Nat) (hl : ∀ j, j ∈ l → j < 31) :
    ∀ (r : Mem) (i : Nat), i < 8 ∨ 256 ≤ i →
      l.foldl (fun ri j => store ri (off_regs j) 8 (regs j)) r i = r i := by
  induction l with
  | nil => intro r i _; rfl
  | cons x l ih =>
    intro r i hi
    rw [List.foldl_cons, ih (fun j hj => hl j (List.mem_cons_of_mem _ hj)) _ i hi]
    have hx := hl x (List.mem_cons_self _ _)
    exact store_apply_outside r _ 8 _ i (by simp only [off_regs]; omega)

/-- The header fill does not depend on the previous content of the
destination, over the whole structure. -/
theorem init_header_agree (mem : Mem) (isa : Nat) (ri1 ri2 : reginfo) (uc : ucontext_t) :
    agree_below sizeof_reginfo (init_header mem isa ri1 uc) (init_header mem isa ri2 uc) := by
  unfold init_header
  exact agree_below_store _ _ _ _ _ _ (agree_below_store _ _ _ _ _ _
    (agree_below_store _ _ _ _ _ _ (agree_below_store _ _ _ _ _ _
      (agree_below_store _ _ _ _ _ _ (agree_below_regs _ _ _ _ _
        (agree_below_memset _ _ _ _))))))

/-- The header fill leaves the bytes from `fpsr` to the end of the structure
zero. -/
theorem init_header_zero (mem : Mem) (isa : Nat) (ri : reginfo) (uc : ucontext_t) (i : Nat)
    (h1 : 280 ≤ i) (h2 : i < sizeof_reginfo) : init_header mem isa ri uc i = 0 := by
  unfold init_header
  simp only [off_faulting_insn, off_fault_address, off_flags, off_pc, off_sp]
  rw [store_apply_outside _ _ _ _ _ (by omega), store_apply_outside _ _ _ _ _ (by omega),
    store_apply_outside _ _ _ _ _ (by omega), store_apply_outside _ _ _ _ _ (by omega),
    store_apply_outside _ _ _ _ _ (by omega),
    regs_loop_outside _ _ (fun j hj => List.mem_range.mp hj) _ _ (by omega)]
  unfold memset
  rw [if_pos h2]

/-- The bytes of `sp` after the header fill are those of the sentinel. -/
theorem init_header_sp (mem : Mem) (isa : Nat) (ri : reginfo) (uc : ucontext_t) :
    reginfo.sp (init_header mem isa ri uc) = 0xdeadbeefdeadbeef := by
  unfold init_header reginfo.sp rd64
  simp only [off_faulting_insn, off_fault_address, off_flags, off_pc, off_sp]
  rw [load_store_outside _ _ _ _ _ _ (by omega), load_store_outside _ _ _ _ _ _ (by omega),
    load_store_outside _ _ _ _ _ _ (by omega), load_store_outside _ _ _ _ _ _ (by omega),
    load_store_same]
  decide

/-- The copies made after the record walk leave the bytes before `fpsr`
as they are. -/
theorem init_finish_below (mem : Mem) (ts : Nat) (r : reginfo) (fp sve i : Nat) (hi : i < 280) :
    (init_finish mem ts r fp sve).1 i = r i := by
  have hfp : init_fp mem r fp i = r i := by
    unfold init_fp
    simp only [off_fpsr, off_fpcr]
    rw [store_apply_outside _ _ _ _ _ (by omega), store_apply_outside _ _ _ _ _ (by omega)]
  have hsimd : init_simd mem (init_fp mem r fp) fp i = r i := by
    unfold init_simd
    rw [reginfo_vreg_off_zero, memcpy_apply_outside _ _ _ _ _ (by
      simp only [offsetof_extra]; omega), hfp]
  have hsve : init_sve mem ts (init_fp mem r fp) sve i = r i := by
    unfold init_sve
    rw [reginfo_zreg_off_zero, memcpy_apply_outside _ _ _ _ _ (by
      simp only [offsetof_extra]; omega), store_apply_outside _ _ _ _ _ (by
      simp only [off_sve_vl]; omega), hfp]
  unfold init_finish
  split_ifs <;> first | rfl | exact hfp | exact hsimd | exact hsve

/-- The copies made after the record walk do not depend on the previous
content of the destination. -/
theorem init_finish_agree (mem : Mem) (ts n : Nat) (r1 r2 : reginfo) (fp sve : Nat)
    (h : agree_below n r1 r2) :
    agree_below n (init_finish mem ts r1 fp sve).1 (init_finish mem ts r2 fp sve).1
    ∧ (init_finish mem ts r1 fp sve).2 = (init_finish mem ts r2 fp sve).2 := by
  have hfp : agree_below n (init_fp mem r1 fp) (init_fp mem r2 fp) :=
    agree_below_store _ _ _ _ _ _ (agree_below_store _ _ _ _ _ _ h)
  have hsimd : agree_below n (init_simd mem (init_fp mem r1 fp) fp)
      (init_simd mem (init_fp mem r2 fp) fp) := agree_below_memcpy _ _ _ _ _ _ hfp
  have hsve : agree_below n (init_sve mem ts (init_fp mem r1 fp) sve)
      (init_sve mem ts (init_fp mem r2 fp) sve) :=
    agree_below_memcpy _ _ _ _ _ _ (agree_below_store _ _ _ _ _ _ hfp)
  unfold init_finish
  split_ifs <;> exact ⟨by assumption, rfl⟩

/-- The `sve_vl` of a captured snapshot is 0 or the configured width. -/
theorem init_finish_sve_vl (mem : Mem) (ts : Nat) (r : reginfo) (fp sve : Nat)
    (hr : ∀ i, 280 ≤ i → i < sizeof_reginfo → r i = 0) :
    reginfo.sve_vl (init_finish mem ts r fp sve).1 = 0
    ∨ (ts ≠ 0 ∧ reginfo.sve_vl (init_finish mem ts r fp sve).1 = sve_vl_from_vq ts) := by
  have h0 : reginfo.sve_vl r = 0 := by
    unfold reginfo.sve_vl rd16
    simp only [off_sve_vl, load]
    rw [hr 288 (by omega) (by rw [sizeof_reginfo_eq]; omega),
      hr 289 (by omega) (by rw [sizeof_reginfo_eq]; omega)]
    rfl
  have hfp : reginfo.sve_vl (init_fp mem r fp) = 0 := by
    rw [← h0]
    unfold init_fp reginfo.sve_vl rd16
    simp only [off_sve_vl, off_fpsr, off_fpcr]
    rw [load_store_outside _ _ _ _ _ _ (by omega), load_store_outside _ _ _ _ _ _ (by omega)]
  have hsimd : reginfo.sve_vl (init_simd mem (init_fp mem r fp) fp) = 0 := by
    rw [← hfp]
    unfold init_simd reginfo.sve_vl rd16
    rw [reginfo_vreg_off_zero]
    simp only [off_sve_vl, offsetof_extra]
    rw [load_memcpy_outside _ _ _ _ _ _ (by omega)]
  unfold init_finish
  split_ifs with c1 c2 c3 c4 c5 c6
  · left; exact h0
  · left; exact hfp
  · left; exact hfp
  · left; exact hsimd
  · left; exact hfp
  · right
    refine ⟨c2, ?_⟩
    unfold init_sve reginfo.sve_vl rd16
    rw [reginfo_zreg_off_zero]
    simp only [off_sve_vl, offsetof_extra]
    rw [load_memcpy_outside _ _ _ _ _ _ (by omega), load_store_same]
    have hlt := load_lt mem 2 (sve + off_sve_vl_ctx)
    have hvl : rd16 mem (sve + off_sve_vl_ctx) = sve_vl_from_vq ts := not_not.mp c4
    unfold rd16 at hvl
    rw [Nat.mod_eq_of_lt hlt]
    exact hvl
  · left; exact hsimd

/-- A captured snapshot has its significant range inside the structure, for a
configured width of at most `SVE_VQ_MAX`. -/
theorem reginfo_size_le_sizeof (r : reginfo) (ts : Nat) (hts : ts ≤ SVE_VQ_MAX)
    (h : reginfo.sve_vl r = 0 ∨ (ts ≠ 0 ∧ reginfo.sve_vl r = sve_vl_from_vq ts)) :
    reginfo_size r ≤ sizeof_reginfo := by
  rw [sizeof_reginfo_eq]
  simp only [SVE_VQ_MAX] at hts
  rcases h with h | ⟨hne, h⟩
  · rw [reginfo_size_of_simd r h]
    simp only [offsetof_extra]
    omega
  · have hvl : reginfo.sve_vl r ≠ 0 := by
      rw [h]
      simp only [sve_vl_from_vq, SVE_VQ_BYTES]
      omega
    rw [reginfo_size_of_sve r hvl, h]
    simp only [sve_vl_from_vq, sve_vq_from_vl, SVE_VQ_BYTES, offsetof_extra]
    omega

/-- C9. Whenever the record walk ends, `reginfo_init` returns a snapshot, and
the `sp` of every snapshot it returns, on every path, is the sentinel
`0xdeadbeefdeadbeef`; two captures, into any destinations, from contexts that
differ in the real stack pointer only, return snapshots that
`reginfo_is_eq` finds equal (for a configured width of at most
`SVE_VQ_MAX`, which `process_arch_opt` enforces). -/
theorem reginfo_init_sp_sentinel :
    (∀ (mem : Mem) (isa ts fuel : Nat) (ri : reginfo) (uc : ucontext_t),
      (reginfo_init mem isa ts fuel ri uc).isSome = (walk mem fuel (walk_start uc)).isSome)
    ∧ (∀ (mem : Mem) (isa ts fuel : Nat) (ri : reginfo) (uc : ucontext_t) (r : reginfo)
        (err : String),
        reginfo_init mem isa ts fuel ri uc = some (r, err) →
        reginfo.sp r = 0xdeadbeefdeadbeef)
    ∧ (∀ (mem : Mem) (isa ts fuel : Nat) (ri1 ri2 : reginfo) (uc : ucontext_t) (sp2 : Nat)
        (r1 : reginfo) (err : String),
        ts ≤ SVE_VQ_MAX →
        reginfo_init mem isa ts fuel ri1 uc = some (r1, err) →
        ∃ r2, reginfo_init mem isa ts fuel ri2 { uc with sp := sp2 } = some (r2, err)
          ∧ reginfo_is_eq r1 r2 ≠ 0 ∧ reginfo_is_eq r2 r1 ≠ 0) := by
  refine ⟨?_, ?_, ?_⟩
  · intro mem isa ts fuel ri uc
    rw [reginfo_init_eq, Option.isSome_map']
  · intro mem isa ts fuel ri uc r err h
    rw [reginfo_init_eq] at h
    cases hw : walk mem fuel (walk_start uc) with
    | none => rw [hw] at h; simp at h
    | some w =>
      rw [hw] at h
      simp only [Option.map_some', Option.some.injEq] at h
      have hr : r = (init_finish mem ts (init_header mem isa ri uc) w.fp w.sve).1 := by
        rw [h]
      rw [← init_header_sp mem isa ri uc, hr]
      exact load_congr _ _ 8 _ _ (fun j hj =>
        init_finish_below mem ts _ w.fp w.sve _ (by simp only [off_sp]; omega))
  · intro mem isa ts fuel ri1 ri2 uc sp2 r1 err hts h
    rw [reginfo_init_eq] at h
    have hstart : walk_start { uc with sp := sp2 } = walk_start uc := rfl
    have hhdr : init_header mem isa ri2 { uc with sp := sp2 } = init_header mem isa ri2 uc := rfl
    rw [reginfo_init_eq, hstart, hhdr]
    cases hw : walk mem fuel (walk_start uc) with
    | none => rw [hw] at h; simp at h
    | some w =>
      rw [hw] at h
      simp only [Option.map_some', Option.some.injEq] at h ⊢
      have hr : r1 = (init_finish mem ts (init_header mem isa ri1 uc) w.fp w.sve).1 := by
        rw [h]
      have he : err = (init_finish mem ts (init_header mem isa ri1 uc) w.fp w.sve).2 := by
        rw [h]
      have hag := init_finish_agree mem ts sizeof_reginfo _ _ w.fp w.sve
        (init_header_agree mem isa ri1 ri2 uc)
      refine ⟨(init_finish mem ts (init_header mem isa ri2 uc) w.fp w.sve).1, ?_, ?_, ?_⟩
      · rw [he, hag.2]
      · rw [reginfo_is_eq_ne_zero_iff, hr]
        intro i hi
        exact hag.1 i (lt_of_lt_of_le hi (reginfo_size_le_sizeof _ ts hts
          (init_finish_sve_vl mem ts _ w.fp w.sve (init_header_zero mem isa ri1 uc))))
      · rw [reginfo_is_eq_ne_zero_iff, hr]
        intro i hi
        exact (hag.1 i (lt_of_lt_of_le hi (reginfo_size_le_sizeof _ ts hts
          (init_finish_sve_vl mem ts _ w.fp w.sve (init_header_zero mem isa ri2 uc))))).symm

/-- Witness of C9: two captures of a context with an FP/SIMD record, with
real stack pointers `0x7ffff000` and `0x7fff0000`: both snapshots hold the
sentinel and are equal. -/
theorem reginfo_init_sp_sentinel_witness :
    ∃ r1 r2 err,
      reginfo_init w_mem 0x400000 0 2 zero_reginfo (w_uc 0x7ffff000) = some (r1, err)
      ∧ reginfo_init w_mem 0x400000 0 2 zero_reginfo (w_uc 0x7fff0000) = some (r2, err)
      ∧ reginfo.sp r1 = 0xdeadbeefdeadbeef ∧ reginfo.sp r2 = 0xdeadbeefdeadbeef
      ∧ reginfo_is_eq r1 r2 ≠ 0 := by
  have hsome : (reginfo_init w_mem 0x400000 0 2 zero_reginfo (w_uc 0x7ffff000)).isSome = true := by
    rw [reginfo_init_sp_sentinel.1]
    decide
  obtain ⟨⟨r1, err⟩, h1⟩ := Option.isSome_iff_exists.mp hsome
  obtain ⟨r2, h2, heq, _⟩ := reginfo_init_sp_sentinel.2.2 w_mem 0x400000 0 2 zero_reginfo
    zero_reginfo (w_uc 0x7ffff000) 0x7fff0000 r1 err (by decide) h1
  exact ⟨r1, r2, err, h1, h2, reginfo_init_sp_sentinel.2.1 _ _ _ _ _ _ _ _ h1,
    reginfo_init_sp_sentinel.2.1 _ _ _ _ _ _ _ _ h2, heq⟩

/-- The `pc` of the snapshot after the header fill. -/
theorem init_header_pc (mem : Mem) (isa : Nat) (ri : reginfo) (uc : ucontext_t) :
    reginfo.pc (init_header mem isa ri uc) = (uc.pc + 2 ^ 64 - isa % 2 ^ 64) % 2 ^ 64 := by
  unfold init_header reginfo.pc rd64
  simp only [off_faulting_insn, off_fault_address, off_flags, off_pc]
  rw [load_store_outside _ _ _ _ _ _ (by omega), load_store_outside _ _ _ _ _ _ (by omega),
    load_store_outside _ _ _ _ _ _ (by omega), load_store_same]
  norm_num

/-- The `pc` of a captured snapshot. -/
theorem reginfo_init_pc_eq (mem : Mem) (isa ts fuel : Nat) (ri : reginfo) (uc : ucontext_t)
    (r : reginfo) (err : String) (h : reginfo_init mem isa ts fuel ri uc = some (r, err)) :
    reginfo.pc r = (uc.pc + 2 ^ 64 - isa % 2 ^ 64) % 2 ^ 64 := by
  rw [reginfo_init_eq] at h
  cases hw : walk mem fuel (walk_start uc) with
  | none => rw [hw] at h; simp at h
  | some w =>
    rw [hw] at h
    simp only [Option.map_some', Option.some.injEq] at h
    have hr : r = (init_finish mem ts (init_header mem isa ri uc) w.fp w.sve).1 := by
      rw [h]
    rw [← init_header_pc mem isa ri uc, hr]
    exact load_congr _ _ 8 _ _ (fun j hj =>
      init_finish_below mem ts _ w.fp w.sve _ (by simp only [off_pc]; omega))

/-- C10. Every capture sets `pc` to the trap pc minus `image_start_address`
in 64-bit wrap-around arithmetic.  Hence two captures, in any two processes,
at the same offset `d` from their image bases `b1` and `b2` (trap pc
`b1 + d` and `b2 + d`, as 64-bit addresses) give equal `pc` fields, both
equal to `d`. -/
theorem reginfo_init_pc :
    (∀ (mem : Mem) (isa ts fuel : Nat) (ri : reginfo) (uc : ucontext_t) (r : reginfo)
        (err : String),
        reginfo_init mem isa ts fuel ri uc = some (r, err) →
        (reginfo.pc r : Int) = ((uc.pc : Int) - (isa : Int)) % 2 ^ 64)
    ∧ (∀ (mem1 mem2 : Mem) (b1 b2 d ts1 ts2 fuel1 fuel2 : Nat) (ri1 ri2 : reginfo)
        (uc1 uc2 : ucontext_t) (r1 r2 : reginfo) (e1 e2 : String),
        b1 < 2 ^ 64 → b2 < 2 ^ 64 → d < 2 ^ 64 →
        uc1.pc = (b1 + d) % 2 ^ 64 → uc2.pc = (b2 + d) % 2 ^ 64 →
        reginfo_init mem1 b1 ts1 fuel1 ri1 uc1 = some (r1, e1) →
        reginfo_init mem2 b2 ts2 fuel2 ri2 uc2 = some (r2, e2) →
        reginfo.pc r1 = d ∧ reginfo.pc r2 = d ∧ reginfo.pc r1 = reginfo.pc r2) := by
  constructor
  · intro mem isa ts fuel ri uc r err h
    rw [reginfo_init_pc_eq mem isa ts fuel ri uc r err h]
    norm_num
    omega
  · intro mem1 mem2 b1 b2 d ts1 ts2 fuel1 fuel2 ri1 ri2 uc1 uc2 r1 r2 e1 e2 hb1 hb2 hd hp1 hp2
      h1 h2
    have e1 := reginfo_init_pc_eq mem1 b1 ts1 fuel1 ri1 uc1 r1 e1 h1
    have e2 := reginfo_init_pc_eq mem2 b2 ts2 fuel2 ri2 uc2 r2 e2 h2
    rw [hp1] at e1
    rw [hp2] at e2
    norm_num at e1 e2 hb1 hb2 hd
    refine ⟨by omega, by omega, by omega⟩

/-- Witness of C10: the same code at offset `0x10` of an image loaded at
`0x400000` and of one loaded at `0x7f0000`; both `pc` fields are `0x10`. -/
theorem reginfo_init_pc_witness :
    ∃ r1 r2 e1 e2,
      reginfo_init w_mem 0x400000 0 2 zero_reginfo (w_uc 0) = some (r1, e1)
      ∧ reginfo_init w_mem 0x7f0000 0 2 zero_reginfo { w_uc 0 with pc := 0x7f0010 }
          = some (r2, e2)
      ∧ reginfo.pc r1 = 0x10 ∧ reginfo.pc r2 = 0x10 := by
  have hs1 : (reginfo_init w_mem 0x400000 0 2 zero_reginfo (w_uc 0)).isSome = true := by
    rw [reginfo_init_eq, Option.isSome_map']
    decide
  have hs2 : (reginfo_init w_mem 0x7f0000 0 2 zero_reginfo
      { w_uc 0 with pc := 0x7f0010 }).isSome = true := by
    rw [reginfo_init_eq, Option.isSome_map']
    decide
  obtain ⟨⟨r1, e1⟩, h1⟩ := Option.isSome_iff_exists.mp hs1
  obtain ⟨⟨r2, e2⟩, h2⟩ := Option.isSome_iff_exists.mp hs2
  have h := reginfo_init_pc.2 w_mem w_mem 0x400000 0x7f0000 0x10 0 0 2 2 zero_reginfo
    zero_reginfo (w_uc 0) { w_uc 0 with pc := 0x7f0010 } r1 r2 e1 e2
    (by decide) (by decide) (by decide) (by decide) (by decide) h1 h2
  exact ⟨r1, r2, e1, e2, h1, h2, h.1, h.2.1⟩

/-! ### The scalar fields of a capture -/

theorem regs_loop_load_notin (regs : Nat → Nat) (i : Nat) (l : List Nat) (hi : i ∉ l) :
    ∀ r : Mem, load (l.foldl (fun ri j => store ri (off_regs j) 8 (regs j)) r) (off_regs i) 8
      = load r (off_regs i) 8 := by
  induction l with
  | nil => intro r; rfl
  | cons x l ih =>
    intro r
    have hx : i ≠ x := fun h => hi (h ▸ List.mem_cons_self _ _)
    rw [List.foldl_cons, ih (fun h => hi (List.mem_cons_of_mem _ h))]
    exact load_store_outside r _ 8 _ _ 8 (by simp only [off_regs]; omega)

theorem regs_loop_load (regs : Nat → Nat) (i : Nat) (l : List Nat) (hnd : l.Nodup)
    (hi : i ∈ l) :
    ∀ r : Mem, load (l.foldl (fun ri j => store ri (off_regs j) 8 (regs j)) r) (off_regs i) 8
      = regs i % 2 ^ 64 := by
  induction l with
  | nil => simp at hi
  | cons x l ih =>
    intro r
    rw [List.nodup_cons] at hnd
    rw [List.foldl_cons]
    by_cases hx : i = x
    · subst hx
      rw [regs_loop_load_notin regs i l hnd.1, load_store_same]
      norm_num
    · rcases List.mem_cons.mp hi with h | h
      · exact absurd h hx
      · exact ih hnd.2 h _

/-- The general registers after the header fill: register `i` of the context,
as a 64-bit value. -/
theorem init_header_regs (mem : Mem) (isa : Nat) (ri : reginfo) (uc : ucontext_t) (i : Nat)
    (hi : i < 31) : reginfo.regs (init_header mem isa ri uc) i = uc.regs i % 2 ^ 64 := by
  unfold init_header reginfo.regs rd64
  simp only [off_faulting_insn, off_fault_address, off_flags, off_pc, off_sp]
  rw [load_store_outside _ _ _ _ _ _ (by simp only [off_regs]; omega),
    load_store_outside _ _ _ _ _ _ (by simp only [off_regs]; omega),
    load_store_outside _ _ _ _ _ _ (by simp only [off_regs]; omega),
    load_store_outside _ _ _ _ _ _ (by simp only [off_regs]; omega),
    load_store_outside _ _ _ _ _ _ (by simp only [off_regs]; omega)]
  exact regs_loop_load uc.regs i _ (List.nodup_range 31) (List.mem_range.mpr hi) _

theorem init_header_fault_address (mem : Mem) (isa : Nat) (ri : reginfo) (uc : ucontext_t) :
    reginfo.fault_address (init_header mem isa ri uc) = uc.fault_address % 2 ^ 64 := by
  unfold init_header reginfo.fault_address rd64
  simp only [off_faulting_insn, off_fault_address]
  rw [load_store_outside _ _ _ _ _ _ (by omega), load_store_same]
  norm_num

theorem init_header_faulting_insn (mem : Mem) (isa : Nat) (ri : reginfo) (uc : ucontext_t) :
    reginfo.faulting_insn (init_header mem isa ri uc) = rd32 mem uc.pc := by
  unfold init_header reginfo.faulting_insn rd32
  rw [load_store_same]
  exact Nat.mod_eq_of_lt (load_lt mem 4 uc.pc)

theorem init_header_flags (mem : Mem) (isa : Nat) (ri : reginfo) (uc : ucontext_t) :
    reginfo.flags (init_header mem isa ri uc) = uc.pstate &&& 0xf0000000 := by
  unfold init_header reginfo.flags rd32
  simp only [off_faulting_insn, off_fault_address, off_flags]
  rw [load_store_outside _ _ _ _ _ _ (by omega), load_store_outside _ _ _ _ _ _ (by omega),
    load_store_same]
  have h : uc.pstate &&& 0xf0000000 ≤ 0xf0000000 := Nat.and_le_right
  exact Nat.mod_eq_of_lt (lt_of_le_of_lt h (by norm_num))

/-- The condition flags are bits 31..28: masks of two values that agree on
those bits are equal. -/
theorem flags_mask_congr (p1 p2 : Nat)
    (h : ∀ k, 28 ≤ k → k ≤ 31 → p1.testBit k = p2.testBit k) :
    p1 &&& 0xf0000000 = p2 &&& 0xf0000000 := by
  apply Nat.eq_of_testBit_eq
  intro k
  rw [Nat.testBit_and, Nat.testBit_and]
  by_cases hk : 28 ≤ k ∧ k ≤ 31
  · rw [h k hk.1 hk.2]
  · have hm : Nat.testBit 0xf0000000 k = false := by
      by_cases hlt : k < 28
      · interval_cases k <;> rfl
      · apply Nat.testBit_lt_two_pow
        have : 2 ^ 32 ≤ 2 ^ k := Nat.pow_le_pow_right (by omega) (by omega)
        omega
    rw [hm, Bool.and_false, Bool.and_false]

/-- A returned capture is the result of the copies on the header fill, for
the records found by a walk that ended. -/
theorem reginfo_init_result (mem : Mem) (isa ts fuel : Nat) (ri : reginfo) (uc : ucontext_t)
    (r : reginfo) (err : String) (h : reginfo_init mem isa ts fuel ri uc = some (r, err)) :
    ∃ w, walk mem fuel (walk_start uc) = some w
      ∧ r = (init_finish mem ts (init_header mem isa ri uc) w.fp w.sve).1
      ∧ err = (init_finish mem ts (init_header mem isa ri uc) w.fp w.sve).2 := by
  rw [reginfo_init_eq] at h
  cases hw : walk mem fuel (walk_start uc) with
  | none => rw [hw] at h; simp at h
  | some w =>
    rw [hw] at h
    simp only [Option.map_some', Option.some.injEq] at h
    exact ⟨w, rfl, by rw [h], by rw [h]⟩

/-- The scalar fields of a captured snapshot, on every path. -/
theorem reginfo_init_scalars_eq (mem : Mem) (isa ts fuel : Nat) (ri : reginfo)
    (uc : ucontext_t) (r : reginfo) (err : String)
    (h : reginfo_init mem isa ts fuel ri uc = some (r, err)) :
    (∀ i, i < 31 → reginfo.regs r i = uc.regs i % 2 ^ 64)
    ∧ reginfo.fault_address r = uc.fault_address % 2 ^ 64
    ∧ reginfo.faulting_insn r = rd32 mem uc.pc
    ∧ reginfo.flags r = uc.pstate &&& 0xf0000000
    ∧ reginfo.sp r = 0xdeadbeefdeadbeef := by
  obtain ⟨w, _, hr, _⟩ := reginfo_init_result mem isa ts fuel ri uc r err h
  refine ⟨fun i hi => ?_, ?_, ?_, ?_, ?_⟩
  · rw [← init_header_regs mem isa ri uc i hi, hr]
    exact load_congr _ _ 8 _ _ (fun j hj =>
      init_finish_below mem ts _ w.fp w.sve _ (by simp only [off_regs]; omega))
  · rw [← init_header_fault_address mem isa ri uc, hr]
    exact load_congr _ _ 8 _ _ (fun j hj =>
      init_finish_below mem ts _ w.fp w.sve _ (by simp only [off_fault_address]; omega))
  · rw [← init_header_faulting_insn mem isa ri uc, hr]
    exact load_congr _ _ 4 _ _ (fun j hj =>
      init_finish_below mem ts _ w.fp w.sve _ (by simp only [off_faulting_insn]; omega))
  · rw [← init_header_flags mem isa ri uc, hr]
    exact load_congr _ _ 4 _ _ (fun j hj =>
      init_finish_below mem ts _ w.fp w.sve _ (by simp only [off_flags]; omega))
  · rw [← init_header_sp mem isa ri uc, hr]
    exact load_congr _ _ 8 _ _ (fun j hj =>
      init_finish_below mem ts _ w.fp w.sve _ (by simp only [off_sp]; omega))

/-- C11. Every capture, on every path, copies the 31 general registers index
by index, the fault address and the instruction word at the trap pc verbatim
from the context (as 64-bit and 32-bit values), and sets `flags` to
`pstate & 0xf0000000`; two contexts whose `pstate` agree on bits 31..28 give
the same `flags`, whatever their other bits are. -/
theorem reginfo_init_scalars :
    (∀ (mem : Mem) (isa ts fuel : Nat) (ri : reginfo) (uc : ucontext_t) (r : reginfo)
        (err : String),
        reginfo_init mem isa ts fuel ri uc = some (r, err) →
        (∀ i, i < 31 → reginfo.regs r i = uc.regs i % 2 ^ 64)
        ∧ (∀ i, i < 31 → uc.regs i < 2 ^ 64 → reginfo.regs r i = uc.regs i)
        ∧ reginfo.fault_address r = uc.fault_address % 2 ^ 64
        ∧ (uc.fault_address < 2 ^ 64 → reginfo.fault_address r = uc.fault_address)
        ∧ reginfo.faulting_insn r = rd32 mem uc.pc
        ∧ reginfo.flags r = uc.pstate &&& 0xf0000000)
    ∧ (∀ (mem1 mem2 : Mem) (isa1 isa2 ts1 ts2 fuel1 fuel2 : Nat) (ri1 ri2 : reginfo)
        (uc1 uc2 : ucontext_t) (r1 r2 : reginfo) (e1 e2 : String),
        (∀ k, 28 ≤ k → k ≤ 31 → uc1.pstate.testBit k = uc2.pstate.testBit k) →
        reginfo_init mem1 isa1 ts1 fuel1 ri1 uc1 = some (r1, e1) →
        reginfo_init mem2 isa2 ts2 fuel2 ri2 uc2 = some (r2, e2) →
        reginfo.flags r1 = reginfo.flags r2) := by
  constructor
  · intro mem isa ts fuel ri uc r err h
    obtain ⟨h1, h2, h3, h4, _⟩ := reginfo_init_scalars_eq mem isa ts fuel ri uc r err h
    exact ⟨h1, fun i hi hb => by rw [h1 i hi, Nat.mod_eq_of_lt hb], h2,
      fun hb => by rw [h2, Nat.mod_eq_of_lt hb], h3, h4⟩
  · intro mem1 mem2 isa1 isa2 ts1 ts2 fuel1 fuel2 ri1 ri2 uc1 uc2 r1 r2 e1 e2 hbits h1 h2
    rw [(reginfo_init_scalars_eq _ _ _ _ _ _ _ _ h1).2.2.2.1,
      (reginfo_init_scalars_eq _ _ _ _ _ _ _ _ h2).2.2.2.1]
    exact flags_mask_congr _ _ hbits

/-- Witness of C11: a capture of the concrete context: X30 = 130, the
instruction word `0xd503201f`, and `flags = 0x60000000` from
`pstate = 0x60001000`. -/
theorem reginfo_init_scalars_witness :
    ∃ r err, reginfo_init w_mem 0x400000 0 2 zero_reginfo (w_uc 0) = some (r, err)
      ∧ reginfo.regs r 30 = 130 ∧ reginfo.fault_address r = 0
      ∧ reginfo.faulting_insn r = 0xd503201f ∧ reginfo.flags r = 0x60000000 := by
  have hs : (reginfo_init w_mem 0x400000 0 2 zero_reginfo (w_uc 0)).isSome = true := by
    rw [reginfo_init_eq, Option.isSome_map']
    decide
  obtain ⟨⟨r, err⟩, h⟩ := Option.isSome_iff_exists.mp hs
  have hk := reginfo_init_scalars.1 w_mem 0x400000 0 2 zero_reginfo (w_uc 0) r err h
  refine ⟨r, err, h, ?_, ?_, ?_, ?_⟩
  · rw [hk.1 30 (by decide)]; decide
  · rw [hk.2.2.1]; decide
  · rw [hk.2.2.2.2.1]; decide
  · rw [hk.2.2.2.2.2]; decide

/-! ### The paths of the capture after the record walk -/

theorem SVE_SIG_REGS_SIZE_eq (vq : Nat) : SVE_SIG_REGS_SIZE vq = 546 * vq := by
  simp only [SVE_SIG_REGS_SIZE, SVE_SIG_FFR_OFFSET, SVE_SIG_FFR_SIZE,
    SVE_SIG_PREGS_OFFSET, SVE_SIG_PREGS_SIZE, SVE_SIG_PREG_OFFSET, SVE_SIG_PREG_SIZE,
    SVE_SIG_ZREGS_SIZE, SVE_SIG_ZREG_OFFSET, SVE_SIG_ZREG_SIZE, SVE_SIG_REGS_OFFSET_eq,
    SVE_VQ_BYTES, SVE_NUM_ZREGS, SVE_NUM_PREGS]
  omega

theorem SVE_SIG_CONTEXT_SIZE_eq (vq : Nat) : SVE_SIG_CONTEXT_SIZE vq = 16 + 546 * vq := by
  simp only [SVE_SIG_CONTEXT_SIZE, SVE_SIG_REGS_SIZE_eq, SVE_SIG_REGS_OFFSET_eq]

/-- Path: no usable FP/SIMD record. -/
theorem init_finish_no_fp (mem : Mem) (ts : Nat) (r : reginfo) (fp sve : Nat)
    (h : fp = 0 ∨ rd32 mem (fp + off_ctx_size) ≠ sizeof_fpsimd_context) :
    init_finish mem ts r fp sve
      = (r, "risu_reginfo_aarch64: failed to get FP/SIMD state\n") := by
  unfold init_finish
  rw [if_pos h]

/-- Path: the SIMD vectors are copied. -/
theorem init_finish_simd (mem : Mem) (ts : Nat) (r : reginfo) (fp sve : Nat)
    (hfp : fp ≠ 0) (hsz : rd32 mem (fp + off_ctx_size) = sizeof_fpsimd_context)
    (h : ts = 0 ∨ (sve ≠ 0 ∧ rd16 mem (sve + off_sve_vl_ctx) = sve_vl_from_vq ts
      ∧ rd32 mem (sve + off_ctx_size) ≤ SVE_SIG_CONTEXT_SIZE 0)) :
    init_finish mem ts r fp sve = (init_simd mem (init_fp mem r fp) fp, "") := by
  unfold init_finish
  rw [if_neg (by rintro (h1 | h1); exact hfp h1; exact h1 hsz)]
  rcases h with h | ⟨h1, h2, h3⟩
  · rw [if_neg (not_not.mpr h)]
  · by_cases hts : ts = 0
    · rw [if_neg (not_not.mpr hts)]
    · rw [if_pos hts, if_neg h1, if_neg (not_not.mpr h2), if_pos h3]

/-- Path: scalable-vector testing configured, no SVE record. -/
theorem init_finish_no_sve (mem : Mem) (ts : Nat) (r : reginfo) (fp sve : Nat)
    (hfp : fp ≠ 0) (hsz : rd32 mem (fp + off_ctx_size) = sizeof_fpsimd_context)
    (hts : ts ≠ 0) (h : sve = 0) :
    init_finish mem ts r fp sve
      = (init_fp mem r fp, "risu_reginfo_aarch64: failed to get SVE state\n") := by
  unfold init_finish
  rw [if_neg (by rintro (h1 | h1); exact hfp h1; exact h1 hsz), if_pos hts, if_pos h]

/-- Path: the SVE record has another vector length than the configured one. -/
theorem init_finish_bad_vl (mem : Mem) (ts : Nat) (r : reginfo) (fp sve : Nat)
    (hfp : fp ≠ 0) (hsz : rd32 mem (fp + off_ctx_size) = sizeof_fpsimd_context)
    (hts : ts ≠ 0) (hsve : sve ≠ 0)
    (h : rd16 mem (sve + off_sve_vl_ctx) ≠ sve_vl_from_vq ts) :
    (init_finish mem ts r fp sve).1 = init_fp mem r fp := by
  unfold init_finish
  rw [if_neg (by rintro (h1 | h1); exact hfp h1; exact h1 hsz), if_pos hts, if_neg hsve,
    if_pos h]

/-- Path: the SVE record has a payload, but not a complete one. -/
theorem init_finish_short (mem : Mem) (ts : Nat) (r : reginfo) (fp sve : Nat)
    (hfp : fp ≠ 0) (hsz : rd32 mem (fp + off_ctx_size) = sizeof_fpsimd_context)
    (hts : ts ≠ 0) (hsve : sve ≠ 0)
    (hvl : rd16 mem (sve + off_sve_vl_ctx) = sve_vl_from_vq ts)
    (h0 : SVE_SIG_CONTEXT_SIZE 0 < rd32 mem (sve + off_ctx_size))
    (h1 : rd32 mem (sve + off_ctx_size) < SVE_SIG_CONTEXT_SIZE ts) :
    init_finish mem ts r fp sve
      = (init_fp mem r fp, "risu_reginfo_aarch64: failed to get complete SVE state\n") := by
  unfold init_finish
  rw [if_neg (by rintro (h1 | h1); exact hfp h1; exact h1 hsz), if_pos hts, if_neg hsve,
    if_neg (not_not.mpr hvl), if_neg (by omega), if_pos h1]

/-- Path: the Z/P/FFR payload is copied. -/
theorem init_finish_sve (mem : Mem) (ts : Nat) (r : reginfo) (fp sve : Nat)
    (hfp : fp ≠ 0) (hsz : rd32 mem (fp + off_ctx_size) = sizeof_fpsimd_context)
    (hts : ts ≠ 0) (hsve : sve ≠ 0)
    (hvl : rd16 mem (sve + off_sve_vl_ctx) = sve_vl_from_vq ts)
    (h1 : SVE_SIG_CONTEXT_SIZE ts ≤ rd32 mem (sve + off_ctx_size)) :
    init_finish mem ts r fp sve = (init_sve mem ts (init_fp mem r fp) sve, "") := by
  have h0 : SVE_SIG_CONTEXT_SIZE 0 < rd32 mem (sve + off_ctx_size) := by
    rw [SVE_SIG_CONTEXT_SIZE_eq] at h1 ⊢
    omega
  unfold init_finish
  rw [if_neg (by rintro (h1 | h1); exact hfp h1; exact h1 hsz), if_pos hts, if_neg hsve,
    if_neg (not_not.mpr hvl), if_neg (by omega), if_neg (by omega)]

/-! ### The fields after each copy -/

theorem init_fp_apply_outside (mem : Mem) (r : reginfo) (fp i : Nat) (h : i < 280 ∨ 288 ≤ i) :
    init_fp mem r fp i = r i := by
  unfold init_fp
  simp only [off_fpsr, off_fpcr]
  rw [store_apply_outside _ _ _ _ _ (by omega), store_apply_outside _ _ _ _ _ (by omega)]

theorem init_fp_fpsr (mem : Mem) (r : reginfo) (fp : Nat) :
    reginfo.fpsr (init_fp mem r fp) = rd32 mem (fp + off_fpsimd_fpsr) := by
  unfold init_fp reginfo.fpsr rd32
  simp only [off_fpsr, off_fpcr]
  rw [load_store_outside _ _ _ _ _ _ (by omega), load_store_same]
  exact Nat.mod_eq_of_lt (load_lt mem 4 _)

theorem init_fp_fpcr (mem : Mem) (r : reginfo) (fp : Nat) :
    reginfo.fpcr (init_fp mem r fp) = rd32 mem (fp + off_fpsimd_fpcr) := by
  unfold init_fp reginfo.fpcr rd32
  rw [load_store_same]
  exact Nat.mod_eq_of_lt (load_lt mem 4 _)

theorem init_simd_apply_below (mem : Mem) (r : reginfo) (fp i : Nat) (h : i < offsetof_extra) :
    init_simd mem r fp i = r i := by
  unfold init_simd
  rw [reginfo_vreg_off_zero, memcpy_apply_outside _ _ _ _ _ (by omega)]

theorem init_simd_apply_above (mem : Mem) (r : reginfo) (fp i : Nat)
    (h : offsetof_extra + RISU_SIMD_REGS_SIZE ≤ i) : init_simd mem r fp i = r i := by
  unfold init_simd
  rw [reginfo_vreg_off_zero, memcpy_apply_outside _ _ _ _ _ (by omega)]

theorem init_simd_apply (mem : Mem) (r : reginfo) (fp j : Nat) (h : j < RISU_SIMD_REGS_SIZE) :
    init_simd mem r fp (offsetof_extra + j) = mem (fp + off_fpsimd_vregs + j) := by
  unfold init_simd memcpy
  rw [reginfo_vreg_off_zero, if_pos (by omega), Nat.add_sub_cancel_left]
  rfl

theorem init_sve_apply_below (mem : Mem) (vq : Nat) (r : reginfo) (sve i : Nat)
    (h : i < off_sve_vl ∨ (off_sve_vl + 2 ≤ i ∧ i < offsetof_extra)) :
    init_sve mem vq r sve i = r i := by
  unfold init_sve
  rw [reginfo_zreg_off_zero, memcpy_apply_outside _ _ _ _ _ (by
    simp only [off_sve_vl, offsetof_extra] at h ⊢; omega),
    store_apply_outside _ _ _ _ _ (by omega)]

theorem init_sve_apply_above (mem : Mem) (vq : Nat) (r : reginfo) (sve i : Nat)
    (h : offsetof_extra + SVE_SIG_REGS_SIZE vq ≤ i) : init_sve mem vq r sve i = r i := by
  unfold init_sve
  rw [reginfo_zreg_off_zero, memcpy_apply_outside _ _ _ _ _ (by omega),
    store_apply_outside _ _ _ _ _ (by simp only [off_sve_vl, offsetof_extra] at h ⊢; omega)]

theorem init_sve_apply (mem : Mem) (vq : Nat) (r : reginfo) (sve j : Nat)
    (h : j < SVE_SIG_REGS_SIZE vq) :
    init_sve mem vq r sve (offsetof_extra + j) = mem (sve + SVE_SIG_REGS_OFFSET + j) := by
  unfold init_sve memcpy
  rw [reginfo_zreg_off_zero, if_pos (by omega), Nat.add_sub_cancel_left]
  rfl

theorem init_sve_sve_vl (mem : Mem) (vq : Nat) (r : reginfo) (sve : Nat) :
    reginfo.sve_vl (init_sve mem vq r sve) = rd16 mem (sve + off_sve_vl_ctx) := by
  unfold init_sve reginfo.sve_vl rd16
  rw [reginfo_zreg_off_zero]
  simp only [off_sve_vl, offsetof_extra]
  rw [load_memcpy_outside _ _ _ _ _ _ (by omega), load_store_same]
  exact Nat.mod_eq_of_lt (load_lt mem 2 _)

/-- The `sve_vl` of a snapshot whose bytes 288 and 289 are zero. -/
theorem sve_vl_eq_zero (r : reginfo) (h : ∀ i, 288 ≤ i → i < 290 → r i = 0) :
    reginfo.sve_vl r = 0 := by
  unfold reginfo.sve_vl rd16
  simp only [off_sve_vl, load]
  rw [h 288 (by omega) (by omega), h 289 (by omega) (by omega)]
  rfl

/-! ### The vector width of a capture -/

/-- The `sve_vl` of the snapshot after the header fill and the FP/SIMD copies
is still 0. -/
theorem init_fp_sve_vl (mem : Mem) (isa : Nat) (ri : reginfo) (uc : ucontext_t) (fp : Nat) :
    reginfo.sve_vl (init_header mem isa ri uc) = 0
    ∧ reginfo.sve_vl (init_fp mem (init_header mem isa ri uc) fp) = 0
    ∧ reginfo.sve_vl (init_simd mem (init_fp mem (init_header mem isa ri uc) fp) fp) = 0 := by
  have hz : ∀ i, 288 ≤ i → i < 290 → init_header mem isa ri uc i = 0 := fun i h1 h2 =>
    init_header_zero mem isa ri uc i (by omega) (by rw [sizeof_reginfo_eq]; omega)
  refine ⟨sve_vl_eq_zero _ hz, sve_vl_eq_zero _ (fun i h1 h2 => ?_),
    sve_vl_eq_zero _ (fun i h1 h2 => ?_)⟩
  · rw [init_fp_apply_outside _ _ _ _ (by omega)]
    exact hz i h1 h2
  · rw [init_simd_apply_below _ _ _ _ (by simp only [offsetof_extra]; omega),
      init_fp_apply_outside _ _ _ _ (by omega)]
    exact hz i h1 h2

/-- C12, as amended. The `sve_vl` of a captured snapshot is 0 when
scalable-vector testing is not configured (`test_sve = 0`).  When
`test_sve = vq` is not 0, it is the negotiated length `16 * vq` if the walk
found an FP/SIMD record of the right size and an SVE record with
`vl = 16 * vq` and `head.size ≥ SVE_SIG_CONTEXT_SIZE(vq)`, and it is 0 in
every other case: a soft failure, or an SVE record without payload
(`head.size ≤ SVE_SIG_CONTEXT_SIZE(0)`, only AdvSIMD state present). -/
theorem reginfo_init_sve_vl (mem : Mem) (isa ts fuel : Nat) (ri : reginfo) (uc : ucontext_t)
    (r : reginfo) (err : String) (w : walk_state)
    (h : reginfo_init mem isa ts fuel ri uc = some (r, err))
    (hw : walk mem fuel (walk_start uc) = some w) :
    (ts = 0 → reginfo.sve_vl r = 0)
    ∧ (ts ≠ 0 → w.fp ≠ 0 → rd32 mem (w.fp + off_ctx_size) = sizeof_fpsimd_context →
        w.sve ≠ 0 → rd16 mem (w.sve + off_sve_vl_ctx) = 16 * ts →
        SVE_SIG_CONTEXT_SIZE ts ≤ rd32 mem (w.sve + off_ctx_size) →
        reginfo.sve_vl r = 16 * ts)
    ∧ (¬ (w.fp ≠ 0 ∧ rd32 mem (w.fp + off_ctx_size) = sizeof_fpsimd_context
          ∧ w.sve ≠ 0 ∧ rd16 mem (w.sve + off_sve_vl_ctx) = 16 * ts
          ∧ SVE_SIG_CONTEXT_SIZE ts ≤ rd32 mem (w.sve + off_ctx_size)) →
        reginfo.sve_vl r = 0) := by
  obtain ⟨w', hw', hr, _⟩ := reginfo_init_result mem isa ts fuel ri uc r err h
  rw [hw] at hw'
  cases hw'
  obtain ⟨z0, z1, z2⟩ := init_fp_sve_vl mem isa ri uc w.fp
  have hvq : sve_vl_from_vq ts = 16 * ts := by
    simp only [sve_vl_from_vq, SVE_VQ_BYTES]
    omega
  by_cases hfp : w.fp = 0 ∨ rd32 mem (w.fp + off_ctx_size) ≠ sizeof_fpsimd_context
  · rw [init_finish_no_fp mem ts _ w.fp w.sve hfp] at hr
    subst hr
    refine ⟨fun _ => z0, fun _ h1 h2 => ?_, fun _ => z0⟩
    rcases hfp with h0 | h0
    · exact absurd h0 h1
    · exact absurd h2 h0
  · push_neg at hfp
    obtain ⟨hfp, hsz⟩ := hfp
    by_cases hts : ts = 0
    · rw [init_finish_simd mem ts _ w.fp w.sve hfp hsz (Or.inl hts)] at hr
      subst hr
      exact ⟨fun _ => z2, fun h0 => absurd hts h0, fun _ => z2⟩
    · by_cases hsve : w.sve = 0
      · rw [init_finish_no_sve mem ts _ w.fp w.sve hfp hsz hts hsve] at hr
        subst hr
        exact ⟨fun _ => z1, fun _ _ _ h0 => absurd hsve h0, fun _ => z1⟩
      · by_cases hvl : rd16 mem (w.sve + off_sve_vl_ctx) = sve_vl_from_vq ts
        · by_cases h0 : rd32 mem (w.sve + off_ctx_size) ≤ SVE_SIG_CONTEXT_SIZE 0
          · rw [init_finish_simd mem ts _ w.fp w.sve hfp hsz (Or.inr ⟨hsve, hvl, h0⟩)] at hr
            subst hr
            refine ⟨fun _ => z2, fun _ _ _ _ _ h5 => ?_, fun _ => z2⟩
            rw [SVE_SIG_CONTEXT_SIZE_eq] at h0 h5
            omega
          · by_cases h1 : rd32 mem (w.sve + off_ctx_size) < SVE_SIG_CONTEXT_SIZE ts
            · rw [init_finish_short mem ts _ w.fp w.sve hfp hsz hts hsve hvl (by omega) h1]
                at hr
              subst hr
              exact ⟨fun _ => z1, fun _ _ _ _ _ h5 => by omega, fun _ => z1⟩
            · rw [init_finish_sve mem ts _ w.fp w.sve hfp hsz hts hsve hvl (by omega)] at hr
              subst hr
              rw [init_sve_sve_vl, hvl, hvq]
              refine ⟨fun h0 => absurd h0 hts, fun _ _ _ _ _ _ => rfl, fun hn => ?_⟩
              exact absurd ⟨hfp, hsz, hsve, rfl, by omega⟩ hn
        · have hr' : r = init_fp mem (init_header mem isa ri uc) w.fp := by
            rw [hr, init_finish_bad_vl mem ts _ w.fp w.sve hfp hsz hts hsve hvl]
          subst hr'
          refine ⟨fun _ => z1, fun _ _ _ _ h4 => ?_, fun _ => z1⟩
          exact absurd (h4.trans hvq.symm) hvl

theorem walk_w_mem_sve :
    walk w_mem_sve 3 (walk_start (w_uc 0)) = some ⟨0, 0, 0x1000, 0x1210⟩ := by decide

theorem walk_w_mem_bare :
    walk w_mem_bare 3 (walk_start (w_uc 0)) = some ⟨0, 0, 0x1000, 0x1210⟩ := by decide

/-- Witness of C12: one quadword configured and a complete SVE record of
vector length 16: the snapshot has `sve_vl = 16`. -/
theorem reginfo_init_sve_vl_witness :
    ∃ r err, reginfo_init w_mem_sve 0x400000 1 3 zero_reginfo (w_uc 0) = some (r, err)
      ∧ reginfo.sve_vl r = 16 * 1 := by
  have hs : (reginfo_init w_mem_sve 0x400000 1 3 zero_reginfo (w_uc 0)).isSome = true := by
    rw [reginfo_init_eq, Option.isSome_map', walk_w_mem_sve]
    rfl
  obtain ⟨⟨r, err⟩, h⟩ := Option.isSome_iff_exists.mp hs
  exact ⟨r, err, h, (reginfo_init_sve_vl w_mem_sve 0x400000 1 3 zero_reginfo (w_uc 0) r err _ h
    walk_w_mem_sve).2.1 (by decide) (by decide) (by decide) (by decide) (by decide) (by decide)⟩

/-- Counterexample to C12: one quadword configured (`test_sve = 1`) and an SVE
record of the matching vector length 16 that carries no payload
(`head.size = 16`): the capture succeeds without diagnostic, on the SIMD path,
and its `sve_vl` is 0, not 16. -/
theorem reginfo_init_sve_vl_bare_record :
    (reginfo_init w_mem_bare 0x400000 1 3 zero_reginfo (w_uc 0)).map
        (fun x => (reginfo.sve_vl x.1, x.2)) = some (0, "")
    ∧ (1 ≤ 1 ∧ 1 ≤ SVE_VQ_MAX) ∧ 0 ≠ 16 * 1 := by
  decide

/-! ### What a successful capture copies -/

theorem fpsr_fpcr_congr (r1 r2 : reginfo) (h : ∀ i, 280 ≤ i → i < 288 → r1 i = r2 i) :
    reginfo.fpsr r1 = reginfo.fpsr r2 ∧ reginfo.fpcr r1 = reginfo.fpcr r2 :=
  ⟨load_congr r1 r2 4 _ _ (fun j hj => h _ (by simp only [off_fpsr]; omega)
      (by simp only [off_fpsr]; omega)),
    load_congr r1 r2 4 _ _ (fun j hj => h _ (by simp only [off_fpcr]; omega)
      (by simp only [off_fpcr]; omega))⟩

/-- C13. For a context whose walk found an FP/SIMD record of the right size:
(1) with `test_sve = vq > 0` and an SVE record with `vl = 16 * vq` and
`head.size ≥ SVE_SIG_CONTEXT_SIZE(vq)`, the capture sets `sve_vl = 16 * vq`,
makes the first `SVE_SIG_REGS_SIZE(vq)` bytes of the variable region equal to
the record's payload at `SVE_SIG_REGS_OFFSET`, and copies no SIMD vector (the
rest of the variable region stays zero); (2) with `test_sve = 0`, or with
`test_sve = vq > 0` and an SVE record of matching `vl` with
`head.size ≤ SVE_SIG_CONTEXT_SIZE(0)`, it leaves `sve_vl` at 0 and makes the
first 512 bytes of the variable region equal to the 32 vector registers of
the FP/SIMD record.  In both cases no diagnostic is written and `fpsr` and
`fpcr` are those of the FP/SIMD record. -/
theorem reginfo_init_copies (mem : Mem) (isa ts fuel : Nat) (ri : reginfo) (uc : ucontext_t)
    (r : reginfo) (err : String) (w : walk_state)
    (h : reginfo_init mem isa ts fuel ri uc = some (r, err))
    (hw : walk mem fuel (walk_start uc) = some w)
    (hfp : w.fp ≠ 0) (hsz : rd32 mem (w.fp + off_ctx_size) = sizeof_fpsimd_context) :
    (ts ≠ 0 → w.sve ≠ 0 → rd16 mem (w.sve + off_sve_vl_ctx) = 16 * ts →
        SVE_SIG_CONTEXT_SIZE ts ≤ rd32 mem (w.sve + off_ctx_size) →
        reginfo.sve_vl r = 16 * ts
        ∧ (∀ j, j < SVE_SIG_REGS_SIZE ts →
            r (offsetof_extra + j) = mem (w.sve + SVE_SIG_REGS_OFFSET + j))
        ∧ (∀ i, offsetof_extra + SVE_SIG_REGS_SIZE ts ≤ i → i < sizeof_reginfo → r i = 0)
        ∧ err = ""
        ∧ reginfo.fpsr r = rd32 mem (w.fp + off_fpsimd_fpsr)
        ∧ reginfo.fpcr r = rd32 mem (w.fp + off_fpsimd_fpcr))
    ∧ (ts = 0 ∨ (ts ≠ 0 ∧ w.sve ≠ 0 ∧ rd16 mem (w.sve + off_sve_vl_ctx) = 16 * ts
          ∧ rd32 mem (w.sve + off_ctx_size) ≤ SVE_SIG_CONTEXT_SIZE 0) →
        reginfo.sve_vl r = 0
        ∧ (∀ j, j < 512 → r (offsetof_extra + j) = mem (w.fp + off_fpsimd_vregs + j))
        ∧ err = ""
        ∧ reginfo.fpsr r = rd32 mem (w.fp + off_fpsimd_fpsr)
        ∧ reginfo.fpcr r = rd32 mem (w.fp + off_fpsimd_fpcr)) := by
  obtain ⟨w', hw', hr, he⟩ := reginfo_init_result mem isa ts fuel ri uc r err h
  rw [hw] at hw'
  cases hw'
  have hvq : sve_vl_from_vq ts = 16 * ts := by
    simp only [sve_vl_from_vq, SVE_VQ_BYTES]
    omega
  constructor
  · intro hts hsve hvl hsize
    rw [init_finish_sve mem ts _ w.fp w.sve hfp hsz hts hsve (hvl.trans hvq.symm) hsize]
      at hr he
    dsimp only at hr he
    subst hr
    have hf := fpsr_fpcr_congr (init_sve mem ts (init_fp mem (init_header mem isa ri uc) w.fp)
      w.sve) (init_fp mem (init_header mem isa ri uc) w.fp) (fun i h1 h2 =>
        init_sve_apply_below _ _ _ _ _ (by simp only [off_sve_vl]; omega))
    refine ⟨by rw [init_sve_sve_vl, hvl], fun j hj => init_sve_apply mem ts _ w.sve j hj,
      fun i h1 h2 => ?_, he, by rw [hf.1, init_fp_fpsr], by rw [hf.2, init_fp_fpcr]⟩
    rw [init_sve_apply_above _ _ _ _ _ h1, init_fp_apply_outside _ _ _ _ (by
      simp only [offsetof_extra] at h1; omega)]
    exact init_header_zero mem isa ri uc i (by simp only [offsetof_extra] at h1; omega) h2
  · intro hc
    have hc' : ts = 0 ∨ (w.sve ≠ 0 ∧ rd16 mem (w.sve + off_sve_vl_ctx) = sve_vl_from_vq ts
        ∧ rd32 mem (w.sve + off_ctx_size) ≤ SVE_SIG_CONTEXT_SIZE 0) := by
      rcases hc with hc | ⟨_, h1, h2, h3⟩
      · exact Or.inl hc
      · exact Or.inr ⟨h1, h2.trans hvq.symm, h3⟩
    rw [init_finish_simd mem ts _ w.fp w.sve hfp hsz hc'] at hr he
    dsimp only at hr he
    subst hr
    have hf := fpsr_fpcr_congr (init_simd mem (init_fp mem (init_header mem isa ri uc) w.fp)
      w.fp) (init_fp mem (init_header mem isa ri uc) w.fp) (fun i h1 h2 =>
        init_simd_apply_below _ _ _ _ (by simp only [offsetof_extra]; omega))
    exact ⟨(init_fp_sve_vl mem isa ri uc w.fp).2.2,
      fun j hj => init_simd_apply mem _ w.fp j (by simp only [RISU_SIMD_REGS_SIZE]; omega),
      he, by rw [hf.1, init_fp_fpsr], by rw [hf.2, init_fp_fpcr]⟩

theorem walk_w_mem : walk w_mem 2 (walk_start (w_uc 0)) = some ⟨0, 0, 0x1000, 0⟩ := by decide

/-- Witness of C13: with one quadword configured and a complete SVE record,
the snapshot has `sve_vl = 16` and the payload's first byte `0x77` at the
start of the variable region; with scalable-vector testing off, the same
context gives `sve_vl = 0` and the first byte `0x55` of V0; `fpsr` is `0x10`
in both. -/
theorem reginfo_init_copies_witness :
    (∃ r err, reginfo_init w_mem_sve 0x400000 1 3 zero_reginfo (w_uc 0) = some (r, err)
      ∧ reginfo.sve_vl r = 16 ∧ r offsetof_extra = 0x77 ∧ reginfo.fpsr r = 0x10)
    ∧ (∃ r err, reginfo_init w_mem 0x400000 0 2 zero_reginfo (w_uc 0) = some (r, err)
      ∧ reginfo.sve_vl r = 0 ∧ r offsetof_extra = 0x55 ∧ reginfo.fpsr r = 0x10) := by
  constructor
  · have hs : (reginfo_init w_mem_sve 0x400000 1 3 zero_reginfo (w_uc 0)).isSome = true := by
      rw [reginfo_init_eq, Option.isSome_map', walk_w_mem_sve]
      rfl
    obtain ⟨⟨r, err⟩, h⟩ := Option.isSome_iff_exists.mp hs
    have hk := (reginfo_init_copies w_mem_sve 0x400000 1 3 zero_reginfo (w_uc 0) r err _ h
      walk_w_mem_sve (by decide) (by decide)).1 (by decide) (by decide) (by decide) (by decide)
    refine ⟨r, err, h, hk.1, ?_, ?_⟩
    · rw [show offsetof_extra = offsetof_extra + 0 from rfl, hk.2.1 0 (by decide)]
      decide
    · rw [hk.2.2.2.2.1]
      decide
  · have hs : (reginfo_init w_mem 0x400000 0 2 zero_reginfo (w_uc 0)).isSome = true := by
      rw [reginfo_init_eq, Option.isSome_map', walk_w_mem]
      rfl
    obtain ⟨⟨r, err⟩, h⟩ := Option.isSome_iff_exists.mp hs
    have hk := (reginfo_init_copies w_mem 0x400000 0 2 zero_reginfo (w_uc 0) r err _ h
      walk_w_mem (by decide) (by decide)).2 (Or.inl rfl)
    refine ⟨r, err, h, hk.1, ?_, ?_⟩
    · rw [show offsetof_extra = offsetof_extra + 0 from rfl, hk.2.1 0 (by decide)]
      decide
    · rw [hk.2.2.2.1]
      decide

/-! ### Soft failures of the capture -/

theorem append_newline_ne_empty (s : String) : s ++ "\n" ≠ "" := by
  intro h
  have h2 := congrArg String.length h
  rw [String.length_append] at h2
  have h3 : ("\n" : String).length = 1 := rfl
  have h4 : ("" : String).length = 0 := rfl
  omega

/-- C14. `reginfo_init` returns whenever its record walk ends, and on each
soft-failure condition the snapshot it returns has an entirely zero variable
region and `sve_vl = 0`, with `regs`, `sp`, `pc`, `flags`, `fault_address`
and `faulting_insn` filled as on every path: (a) no FP/SIMD record found, or
one whose `head.size` is not `sizeof(struct fpsimd_context)`: `fpsr` and
`fpcr` are 0 too; (b) an FP/SIMD record of the right size and, with
`test_sve = vq > 0`, no SVE record, or one whose `vl` is not `16 * vq`, or
one whose `head.size` is above `SVE_SIG_CONTEXT_SIZE(0)` and below
`SVE_SIG_CONTEXT_SIZE(vq)`: `fpsr` and `fpcr` are those of the FP/SIMD
record.  A diagnostic is written in each case. -/
theorem reginfo_init_soft_failure :
    (∀ (mem : Mem) (isa ts fuel : Nat) (ri : reginfo) (uc : ucontext_t),
      (reginfo_init mem isa ts fuel ri uc).isSome = (walk mem fuel (walk_start uc)).isSome)
    ∧ (∀ (mem : Mem) (isa ts fuel : Nat) (ri : reginfo) (uc : ucontext_t) (r : reginfo)
        (err : String) (w : walk_state),
        reginfo_init mem isa ts fuel ri uc = some (r, err) →
        walk mem fuel (walk_start uc) = some w →
        ((w.fp = 0 ∨ rd32 mem (w.fp + off_ctx_size) ≠ sizeof_fpsimd_context) →
          reginfo.fpsr r = 0 ∧ reginfo.fpcr r = 0
          ∧ err = "risu_reginfo_aarch64: failed to get FP/SIMD state\n")
        ∧ ((w.fp ≠ 0 ∧ rd32 mem (w.fp + off_ctx_size) = sizeof_fpsimd_context) →
          ts ≠ 0 →
          (w.sve = 0 ∨ rd16 mem (w.sve + off_sve_vl_ctx) ≠ 16 * ts
            ∨ (SVE_SIG_CONTEXT_SIZE 0 < rd32 mem (w.sve + off_ctx_size)
                ∧ rd32 mem (w.sve + off_ctx_size) < SVE_SIG_CONTEXT_SIZE ts)) →
          reginfo.fpsr r = rd32 mem (w.fp + off_fpsimd_fpsr)
          ∧ reginfo.fpcr r = rd32 mem (w.fp + off_fpsimd_fpcr)
          ∧ err ≠ "")
        ∧ (((w.fp = 0 ∨ rd32 mem (w.fp + off_ctx_size) ≠ sizeof_fpsimd_context)
            ∨ (ts ≠ 0 ∧ (w.sve = 0 ∨ rd16 mem (w.sve + off_sve_vl_ctx) ≠ 16 * ts
              ∨ (SVE_SIG_CONTEXT_SIZE 0 < rd32 mem (w.sve + off_ctx_size)
                  ∧ rd32 mem (w.sve + off_ctx_size) < SVE_SIG_CONTEXT_SIZE ts)))) →
          (∀ i, offsetof_extra ≤ i → i < sizeof_reginfo → r i = 0)
          ∧ reginfo.sve_vl r = 0
          ∧ (∀ i, i < 31 → reginfo.regs r i = uc.regs i % 2 ^ 64)
          ∧ reginfo.sp r = 0xdeadbeefdeadbeef
          ∧ reginfo.pc r = (uc.pc + 2 ^ 64 - isa % 2 ^ 64) % 2 ^ 64
          ∧ reginfo.flags r = uc.pstate &&& 0xf0000000
          ∧ reginfo.fault_address r = uc.fault_address % 2 ^ 64
          ∧ reginfo.faulting_insn r = rd32 mem uc.pc)) := by
  constructor
  · intro mem isa ts fuel ri uc
    rw [reginfo_init_eq, Option.isSome_map']
  intro mem isa ts fuel ri uc r err w h hw
  obtain ⟨w', hw', hr, he⟩ := reginfo_init_result mem isa ts fuel ri uc r err h
  rw [hw] at hw'
  cases hw'
  have hsc := reginfo_init_scalars_eq mem isa ts fuel ri uc r err h
  have hpc := reginfo_init_pc_eq mem isa ts fuel ri uc r err h
  have hvq : sve_vl_from_vq ts = 16 * ts := by
    simp only [sve_vl_from_vq, SVE_VQ_BYTES]
    omega
  obtain ⟨z0, z1, _⟩ := init_fp_sve_vl mem isa ri uc w.fp
  have hz := init_header_zero mem isa ri uc
  -- the snapshot on the paths that stop after the FP/SIMD copies
  have hfpz : ∀ i, offsetof_extra ≤ i → i < sizeof_reginfo →
      init_fp mem (init_header mem isa ri uc) w.fp i = 0 := fun i h1 h2 => by
    rw [init_fp_apply_outside _ _ _ _ (by simp only [offsetof_extra] at h1; omega)]
    exact hz i (by simp only [offsetof_extra] at h1; omega) h2
  -- path (b): the snapshot is the one after the FP/SIMD copies
  have hb : (w.fp ≠ 0 ∧ rd32 mem (w.fp + off_ctx_size) = sizeof_fpsimd_context) → ts ≠ 0 →
      (w.sve = 0 ∨ rd16 mem (w.sve + off_sve_vl_ctx) ≠ 16 * ts
        ∨ (SVE_SIG_CONTEXT_SIZE 0 < rd32 mem (w.sve + off_ctx_size)
            ∧ rd32 mem (w.sve + off_ctx_size) < SVE_SIG_CONTEXT_SIZE ts)) →
      r = init_fp mem (init_header mem isa ri uc) w.fp ∧ err ≠ "" := by
    rintro ⟨hfp, hsz⟩ hts hc
    by_cases hsve : w.sve = 0
    · rw [init_finish_no_sve mem ts _ w.fp w.sve hfp hsz hts hsve] at hr he
      exact ⟨hr, by rw [he]; dsimp only; decide⟩
    · by_cases hvl : rd16 mem (w.sve + off_sve_vl_ctx) = sve_vl_from_vq ts
      · rcases hc with hc | hc | ⟨h0, h1⟩
        · exact absurd hc hsve
        · exact absurd (hvl.trans hvq) hc
        · rw [init_finish_short mem ts _ w.fp w.sve hfp hsz hts hsve hvl h0 h1] at hr he
          exact ⟨hr, by rw [he]; dsimp only; decide⟩
      · refine ⟨by rw [hr, init_finish_bad_vl mem ts _ w.fp w.sve hfp hsz hts hsve hvl], ?_⟩
        rw [he]
        unfold init_finish
        rw [if_neg (by rintro (h1 | h1); exact hfp h1; exact h1 hsz), if_pos hts, if_neg hsve,
          if_pos hvl]
        exact append_newline_ne_empty _
  refine ⟨fun ha => ?_, fun hfp hts hc => ?_, fun hc => ?_⟩
  · rw [init_finish_no_fp mem ts _ w.fp w.sve ha] at hr he
    dsimp only at hr he
    subst hr
    have hf := fpsr_fpcr_congr (init_header mem isa ri uc) zero_reginfo (fun i h1 h2 =>
      hz i h1 (by rw [sizeof_reginfo_eq]; omega))
    exact ⟨hf.1, hf.2, he⟩
  · obtain ⟨hr', he'⟩ := hb hfp hts hc
    subst hr'
    exact ⟨init_fp_fpsr _ _ _, init_fp_fpcr _ _ _, he'⟩
  · refine ⟨?_, ?_, hsc.1, hsc.2.2.2.2, hpc, hsc.2.2.2.1, hsc.2.1, hsc.2.2.1⟩
    · by_cases ha : w.fp = 0 ∨ rd32 mem (w.fp + off_ctx_size) ≠ sizeof_fpsimd_context
      · rw [init_finish_no_fp mem ts _ w.fp w.sve ha] at hr
        dsimp only at hr
        subst hr
        exact fun i h1 h2 => hz i (by simp only [offsetof_extra] at h1; omega) h2
      · push_neg at ha
        rcases hc with hc | ⟨hts, hc⟩
        · rcases hc with hc | hc
          · exact absurd hc ha.1
          · exact absurd ha.2 hc
        · obtain ⟨hr', _⟩ := hb ha hts hc
          subst hr'
          exact hfpz
    · by_cases ha : w.fp = 0 ∨ rd32 mem (w.fp + off_ctx_size) ≠ sizeof_fpsimd_context
      · rw [init_finish_no_fp mem ts _ w.fp w.sve ha] at hr
        dsimp only at hr
        subst hr
        exact z0
      · push_neg at ha
        rcases hc with hc | ⟨hts, hc⟩
        · rcases hc with hc | hc
          · exact absurd hc ha.1
          · exact absurd ha.2 hc
        · obtain ⟨hr', _⟩ := hb ha hts hc
          subst hr'
          exact z1

theorem walk_w_mem_empty :
    walk w_mem_empty 1 (walk_start (w_uc 0)) = some ⟨0, 0, 0, 0⟩ := by decide

/-- Witness of C14: with one quadword configured and no SVE record the
capture returns with the diagnostic of the missing SVE state, `fpsr = 0x10`
from the FP/SIMD record, `sve_vl = 0` and a zero variable region; with no
record at all it returns with `fpsr = 0`. -/
theorem reginfo_init_soft_failure_witness :
    (∃ r err, reginfo_init w_mem 0x400000 1 2 zero_reginfo (w_uc 0) = some (r, err)
      ∧ err = "risu_reginfo_aarch64: failed to get SVE state\n"
      ∧ reginfo.fpsr r = 0x10 ∧ reginfo.sve_vl r = 0 ∧ r offsetof_extra = 0
      ∧ reginfo.sp r = 0xdeadbeefdeadbeef)
    ∧ (∃ r err, reginfo_init w_mem_empty 0x400000 1 1 zero_reginfo (w_uc 0) = some (r, err)
      ∧ err = "risu_reginfo_aarch64: failed to get FP/SIMD state\n"
      ∧ reginfo.fpsr r = 0 ∧ reginfo.sve_vl r = 0 ∧ r offsetof_extra = 0) := by
  constructor
  · have hs : (reginfo_init w_mem 0x400000 1 2 zero_reginfo (w_uc 0)).isSome = true := by
      rw [reginfo_init_soft_failure.1, walk_w_mem]
      rfl
    obtain ⟨⟨r, err⟩, h⟩ := Option.isSome_iff_exists.mp hs
    have he : (reginfo_init w_mem 0x400000 1 2 zero_reginfo (w_uc 0)).map Prod.snd
        = some "risu_reginfo_aarch64: failed to get SVE state\n" := by decide
    rw [h] at he
    simp only [Option.map_some', Option.some.injEq] at he
    have hk := reginfo_init_soft_failure.2 w_mem 0x400000 1 2 zero_reginfo (w_uc 0) r err _ h
      walk_w_mem
    have hb := hk.2.1 (by decide) (by decide) (Or.inl rfl)
    have hc := hk.2.2 (Or.inr ⟨by decide, Or.inl rfl⟩)
    refine ⟨r, err, h, he, ?_, hc.2.1, hc.1 _ (le_refl _) (by decide), hc.2.2.2.1⟩
    rw [hb.1]
    decide
  · have hs : (reginfo_init w_mem_empty 0x400000 1 1 zero_reginfo (w_uc 0)).isSome = true := by
      rw [reginfo_init_soft_failure.1, walk_w_mem_empty]
      rfl
    obtain ⟨⟨r, err⟩, h⟩ := Option.isSome_iff_exists.mp hs
    have hk := reginfo_init_soft_failure.2 w_mem_empty 0x400000 1 1 zero_reginfo (w_uc 0) r err
      _ h walk_w_mem_empty
    have ha := hk.1 (Or.inl rfl)
    have hc := hk.2.2 (Or.inl (Or.inl rfl))
    exact ⟨r, err, h, ha.2.2, ha.1, hc.2.1, hc.1 _ (le_refl _) (by decide)⟩

/-! ### The command-line option -/

/-- C15, on the code. `process_arch_opt` narrows the `long` that `strtol`
returns to the `int` `test_sve` before it checks the range: for the argument
`4294967297`, which is `2 ^ 32 + 1` and greater than `SVE_VQ_MAX`, it stores 1
in `test_sve` and returns, where the range check of its own diagnostic
(`Invalid value for VQ (1-16)`) calls for a fatal exit; so does the negative
`-4294967295`.  For the arguments that fit an `int` it accepts exactly the
values in `[1, SVE_VQ_MAX]`, storing the value, and exits with
`EXIT_FAILURE` on every other. -/
theorem process_arch_opt_narrows :
    (∀ F : Int, process_arch_opt F F 4294967297 = outcome.returned 1)
    ∧ (∀ F : Int, process_arch_opt F F (-4294967295) = outcome.returned 1)
    ∧ (∀ (F v : Int), -(2 ^ 31) ≤ v → v < 2 ^ 31 →
        (1 ≤ v ∧ v ≤ SVE_VQ_MAX → process_arch_opt F F v = outcome.returned v)
        ∧ (¬ (1 ≤ v ∧ v ≤ SVE_VQ_MAX) →
            process_arch_opt F F v
              = outcome.exited EXIT_FAILURE "Invalid value for VQ (1-16)\n")) := by
  have hmsg : "Invalid value for VQ (1-" ++ fmt_d SVE_VQ_MAX ++ ")\n"
      = "Invalid value for VQ (1-16)\n" := by decide
  refine ⟨fun F => ?_, fun F => ?_, fun F v h1 h2 => ?_⟩
  · unfold process_arch_opt
    rw [if_neg (not_not.mpr rfl)]
    decide
  · unfold process_arch_opt
    rw [if_neg (not_not.mpr rfl)]
    decide
  · have hs : strtol v = v := by
      unfold strtol
      rw [if_neg (by norm_num; omega), if_neg (by norm_num; omega)]
    have hl : long_to_int v = v := by
      unfold long_to_int
      norm_num
      omega
    unfold process_arch_opt
    rw [if_neg (not_not.mpr rfl), hmsg]
    simp only [hs, hl, SVE_VQ_MAX]
    push_cast
    constructor
    · intro hv
      rw [if_neg (by omega)]
    · intro hv
      rw [if_pos (by omega)]

/-! ### Equality across widths -/

theorem reginfo_is_eq_eq_zero_of_sve_vl_ne (r1 r2 : reginfo)
    (h : reginfo.sve_vl r1 ≠ reginfo.sve_vl r2) : reginfo_is_eq r1 r2 = 0 := by
  by_contra hne
  apply h
  apply sve_vl_congr
  intro i hi
  exact (reginfo_is_eq_ne_zero_iff r1 r2).mp hne i
    (lt_of_lt_of_le hi (offsetof_extra_le_reginfo_size r1))

theorem reginfo_is_eq_zero_or_one (r1 r2 : reginfo) :
    reginfo_is_eq r1 r2 = 0 ∨ reginfo_is_eq r1 r2 = 1 := by
  unfold reginfo_is_eq
  split
  · right; rfl
  · left; rfl

theorem reginfo_is_eq_ne_zero_symm (r1 r2 : reginfo) :
    reginfo_is_eq r1 r2 ≠ 0 ↔ reginfo_is_eq r2 r1 ≠ 0 := by
  by_cases h : reginfo.sve_vl r1 = reginfo.sve_vl r2
  · rw [reginfo_is_eq_ne_zero_iff, reginfo_is_eq_ne_zero_iff, reginfo_size_congr r1 r2 h]
    constructor <;> intro hh i hi <;> exact (hh i hi).symm
  · rw [reginfo_is_eq_eq_zero_of_sve_vl_ne r1 r2 h,
      reginfo_is_eq_eq_zero_of_sve_vl_ne r2 r1 (fun e => h e.symm)]

/-- C19. Two snapshots whose `sve_vl` fields differ are unequal for
`reginfo_is_eq` in both argument orders, since `sve_vl` lies in the fixed
header, which is part of every compared range; hence `reginfo_is_eq` is
symmetric for all pairs of snapshots, whatever their widths. -/
theorem reginfo_is_eq_symm_all :
    (∀ r1 r2 : reginfo, reginfo.sve_vl r1 ≠ reginfo.sve_vl r2 →
      reginfo_is_eq r1 r2 = 0 ∧ reginfo_is_eq r2 r1 = 0)
    ∧ (∀ r1 r2 : reginfo, reginfo_is_eq r1 r2 ≠ 0 ↔ reginfo_is_eq r2 r1 ≠ 0)
    ∧ (∀ r1 r2 : reginfo, reginfo_is_eq r1 r2 = reginfo_is_eq r2 r1)
    ∧ (∀ r : reginfo, off_sve_vl + 2 ≤ offsetof_extra ∧ offsetof_extra ≤ reginfo_size r) := by
  refine ⟨fun r1 r2 h => ⟨reginfo_is_eq_eq_zero_of_sve_vl_ne r1 r2 h,
    reginfo_is_eq_eq_zero_of_sve_vl_ne r2 r1 (fun e => h e.symm)⟩,
    reginfo_is_eq_ne_zero_symm, fun r1 r2 => ?_,
    fun r => ⟨by decide, offsetof_extra_le_reginfo_size r⟩⟩
  have hs := reginfo_is_eq_ne_zero_symm r1 r2
  rcases reginfo_is_eq_zero_or_one r1 r2 with h1 | h1 <;>
    rcases reginfo_is_eq_zero_or_one r2 r1 with h2 | h2
  · rw [h1, h2]
  · rw [h1, h2] at hs
    exact absurd (hs.mpr (by decide)) (by decide)
  · rw [h1, h2] at hs
    exact absurd (hs.mp (by decide)) (by decide)
  · rw [h1, h2]

/-- Witness of C19: snapshots of widths 1 and 2 quadwords are unequal in both
argument orders. -/
theorem reginfo_is_eq_symm_all_witness :
    reginfo_is_eq (reginfo_with_vl 16) (reginfo_with_vl 32) = 0
    ∧ reginfo_is_eq (reginfo_with_vl 32) (reginfo_with_vl 16) = 0 :=
  reginfo_is_eq_symm_all.1 (reginfo_with_vl 16) (reginfo_with_vl 32) (by decide)

/-! ### Bytes that no copy writes -/

/-- The snapshot after the record walk is one of four: the header fill alone,
with the FP/SIMD status copied, with the SIMD vectors copied as well, or with
the scalable-vector payload copied. -/
theorem init_finish_cases (mem : Mem) (ts : Nat) (r : reginfo) (fp sve : Nat) :
    (init_finish mem ts r fp sve).1 = r
    ∨ (init_finish mem ts r fp sve).1 = init_fp mem r fp
    ∨ (init_finish mem ts r fp sve).1 = init_simd mem (init_fp mem r fp) fp
    ∨ (ts ≠ 0 ∧ rd16 mem (sve + off_sve_vl_ctx) = sve_vl_from_vq ts
        ∧ (init_finish mem ts r fp sve).1 = init_sve mem ts (init_fp mem r fp) sve) := by
  unfold init_finish
  split_ifs with c1 c2 c3 c4 c5 c6
  · exact Or.inl rfl
  · exact Or.inr (Or.inl rfl)
  · exact Or.inr (Or.inl rfl)
  · exact Or.inr (Or.inr (Or.inl rfl))
  · exact Or.inr (Or.inl rfl)
  · exact Or.inr (Or.inr (Or.inr ⟨c2, not_not.mp c4, rfl⟩))
  · exact Or.inr (Or.inr (Or.inl rfl))

/-- The `sve_vl` of a returned capture is 0 or the configured width. -/
theorem init_finish_sve_vl_of_result (mem : Mem) (isa ts fuel : Nat) (ri : reginfo)
    (uc : ucontext_t) (r : reginfo) (err : String)
    (h : reginfo_init mem isa ts fuel ri uc = some (r, err)) :
    reginfo.sve_vl r = 0 ∨ (ts ≠ 0 ∧ reginfo.sve_vl r = sve_vl_from_vq ts) := by
  obtain ⟨w, _, hr, _⟩ := reginfo_init_result mem isa ts fuel ri uc r err h
  rw [hr]
  exact init_finish_sve_vl mem ts _ w.fp w.sve (init_header_zero mem isa ri uc)

/-- C18. In a captured snapshot every byte of the structure that no field
copy wrote is zero: the reserved and padding bytes of the header, the bytes
of the variable region past the copied payload (past 512 bytes when `sve_vl`
is 0, past `SVE_SIG_REGS_SIZE(vq)` when it is set, the round-up padding of
the significant range included), and the whole tail of the variable region
past `reginfo_size`.  Hence the bytes of the structure are a function of the
inputs of the capture only: captures of the same inputs into destinations of
any previous content agree on every byte of the structure. -/
theorem reginfo_init_zero_fill :
    (∀ (mem : Mem) (isa ts fuel : Nat) (ri : reginfo) (uc : ucontext_t) (r : reginfo)
        (err : String),
        reginfo_init mem isa ts fuel ri uc = some (r, err) →
        (∀ i, off_reserved ≤ i → i < offsetof_extra → r i = 0)
        ∧ (reginfo.sve_vl r = 0 →
            ∀ i, offsetof_extra + RISU_SIMD_REGS_SIZE ≤ i → i < sizeof_reginfo → r i = 0)
        ∧ (reginfo.sve_vl r ≠ 0 →
            reginfo.sve_vl r = 16 * ts
            ∧ ∀ i, offsetof_extra + SVE_SIG_REGS_SIZE ts ≤ i → i < sizeof_reginfo → r i = 0)
        ∧ (∀ i, reginfo_size r ≤ i → i < sizeof_reginfo → r i = 0))
    ∧ (∀ (mem : Mem) (isa ts fuel : Nat) (ri1 ri2 : reginfo) (uc : ucontext_t) (r1 : reginfo)
        (err : String),
        reginfo_init mem isa ts fuel ri1 uc = some (r1, err) →
        ∃ r2, reginfo_init mem isa ts fuel ri2 uc = some (r2, err)
          ∧ ∀ i, i < sizeof_reginfo → r1 i = r2 i) := by
  constructor
  · intro mem isa ts fuel ri uc r err h
    obtain ⟨w, _, hr, _⟩ := reginfo_init_result mem isa ts fuel ri uc r err h
    have hz := init_header_zero mem isa ri uc
    obtain ⟨z0, z1, z2⟩ := init_fp_sve_vl mem isa ri uc w.fp
    have hvq : sve_vl_from_vq ts = 16 * ts := by
      simp only [sve_vl_from_vq, SVE_VQ_BYTES]
      omega
    have hfpz : ∀ i, 288 ≤ i → i < sizeof_reginfo →
        init_fp mem (init_header mem isa ri uc) w.fp i = 0 := fun i h1 h2 => by
      rw [init_fp_apply_outside _ _ _ _ (by omega)]
      exact hz i (by omega) h2
    -- the three claims that do not mention `reginfo_size`
    have main : (∀ i, off_reserved ≤ i → i < offsetof_extra → r i = 0)
        ∧ (reginfo.sve_vl r = 0 →
            ∀ i, offsetof_extra + RISU_SIMD_REGS_SIZE ≤ i → i < sizeof_reginfo → r i = 0)
        ∧ (reginfo.sve_vl r ≠ 0 →
            reginfo.sve_vl r = 16 * ts
            ∧ ∀ i, offsetof_extra + SVE_SIG_REGS_SIZE ts ≤ i → i < sizeof_reginfo → r i = 0) := by
      simp only [off_reserved, offsetof_extra, RISU_SIMD_REGS_SIZE]
      rcases init_finish_cases mem ts (init_header mem isa ri uc) w.fp w.sve with
        hc | hc | hc | ⟨hts, hvl, hc⟩
      · rw [← hr] at hc
        subst hc
        exact ⟨fun i h1 h2 => hz i (by omega) (by rw [sizeof_reginfo_eq]; omega),
          fun _ i h1 h2 => hz i (by omega) h2, fun hne => absurd z0 hne⟩
      · rw [← hr] at hc
        subst hc
        exact ⟨fun i h1 h2 => hfpz i (by omega) (by rw [sizeof_reginfo_eq]; omega),
          fun _ i h1 h2 => hfpz i (by omega) h2, fun hne => absurd z1 hne⟩
      · rw [← hr] at hc
        subst hc
        refine ⟨fun i h1 h2 => ?_, fun _ i h1 h2 => ?_, fun hne => absurd z2 hne⟩
        · rw [init_simd_apply_below _ _ _ _ (by simp only [offsetof_extra]; omega)]
          exact hfpz i (by omega) (by rw [sizeof_reginfo_eq]; omega)
        · rw [init_simd_apply_above _ _ _ _ (by
            simp only [offsetof_extra, RISU_SIMD_REGS_SIZE]; omega)]
          exact hfpz i (by omega) h2
      · rw [← hr] at hc
        subst hc
        have hvl' : reginfo.sve_vl (init_sve mem ts
            (init_fp mem (init_header mem isa ri uc) w.fp) w.sve) = 16 * ts := by
          rw [init_sve_sve_vl, hvl, hvq]
        refine ⟨fun i h1 h2 => ?_, fun h0 => ?_, fun _ => ⟨hvl', fun i h1 h2 => ?_⟩⟩
        · rw [init_sve_apply_below _ _ _ _ _ (by simp only [off_sve_vl, offsetof_extra]; omega)]
          exact hfpz i (by omega) (by rw [sizeof_reginfo_eq]; omega)
        · rw [hvl'] at h0
          omega
        · rw [init_sve_apply_above _ _ _ _ _ (by simp only [offsetof_extra]; omega)]
          exact hfpz i (by omega) h2
    refine ⟨main.1, main.2.1, main.2.2, fun i h1 h2 => ?_⟩
    by_cases hvl : reginfo.sve_vl r = 0
    · rw [reginfo_size_of_simd r hvl] at h1
      exact main.2.1 hvl i (by simp only [RISU_SIMD_REGS_SIZE]; omega) h2
    · obtain ⟨hv, hz'⟩ := main.2.2 hvl
      rw [reginfo_size_of_sve r hvl, hv] at h1
      refine hz' i ?_ h2
      rw [SVE_SIG_REGS_SIZE_eq]
      simp only [sve_vq_from_vl, SVE_VQ_BYTES] at h1
      omega
  · intro mem isa ts fuel ri1 ri2 uc r1 err h
    obtain ⟨w, hw, hr, he⟩ := reginfo_init_result mem isa ts fuel ri1 uc r1 err h
    have hag := init_finish_agree mem ts sizeof_reginfo _ _ w.fp w.sve
      (init_header_agree mem isa ri1 ri2 uc)
    refine ⟨(init_finish mem ts (init_header mem isa ri2 uc) w.fp w.sve).1, ?_, ?_⟩
    · rw [reginfo_init_eq, hw, he, hag.2]
      rfl
    · rw [hr]
      exact hag.1

/-- Witness of C18: the capture of the concrete context into a destination
full of `0xff` bytes agrees on the whole structure with the capture into a
zero destination, and its padding byte 300 and its tail byte 9039 are zero. -/
theorem reginfo_init_zero_fill_witness :
    ∃ r1 r2 err,
      reginfo_init w_mem 0x400000 0 2 (fun _ => 255) (w_uc 0) = some (r1, err)
      ∧ reginfo_init w_mem 0x400000 0 2 zero_reginfo (w_uc 0) = some (r2, err)
      ∧ (∀ i, i < sizeof_reginfo → r1 i = r2 i) ∧ r1 300 = 0 ∧ r1 9039 = 0 := by
  have hs : (reginfo_init w_mem 0x400000 0 2 (fun _ => 255) (w_uc 0)).isSome = true := by
    rw [reginfo_init_eq, Option.isSome_map', walk_w_mem]
    rfl
  obtain ⟨⟨r1, err⟩, h1⟩ := Option.isSome_iff_exists.mp hs
  obtain ⟨r2, h2, hag⟩ := reginfo_init_zero_fill.2 w_mem 0x400000 0 2 (fun _ => 255)
    zero_reginfo (w_uc 0) r1 err h1
  have hk := reginfo_init_zero_fill.1 w_mem 0x400000 0 2 (fun _ => 255) (w_uc 0) r1 err h1
  exact ⟨r1, r2, err, h1, h2, hag, hk.1 300 (by decide) (by decide),
    hk.2.2.2 9039 (by
      have := reginfo_size_le_sizeof r1 0 (by decide)
        (init_finish_sve_vl_of_result w_mem 0x400000 0 2 (fun _ => 255) (w_uc 0) r1 err h1)
      rw [sizeof_reginfo_eq] at this
      by_contra hc
      push_neg at hc
      have hvl : reginfo.sve_vl r1 = 0 := by
        rcases init_finish_sve_vl_of_result w_mem 0x400000 0 2 (fun _ => 255) (w_uc 0) r1 err h1
          with h | ⟨h, _⟩
        · exact h
        · exact absurd rfl h
      rw [reginfo_size_of_simd r1 hvl] at hc
      simp only [offsetof_extra] at hc
      omega) (by decide)⟩

/-! ### The report and the equality check -/

theorem line_if_eq_nil (c : Prop) [Decidable c] (s : String) : line_if c s = [] ↔ ¬ c := by
  unfold line_if
  by_cases h : c
  · simp [h]
  · simp [h]

/-- Snapshots without a scalar line in the report agree on the bytes of the
scalar fields that the report renders. -/
theorem scalar_lines_nil_bytes (m a : reginfo) (h : scalar_lines m a = []) :
    ∀ i, 8 ≤ i → i < 290 → m i = a i := by
  unfold scalar_lines at h
  simp only [List.append_eq_nil, line_if_eq_nil, List.map_eq_nil_iff, List.filter_eq_nil_iff,
    List.mem_range, decide_eq_true_eq, not_not] at h
  obtain ⟨⟨⟨⟨⟨⟨⟨hfi, hx⟩, hsp⟩, hpc⟩, hfl⟩, hfpsr⟩, hfpcr⟩, hvl⟩ := h
  intro i h1 h2
  by_cases c1 : i < 256
  · have := load_inj m a 8 _ _ (hx ((i - 8) / 8) (by omega)) ((i - 8) % 8) (by omega)
    simp only [off_regs] at this
    rwa [show 8 + 8 * ((i - 8) / 8) + (i - 8) % 8 = i by omega] at this
  by_cases c2 : i < 264
  · have := load_inj m a 8 _ _ hsp (i - 256) (by omega)
    simp only [off_sp] at this
    rwa [show 256 + (i - 256) = i by omega] at this
  by_cases c3 : i < 272
  · have := load_inj m a 8 _ _ hpc (i - 264) (by omega)
    simp only [off_pc] at this
    rwa [show 264 + (i - 264) = i by omega] at this
  by_cases c4 : i < 276
  · have := load_inj m a 4 _ _ hfl (i - 272) (by omega)
    simp only [off_flags] at this
    rwa [show 272 + (i - 272) = i by omega] at this
  by_cases c5 : i < 280
  · have := load_inj m a 4 _ _ hfi (i - 276) (by omega)
    simp only [off_faulting_insn] at this
    rwa [show 276 + (i - 276) = i by omega] at this
  by_cases c6 : i < 284
  · have := load_inj m a 4 _ _ hfpsr (i - 280) (by omega)
    simp only [off_fpsr] at this
    rwa [show 280 + (i - 280) = i by omega] at this
  by_cases c7 : i < 288
  · have := load_inj m a 4 _ _ hfpcr (i - 284) (by omega)
    simp only [off_fpcr] at this
    rwa [show 284 + (i - 284) = i by omega] at this
  · have := load_inj m a 2 _ _ hvl (i - 288) (by omega)
    simp only [off_sve_vl] at this
    rwa [show 288 + (i - 288) = i by omega] at this

/-- Snapshots that agree on the rendered bytes of the variable region have no
vector text in the report. -/
theorem vector_lines_eq_nil (m a : reginfo)
    (h : ∀ i, offsetof_extra ≤ i → i < offsetof_extra + rendered_extra m → m i = a i) :
    vector_lines m a = [] := by
  unfold vector_lines
  unfold rendered_extra at h
  simp only [offsetof_extra] at h
  split
  · rename_i hvl
    rw [if_pos hvl, SVE_SIG_REGS_SIZE_eq] at h
    generalize sve_vq_from_vl (reginfo.sve_vl m) = vq at h ⊢
    have hz : (List.range SVE_NUM_ZREGS).filter (fun j => decide (zreg_differs m a vq j))
        = [] := by
      rw [List.filter_eq_nil_iff]
      intro j hj
      have hj := List.mem_range.mp hj
      simp only [SVE_NUM_ZREGS] at hj
      simp only [decide_eq_true_eq, zreg_differs, reginfo_zreg_apply, offsetof_extra,
        not_exists, not_and, not_not]
      intro k hk
      have hj31 : vq * j ≤ vq * 31 := Nat.mul_le_mul_left vq (by omega)
      exact h _ (by omega) (by omega)
    have hp : (List.range (SVE_NUM_PREGS + 1)).filter (fun j => decide (preg_differs m a vq j))
        = [] := by
      rw [List.filter_eq_nil_iff]
      intro j hj
      have hj := List.mem_range.mp hj
      simp only [SVE_NUM_PREGS] at hj
      simp only [decide_eq_true_eq, preg_differs, reginfo_preg_apply, offsetof_extra,
        not_exists, not_and, not_not]
      intro k hk
      have hj16 : vq * j ≤ vq * 16 := Nat.mul_le_mul_left vq (by omega)
      exact h _ (by omega) (by omega)
    rw [hz, hp]
    rfl
  · rename_i hvl
    rw [if_neg hvl] at h
    simp only [RISU_SIMD_REGS_SIZE] at h
    have hv : (List.range 32).filter (fun i => decide (vreg_differs m a i)) = [] := by
      rw [List.filter_eq_nil_iff]
      intro j hj
      have hj := List.mem_range.mp hj
      simp only [decide_eq_true_eq, vreg_differs, reginfo_vreg_apply, offsetof_extra,
        not_exists, not_and, not_not]
      intro k hk
      exact h _ (by omega) (by omega)
    rw [hv]
    rfl

/-- Snapshots without a vector text in the report agree on the rendered bytes
of the variable region. -/
theorem vector_lines_nil_bytes (m a : reginfo) (h : vector_lines m a = []) :
    ∀ i, offsetof_extra ≤ i → i < offsetof_extra + rendered_extra m → m i = a i := by
  unfold vector_lines at h
  unfold rendered_extra
  simp only [offsetof_extra]
  by_cases hvl : reginfo.sve_vl m ≠ 0
  · rw [if_pos hvl] at h
    rw [if_pos hvl, SVE_SIG_REGS_SIZE_eq]
    generalize sve_vq_from_vl (reginfo.sve_vl m) = vq at h ⊢
    simp only [List.append_eq_nil, List.map_eq_nil_iff, List.filter_eq_nil_iff, List.mem_range,
      decide_eq_true_eq, zreg_differs, preg_differs, reginfo_zreg_apply, reginfo_preg_apply,
      offsetof_extra, not_exists, not_and, not_not, SVE_NUM_ZREGS, SVE_NUM_PREGS] at h
    obtain ⟨hz, hp⟩ := h
    intro i h1 h2
    have hvq : 0 < vq := by
      by_contra h0
      have : vq = 0 := by omega
      subst this
      omega
    by_cases hc : i < 304 + 512 * vq
    · have hdm := Nat.div_add_mod (i - 304) (16 * vq)
      have hlt : (i - 304) % (16 * vq) < 16 * vq := Nat.mod_lt _ (by omega)
      have hq : (i - 304) / (16 * vq) < 32 := by
        rw [Nat.div_lt_iff_lt_mul (by omega)]
        omega
      have := hz ((i - 304) / (16 * vq)) hq ((i - 304) % (16 * vq)) (by omega)
      rw [show 304 + 16 * (vq * ((i - 304) / (16 * vq))) + (i - 304) % (16 * vq) = i by
        rw [← Nat.mul_assoc]
        omega] at this
      exact this
    · have hdm := Nat.div_add_mod (i - 304 - 512 * vq) (2 * vq)
      have hlt : (i - 304 - 512 * vq) % (2 * vq) < 2 * vq := Nat.mod_lt _ (by omega)
      have hq : (i - 304 - 512 * vq) / (2 * vq) < 16 + 1 := by
        rw [Nat.div_lt_iff_lt_mul (by omega)]
        omega
      have := hp ((i - 304 - 512 * vq) / (2 * vq)) hq ((i - 304 - 512 * vq) % (2 * vq))
        (by omega)
      rw [show 304 + 512 * vq + 2 * (vq * ((i - 304 - 512 * vq) / (2 * vq)))
          + (i - 304 - 512 * vq) % (2 * vq) = i by
        rw [← Nat.mul_assoc]
        omega] at this
      exact this
  · rw [if_neg hvl] at h
    rw [if_neg hvl]
    simp only [List.map_eq_nil_iff, List.filter_eq_nil_iff, List.mem_range,
      decide_eq_true_eq, vreg_differs, reginfo_vreg_apply, offsetof_extra, not_exists, not_and,
      not_not, RISU_SIMD_REGS_SIZE] at h ⊢
    intro i h1 h2
    have := h ((i - 304) / 16) (by omega) ((i - 304) % 16) (by omega)
    rwa [show 304 + 16 * ((i - 304) / 16) + (i - 304) % 16 = i by omega] at this

theorem rendered_extra_le (m : reginfo) :
    offsetof_extra + rendered_extra m ≤ reginfo_size m := by
  unfold rendered_extra
  by_cases hvl : reginfo.sve_vl m ≠ 0
  · rw [if_pos hvl, reginfo_size_of_sve m hvl, SVE_SIG_REGS_SIZE_eq]
    omega
  · rw [if_neg hvl, reginfo_size_of_simd m (not_not.mp hvl)]
    simp only [RISU_SIMD_REGS_SIZE]
    omega

/-- The report has no line after the header exactly when the snapshots agree
on every rendered byte. -/
theorem lines_eq_nil_iff (m a : reginfo) :
    scalar_lines m a ++ vector_lines m a = []
      ↔ (∀ i, 8 ≤ i → i < 290 → m i = a i)
        ∧ (∀ i, offsetof_extra ≤ i → i < offsetof_extra + rendered_extra m → m i = a i) := by
  rw [List.append_eq_nil]
  constructor
  · rintro ⟨h1, h2⟩
    exact ⟨scalar_lines_nil_bytes m a h1, vector_lines_nil_bytes m a h2⟩
  · rintro ⟨h1, h2⟩
    exact ⟨scalar_lines_eq_nil m a h1, vector_lines_eq_nil m a h2⟩

theorem string_eq_empty_of_length (t : String) (h : t.length = 0) : t = "" := by
  cases t with
  | mk d =>
    have hd : d = [] := List.length_eq_zero.mp h
    subst hd
    rfl

theorem append_ne_empty_left (s t : String) (h : s ≠ "") : s ++ t ≠ "" := by
  intro hc
  apply h
  apply string_eq_empty_of_length
  have h2 := congrArg String.length hc
  rw [String.length_append] at h2
  have h4 : ("" : String).length = 0 := rfl
  omega

theorem concat_eq_empty (l : List String) (h : concat l = "") : ∀ s, s ∈ l → s = "" := by
  induction l with
  | nil => intro s hs; simp at hs
  | cons x l ih =>
    intro s hs
    unfold concat at h
    have h2 := congrArg String.length h
    rw [String.length_append] at h2
    have h4 : ("" : String).length = 0 := rfl
    have hx : x = "" := string_eq_empty_of_length x (by omega)
    have hl : concat l = "" := string_eq_empty_of_length _ (by omega)
    rcases List.mem_cons.mp hs with h1 | h1
    · rw [h1]; exact hx
    · exact ih hl s h1

theorem mem_line_if (c : Prop) [Decidable c] (s t : String) (h : s ∈ line_if c t) : s = t := by
  unfold line_if at h
  split at h
  · simpa using h
  · simp at h

/-- Every text of the report after the header is non-empty. -/
theorem lines_ne_empty (m a : reginfo) :
    ∀ s, s ∈ scalar_lines m a ++ vector_lines m a → s ≠ "" := by
  intro s hs
  rw [List.mem_append] at hs
  rcases hs with hs | hs
  · unfold scalar_lines at hs
    simp only [List.mem_append, List.mem_map] at hs
    rcases hs with ((((((hs | ⟨i, _, hs⟩) | hs) | hs) | hs) | hs) | hs) | hs
    · rw [mem_line_if _ _ _ hs]; exact append_newline_ne_empty _
    · rw [← hs]; exact append_newline_ne_empty _
    · rw [mem_line_if _ _ _ hs]; exact append_newline_ne_empty _
    · rw [mem_line_if _ _ _ hs]; exact append_newline_ne_empty _
    · rw [mem_line_if _ _ _ hs]; exact append_newline_ne_empty _
    · rw [mem_line_if _ _ _ hs]; exact append_newline_ne_empty _
    · rw [mem_line_if _ _ _ hs]; exact append_newline_ne_empty _
    · rw [mem_line_if _ _ _ hs]; exact append_newline_ne_empty _
  · unfold vector_lines at hs
    split at hs
    · simp only [List.mem_append, List.mem_map] at hs
      rcases hs with ⟨i, _, hs⟩ | ⟨i, _, hs⟩
      · rw [← hs]
        exact append_ne_empty_left _ _ (append_ne_empty_left _ _
          (append_ne_empty_left _ _ (by decide)))
      · rw [← hs]; exact append_newline_ne_empty _
    · simp only [List.mem_map] at hs
      obtain ⟨i, _, hs⟩ := hs
      rw [← hs]; exact append_newline_ne_empty _

/-- The report is longer than its header exactly when it has a text after
the header. -/
theorem report_ne_header_iff (m a : reginfo) (f : FILE) :
    (reginfo_dump_mismatch m a f).1.buf ≠ f.buf ++ "mismatch detail (master : apprentice):\n"
      ↔ scalar_lines m a ++ vector_lines m a ≠ [] := by
  rw [reginfo_dump_mismatch_eq]
  show f.buf ++ (mismatch_header ++ concat (scalar_lines m a ++ vector_lines m a))
    ≠ f.buf ++ mismatch_header ↔ _
  constructor
  · intro h hnil
    apply h
    rw [hnil]
    simp [concat]
  · intro h hc
    apply h
    have h2 := congrArg String.length hc
    simp only [String.length_append] at h2
    have hl : concat (scalar_lines m a ++ vector_lines m a) = "" :=
      string_eq_empty_of_length _ (by omega)
    have hall := concat_eq_empty _ hl
    by_contra hne
    obtain ⟨s, l, hsl⟩ := List.exists_cons_of_ne_nil hne
    have hs : s ∈ scalar_lines m a ++ vector_lines m a := by
      rw [hsl]
      exact List.mem_cons_self _ _
    exact lines_ne_empty m a s hs (hall s hs)

/-- A line after the header means that the snapshots differ inside the
significant range. -/
theorem is_eq_zero_of_lines (m a : reginfo) (h : scalar_lines m a ++ vector_lines m a ≠ []) :
    reginfo_is_eq m a = 0 := by
  by_contra hne
  apply h
  have hall := (reginfo_is_eq_ne_zero_iff m a).mp hne
  have hsz := offsetof_extra_le_reginfo_size m
  have hre := rendered_extra_le m
  simp only [offsetof_extra] at hsz
  rw [lines_eq_nil_iff]
  exact ⟨fun i _ h2 => hall i (by omega), fun i _ h2 => hall i (by omega)⟩

/-- C20. For snapshots that agree on `fault_address`, on the reserved and
padding bytes of the header and on the padding bytes of the variable region
inside the significant range, `reginfo_dump_mismatch` writes at least one
field line after the header exactly when `reginfo_is_eq` returns 0 (whether
their `sve_vl` are equal or not).  Without that agreement one direction
holds: a written field line implies that `reginfo_is_eq` returns 0; the
other can fail, as for two snapshots that differ in `fault_address` only. -/
theorem reginfo_dump_mismatch_iff_is_eq_zero :
    (∀ (m a : reginfo) (f : FILE),
      reginfo.fault_address m = reginfo.fault_address a →
      (∀ i, off_reserved ≤ i → i < offsetof_extra → m i = a i) →
      (∀ i, offsetof_extra + rendered_extra m ≤ i → i < reginfo_size m → m i = a i) →
      ((reginfo_dump_mismatch m a f).1.buf
          ≠ f.buf ++ "mismatch detail (master : apprentice):\n"
        ↔ reginfo_is_eq m a = 0)
      ∧ (scalar_lines m a ++ vector_lines m a ≠ [] ↔ reginfo_is_eq m a = 0))
    ∧ (∀ (m a : reginfo) (f : FILE),
        (reginfo_dump_mismatch m a f).1.buf
          ≠ f.buf ++ "mismatch detail (master : apprentice):\n" →
        reginfo_is_eq m a = 0)
    ∧ (reginfo_is_eq zero_reginfo fault_address_one = 0
        ∧ (reginfo_dump_mismatch zero_reginfo fault_address_one empty_file).1.buf
            = "mismatch detail (master : apprentice):\n") := by
  refine ⟨fun m a f hfa hpad htail => ?_, fun m a f h => ?_, ?_, ?_⟩
  · have key : scalar_lines m a ++ vector_lines m a ≠ [] ↔ reginfo_is_eq m a = 0 := by
      constructor
      · exact is_eq_zero_of_lines m a
      · intro h0 hnil
        rw [reginfo_is_eq_eq_zero_iff] at h0
        obtain ⟨i, hi, hne⟩ := h0
        apply hne
        rw [lines_eq_nil_iff] at hnil
        simp only [off_reserved, offsetof_extra] at hpad htail hnil
        by_cases c1 : i < 8
        · have := load_inj m a 8 _ _ hfa i c1
          simp only [off_fault_address, Nat.zero_add] at this
          exact this
        by_cases c2 : i < 290
        · exact hnil.1 i (by omega) c2
        by_cases c3 : i < 304
        · exact hpad i (by omega) c3
        by_cases c4 : i < 304 + rendered_extra m
        · exact hnil.2 i (by omega) c4
        · exact htail i (by omega) hi
    exact ⟨(report_ne_header_iff m a f).trans key, key⟩
  · exact is_eq_zero_of_lines m a ((report_ne_header_iff m a f).mp h)
  · rw [reginfo_is_eq_eq_zero_iff]
    exact ⟨0, by decide, by decide⟩
  · have hnil : scalar_lines zero_reginfo fault_address_one
        ++ vector_lines zero_reginfo fault_address_one = [] := by
      rw [lines_eq_nil_iff]
      constructor
      · intro i h1 h2
        simp only [fault_address_one, store, off_fault_address]
        rw [if_neg (by omega)]
      · intro i h1 h2
        simp only [offsetof_extra] at h1
        simp only [fault_address_one, store, off_fault_address]
        rw [if_neg (by omega)]
    rw [reginfo_dump_mismatch_eq, hnil]
    rfl

/-- Witness of C20: the snapshots of the `fpsr` scenario agree on all bytes
that the report does not render; the report has a field line and
`reginfo_is_eq` returns 0. -/
theorem reginfo_dump_mismatch_iff_is_eq_zero_witness :
    (reginfo_dump_mismatch fpsr_master fpsr_apprentice empty_file).1.buf
        ≠ empty_file.buf ++ "mismatch detail (master : apprentice):\n"
    ∧ reginfo_is_eq fpsr_master fpsr_apprentice = 0 := by
  have h := (reginfo_dump_mismatch_iff_is_eq_zero.1 fpsr_master fpsr_apprentice empty_file
    (by decide)
    (by
      intro i h1 h2
      simp only [off_reserved] at h1
      simp only [fpsr_master, fpsr_apprentice, store, off_fpsr]
      rw [if_neg (by omega), if_neg (by omega)])
    (by
      intro i h1 h2
      simp only [offsetof_extra] at h1
      simp only [fpsr_master, fpsr_apprentice, store, off_fpsr]
      rw [if_neg (by omega), if_neg (by omega)])).1
  have h0 : reginfo_is_eq fpsr_master fpsr_apprentice = 0 := by
    rw [reginfo_is_eq_eq_zero_iff]
    exact ⟨280, by decide, by decide⟩
  exact ⟨h.mpr h0, h0⟩

/-! ### The record walk on a list of records -/

theorem walk_mono (mem : Mem) (w : walk_state) :
    ∀ (n : Nat) (s : walk_state) (k : Nat), walk mem n s = some w →
      walk mem (n + k) s = some w := by
  intro n
  induction n with
  | zero =>
    intro s k h
    unfold walk at h
    split at h
    · rename_i hc
      cases k with
      | zero => simpa [walk, hc] using h
      | succ k =>
        rw [Nat.zero_add]
        unfold walk
        rw [if_pos hc]
        exact h
    · simp at h
  | succ n ih =>
    intro s k h
    rw [show n + 1 + k = (n + k) + 1 by omega]
    unfold walk at h ⊢
    split
    · rename_i hc
      rw [if_pos hc] at h
      exact h
    · rename_i hc
      rw [if_neg hc] at h
      exact ih _ k h

/-- One iteration of the loop at a record with a nonzero tag. -/
theorem walk_step_record (mem : Mem) (s : walk_state) (tag : Nat)
    (hm : rd32 mem (s.ctx + off_ctx_magic) = tag) (h0 : tag ≠ 0) :
    walk_step mem s
      = { ctx := (s.ctx + rd32 mem (s.ctx + off_ctx_size)) % 2 ^ 64
          extra := if tag = EXTRA_MAGIC then rd64 mem (s.ctx + off_extra_datap) else s.extra
          fp := if tag = FPSIMD_MAGIC then s.ctx else s.fp
          sve := if tag = SVE_MAGIC then s.ctx else s.sve } := by
  unfold walk_step
  simp only [hm]
  by_cases c1 : tag = FPSIMD_MAGIC
  · subst c1
    rw [if_pos rfl, if_pos rfl, if_neg (by decide), if_neg (by decide)]
  · rw [if_neg c1, if_neg c1]
    by_cases c2 : tag = SVE_MAGIC
    · subst c2
      rw [if_pos rfl, if_pos rfl, if_neg (by decide)]
    · rw [if_neg c2, if_neg c2]
      by_cases c3 : tag = EXTRA_MAGIC
      · subst c3
        rw [if_pos rfl, if_pos rfl]
      · rw [if_neg c3, if_neg c3, if_neg h0]

/-- One iteration of the loop at a zero tag: the walk moves to the pending
overflow area, which is then no longer pending. -/
theorem walk_step_zero (mem : Mem) (s : walk_state)
    (hm : rd32 mem (s.ctx + off_ctx_magic) = 0) :
    walk_step mem s = { s with ctx := s.extra, extra := 0 } := by
  unfold walk_step
  simp only [hm]
  rw [if_neg (by decide), if_neg (by decide), if_neg (by decide), if_pos trivial]

theorem scan_nil (mem : Mem) (s : walk_state) : scan mem s [] s.ctx = s := by
  cases s
  rfl

theorem scan_cons (mem : Mem) (s : walk_state) (a : Nat) (r : record)
    (al : List (Nat × record)) (e : Nat) :
    scan mem s ((a, r) :: al) e
      = scan mem
          { ctx := a + r.size
            extra := if r.tag = EXTRA_MAGIC then rd64 mem (a + off_extra_datap) else s.extra
            fp := if r.tag = FPSIMD_MAGIC then a else s.fp
            sve := if r.tag = SVE_MAGIC then a else s.sve } al e := by
  simp only [scan, last_datap, last_tagged, List.foldl_cons]

/-- The walk over a list of records: after one iteration for each record the
walk is at the zero tag, in the state `scan` describes; with less fuel it
has not ended. -/
theorem walk_scan (mem : Mem) :
    ∀ (l : List record) (a : Nat) (s : walk_state), lays_out mem a l → s.ctx = a →
      (∀ k, walk mem (l.length + k) s = walk mem k (scan mem s (layout a l) (layout_end a l)))
      ∧ (∀ k, walk_trace mem (l.length + k) s
          = (layout a l).map Prod.fst
            ++ walk_trace mem k (scan mem s (layout a l) (layout_end a l)))
      ∧ (∀ n, n < l.length → walk mem n s = none)
      ∧ 0 < layout_end a l
      ∧ rd32 mem (layout_end a l + off_ctx_magic) = 0 := by
  intro l
  induction l with
  | nil =>
    intro a s h hs
    obtain ⟨ha, hz⟩ := h
    subst hs
    simp only [List.length_nil, Nat.zero_add, layout, layout_end, scan_nil, List.map_nil,
      List.nil_append]
    exact ⟨fun _ => trivial, fun _ => trivial, fun n hn => absurd hn (by omega), ha, hz⟩
  | cons r l ih =>
    intro a s h hs
    obtain ⟨ha, hlt, hm, hsz, ht, hpos, _, hrest⟩ := h
    subst hs
    have hstep := walk_step_record mem s r.tag hm ht
    rw [hsz, Nat.mod_eq_of_lt hlt] at hstep
    have hne : s.ctx ≠ 0 := by omega
    obtain ⟨i1, i2, i3, i4, i5⟩ := ih (s.ctx + r.size) (walk_step mem s) hrest (by rw [hstep])
    have hscan : scan mem (walk_step mem s) (layout (s.ctx + r.size) l)
        (layout_end (s.ctx + r.size) l)
        = scan mem s (layout s.ctx (r :: l)) (layout_end s.ctx (r :: l)) := by
      rw [layout, layout_end, scan_cons, hstep]
    rw [hscan] at i1 i2
    refine ⟨fun k => ?_, fun k => ?_, fun n hn => ?_, i4, i5⟩
    · rw [List.length_cons, show l.length + 1 + k = (l.length + k) + 1 by omega]
      conv_lhs => unfold walk
      rw [if_neg hne]
      exact i1 k
    · rw [List.length_cons, show l.length + 1 + k = (l.length + k) + 1 by omega]
      conv_lhs => unfold walk_trace
      rw [if_neg hne, i2 k]
      rfl
    · cases n with
      | zero =>
        unfold walk
        rw [if_neg hne]
      | succ n =>
        unfold walk
        rw [if_neg hne]
        exact i3 n (by simp only [List.length_cons] at hn; omega)

theorem walk_of_ctx_zero (mem : Mem) (s : walk_state) (h : s.ctx = 0) (k : Nat) :
    walk mem k s = some s ∧ walk_trace mem k s = [] := by
  cases k with
  | zero => exact ⟨by unfold walk; rw [if_pos h], rfl⟩
  | succ k => exact ⟨by unfold walk; rw [if_pos h], by unfold walk_trace; rw [if_pos h]⟩

theorem walk_of_ctx_ne_zero (mem : Mem) (s : walk_state) (h : s.ctx ≠ 0) (k : Nat) :
    walk mem (1 + k) s = walk mem k (walk_step mem s)
    ∧ walk_trace mem (1 + k) s = s.ctx :: walk_trace mem k (walk_step mem s)
    ∧ walk mem 0 s = none := by
  rw [Nat.add_comm]
  refine ⟨?_, ?_, ?_⟩
  · conv_lhs => unfold walk
    rw [if_neg h]
  · conv_lhs => unfold walk_trace
    rw [if_neg h]
  · unfold walk
    rw [if_neg h]

theorem last_datap_of_no_extra (mem : Mem) (d0 : Nat) :
    ∀ (l : List record) (a : Nat), (∀ r, r ∈ l → r.tag ≠ EXTRA_MAGIC) →
      last_datap mem d0 (layout a l) = d0 := by
  intro l
  induction l with
  | nil => intro a _; rfl
  | cons r l ih =>
    intro a h
    unfold layout last_datap
    rw [List.foldl_cons, if_neg (h r (List.mem_cons_self _ _))]
    exact ih (a + r.size) (fun x hx => h x (List.mem_cons_of_mem _ hx))

theorem last_tagged_append (t p0 : Nat) (al1 al2 : List (Nat × record)) :
    last_tagged t (last_tagged t p0 al1) al2 = last_tagged t p0 (al1 ++ al2) := by
  unfold last_tagged
  rw [List.foldl_append]

/-- The walk of a context without pending overflow area: one iteration for
each inline record and one at the zero tag. -/
theorem walk_inline (mem : Mem) (s0 : walk_state) (a : Nat) (I : List record)
    (hI : lays_out mem a I) (hs : s0.ctx = a)
    (hx : last_datap mem s0.extra (layout a I) = 0) :
    (∀ k, walk mem (I.length + 1 + k) s0
        = some { ctx := 0, extra := 0, fp := last_tagged FPSIMD_MAGIC s0.fp (layout a I),
                 sve := last_tagged SVE_MAGIC s0.sve (layout a I) })
    ∧ (∀ n, n < I.length + 1 → walk mem n s0 = none)
    ∧ (∀ k, walk_trace mem (I.length + 1 + k) s0 = visited a I) := by
  obtain ⟨w1, w2, w3, w4, w5⟩ := walk_scan mem I a s0 hI hs
  have hne : (scan mem s0 (layout a I) (layout_end a I)).ctx ≠ 0 := by
    show layout_end a I ≠ 0
    omega
  obtain ⟨n1, n2, n3⟩ := walk_of_ctx_ne_zero mem _ hne 0
  have hstep := walk_step_zero mem (scan mem s0 (layout a I) (layout_end a I)) w5
  have hfin : walk_step mem (scan mem s0 (layout a I) (layout_end a I))
      = { ctx := 0, extra := 0, fp := last_tagged FPSIMD_MAGIC s0.fp (layout a I),
          sve := last_tagged SVE_MAGIC s0.sve (layout a I) } := by
    rw [hstep]
    simp only [scan, hx]
  refine ⟨fun k => ?_, fun n hn => ?_, fun k => ?_⟩
  · rw [Nat.add_assoc, w1 (1 + k), (walk_of_ctx_ne_zero mem _ hne k).1, hfin]
    exact (walk_of_ctx_zero mem _ rfl k).1
  · by_cases hlt : n < I.length
    · exact w3 n hlt
    · have : n = I.length + 0 := by omega
      rw [this, w1 0]
      exact n3
  · rw [Nat.add_assoc, w2 (1 + k), (walk_of_ctx_ne_zero mem _ hne k).2.1, hfin,
      (walk_of_ctx_zero mem _ rfl k).2]
    rfl

/-- The walk of a context with a pending overflow area that holds no
`EXTRA_MAGIC` record: the inline records, the inline zero tag, the records of
the overflow area, its zero tag. -/
theorem walk_overflow (mem : Mem) (s0 : walk_state) (a : Nat) (I O : List record)
    (hI : lays_out mem a I) (hs : s0.ctx = a)
    (hO : lays_out mem (last_datap mem s0.extra (layout a I)) O)
    (hnx : ∀ r, r ∈ O → r.tag ≠ EXTRA_MAGIC) :
    (∀ k, walk mem (I.length + 1 + (O.length + 1) + k) s0
        = some { ctx := 0, extra := 0
                 fp := last_tagged FPSIMD_MAGIC s0.fp
                   (layout a I ++ layout (last_datap mem s0.extra (layout a I)) O)
                 sve := last_tagged SVE_MAGIC s0.sve
                   (layout a I ++ layout (last_datap mem s0.extra (layout a I)) O) })
    ∧ (∀ n, n < I.length + 1 + (O.length + 1) → walk mem n s0 = none)
    ∧ (∀ k, walk_trace mem (I.length + 1 + (O.length + 1) + k) s0
        = visited a I ++ visited (last_datap mem s0.extra (layout a I)) O) := by
  obtain ⟨w1, w2, w3, w4, w5⟩ := walk_scan mem I a s0 hI hs
  have hne : (scan mem s0 (layout a I) (layout_end a I)).ctx ≠ 0 := by
    show layout_end a I ≠ 0
    omega
  have hstep := walk_step_zero mem (scan mem s0 (layout a I) (layout_end a I)) w5
  generalize hd : last_datap mem s0.extra (layout a I) = d at *
  have hs2 : walk_step mem (scan mem s0 (layout a I) (layout_end a I))
      = { ctx := d, extra := 0, fp := last_tagged FPSIMD_MAGIC s0.fp (layout a I),
          sve := last_tagged SVE_MAGIC s0.sve (layout a I) } := by
    rw [hstep]
    simp only [scan, hd]
  obtain ⟨v1, v2, v3⟩ := walk_inline mem
    { ctx := d, extra := 0, fp := last_tagged FPSIMD_MAGIC s0.fp (layout a I),
      sve := last_tagged SVE_MAGIC s0.sve (layout a I) } d O hO rfl
    (last_datap_of_no_extra mem 0 O d hnx)
  simp only [last_tagged_append] at v1
  refine ⟨fun k => ?_, fun n hn => ?_, fun k => ?_⟩
  · rw [Nat.add_assoc (I.length + 1), Nat.add_assoc I.length, w1,
      (walk_of_ctx_ne_zero mem _ hne _).1, hs2]
    exact v1 k
  · by_cases hlt : n < I.length
    · exact w3 n hlt
    · by_cases heq : n = I.length
      · rw [show n = I.length + 0 by omega, w1 0]
        exact (walk_of_ctx_ne_zero mem _ hne 0).2.2
      · rw [show n = I.length + (1 + (n - I.length - 1)) by omega, w1,
          (walk_of_ctx_ne_zero mem _ hne _).1, hs2]
        exact v2 _ (by omega)
  · rw [Nat.add_assoc (I.length + 1), Nat.add_assoc I.length, w2,
      (walk_of_ctx_ne_zero mem _ hne _).2.1, hs2, v3 k]
    simp only [visited, List.append_assoc, List.singleton_append]
    rfl

theorem layout_map_snd : ∀ (l : List record) (a : Nat), (layout a l).map Prod.snd = l := by
  intro l
  induction l with
  | nil => intro a; rfl
  | cons r l ih => intro a; simp only [layout, List.map_cons, ih]

theorem layout_mem (mem : Mem) :
    ∀ (l : List record) (a : Nat), lays_out mem a l →
      ∀ x, x ∈ layout a l → 0 < x.1 ∧ rd32 mem (x.1 + off_ctx_magic) = x.2.tag := by
  intro l
  induction l with
  | nil => intro a _ x hx; simp [layout] at hx
  | cons r l ih =>
    intro a h x hx
    obtain ⟨ha, _, hm, _, _, _, _, hrest⟩ := h
    unfold layout at hx
    rcases List.mem_cons.mp hx with h1 | h1
    · rw [h1]
      exact ⟨ha, hm⟩
    · exact ih (a + r.size) hrest x h1

theorem last_tagged_of_none (t : Nat) :
    ∀ (al : List (Nat × record)) (p0 : Nat), (∀ x, x ∈ al → x.2.tag ≠ t) →
      last_tagged t p0 al = p0 := by
  intro al
  induction al with
  | nil => intro p0 _; rfl
  | cons x al ih =>
    intro p0 h
    unfold last_tagged
    rw [List.foldl_cons, if_neg (h x (List.mem_cons_self _ _))]
    exact ih p0 (fun y hy => h y (List.mem_cons_of_mem _ hy))

/-- When some record has tag `t`, the walk ends with the address of one of
them. -/
theorem last_tagged_mem (t : Nat) :
    ∀ (al : List (Nat × record)) (p0 : Nat), (∃ x, x ∈ al ∧ x.2.tag = t) →
      ∃ x, x ∈ al ∧ x.2.tag = t ∧ last_tagged t p0 al = x.1 := by
  intro al
  induction al with
  | nil => intro p0 h; obtain ⟨x, hx, _⟩ := h; simp at hx
  | cons y al ih =>
    intro p0 h
    by_cases hrest : ∃ x, x ∈ al ∧ x.2.tag = t
    · obtain ⟨x, hx, ht, he⟩ := ih (if y.2.tag = t then y.1 else p0) hrest
      exact ⟨x, List.mem_cons_of_mem _ hx, ht, by
        unfold last_tagged at he ⊢
        rw [List.foldl_cons]
        exact he⟩
    · push_neg at hrest
      obtain ⟨x, hx, ht⟩ := h
      rcases List.mem_cons.mp hx with h1 | h1
      · subst h1
        refine ⟨x, List.mem_cons_self _ _, ht, ?_⟩
        have := last_tagged_of_none t al (if x.2.tag = t then x.1 else p0) hrest
        unfold last_tagged at this ⊢
        rw [List.foldl_cons, this, if_pos ht]
      · exact absurd ht (hrest x h1)

/-- A record with tag `t` in a laid-out list is found: the pointer the walk
ends with is not `NULL` and points to a record with that tag. -/
theorem last_tagged_found (mem : Mem) (t : Nat) (al : List (Nat × record))
    (hal : ∀ x, x ∈ al → 0 < x.1 ∧ rd32 mem (x.1 + off_ctx_magic) = x.2.tag)
    (h : ∃ r, r ∈ al.map Prod.snd ∧ r.tag = t) :
    last_tagged t 0 al ≠ 0 ∧ rd32 mem (last_tagged t 0 al + off_ctx_magic) = t := by
  obtain ⟨r, hr, ht⟩ := h
  obtain ⟨x, hx, hxr⟩ := List.mem_map.mp hr
  obtain ⟨y, hy, hyt, he⟩ := last_tagged_mem t al 0 ⟨x, hx, by rw [hxr]; exact ht⟩
  rw [he]
  obtain ⟨h1, h2⟩ := hal y hy
  exact ⟨by omega, by rw [h2, hyt]⟩

/-- C17, as amended. For a context whose inline record list consists of
records of nonzero tag and positive declared size, at valid addresses,
followed by a zero tag, the record walk ends.  Without pending overflow area
it runs one iteration at each inline record in order and one at the zero
tag, and stops there.  With a pending overflow area (that of the last
`EXTRA_MAGIC` record of the inline list) which likewise consists of records
followed by a zero tag and which holds no `EXTRA_MAGIC` record, it runs one
iteration at each inline record, one at the inline zero tag, one at each
record of the overflow area in order and one at its zero tag, and stops
there.  With less fuel than that the walk has not ended.  An FP/SIMD or SVE
record of either list is found: the pointer is not `NULL` and points to a
record of that tag. -/
theorem walk_terminates (mem : Mem) (uc : ucontext_t) (I : List record)
    (hI : lays_out mem uc.reserved I) :
    (last_datap mem 0 (layout uc.reserved I) = 0 →
      (∀ k, walk mem (I.length + 1 + k) (walk_start uc)
        = some { ctx := 0, extra := 0
                 fp := last_tagged FPSIMD_MAGIC 0 (layout uc.reserved I)
                 sve := last_tagged SVE_MAGIC 0 (layout uc.reserved I) })
      ∧ (∀ n, n < I.length + 1 → walk mem n (walk_start uc) = none)
      ∧ (∀ k, walk_trace mem (I.length + 1 + k) (walk_start uc) = visited uc.reserved I)
      ∧ ((∃ r, r ∈ I ∧ r.tag = FPSIMD_MAGIC) →
          last_tagged FPSIMD_MAGIC 0 (layout uc.reserved I) ≠ 0
          ∧ rd32 mem (last_tagged FPSIMD_MAGIC 0 (layout uc.reserved I) + off_ctx_magic)
              = FPSIMD_MAGIC)
      ∧ ((∃ r, r ∈ I ∧ r.tag = SVE_MAGIC) →
          last_tagged SVE_MAGIC 0 (layout uc.reserved I) ≠ 0
          ∧ rd32 mem (last_tagged SVE_MAGIC 0 (layout uc.reserved I) + off_ctx_magic)
              = SVE_MAGIC))
    ∧ (∀ O : List record,
        lays_out mem (last_datap mem 0 (layout uc.reserved I)) O →
        (∀ r, r ∈ O → r.tag ≠ EXTRA_MAGIC) →
        (∀ k, walk mem (I.length + 1 + (O.length + 1) + k) (walk_start uc)
          = some { ctx := 0, extra := 0
                   fp := last_tagged FPSIMD_MAGIC 0
                     (layout uc.reserved I
                       ++ layout (last_datap mem 0 (layout uc.reserved I)) O)
                   sve := last_tagged SVE_MAGIC 0
                     (layout uc.reserved I
                       ++ layout (last_datap mem 0 (layout uc.reserved I)) O) })
        ∧ (∀ n, n < I.length + 1 + (O.length + 1) → walk mem n (walk_start uc) = none)
        ∧ (∀ k, walk_trace mem (I.length + 1 + (O.length + 1) + k) (walk_start uc)
            = visited uc.reserved I ++ visited (last_datap mem 0 (layout uc.reserved I)) O)
        ∧ ((∃ r, r ∈ I ++ O ∧ r.tag = FPSIMD_MAGIC) →
            last_tagged FPSIMD_MAGIC 0
                (layout uc.reserved I ++ layout (last_datap mem 0 (layout uc.reserved I)) O)
              ≠ 0
            ∧ rd32 mem (last_tagged FPSIMD_MAGIC 0
                (layout uc.reserved I ++ layout (last_datap mem 0 (layout uc.reserved I)) O)
                + off_ctx_magic) = FPSIMD_MAGIC)
        ∧ ((∃ r, r ∈ I ++ O ∧ r.tag = SVE_MAGIC) →
            last_tagged SVE_MAGIC 0
                (layout uc.reserved I ++ layout (last_datap mem 0 (layout uc.reserved I)) O)
              ≠ 0
            ∧ rd32 mem (last_tagged SVE_MAGIC 0
                (layout uc.reserved I ++ layout (last_datap mem 0 (layout uc.reserved I)) O)
                + off_ctx_magic) = SVE_MAGIC)) := by
  constructor
  · intro hx
    obtain ⟨a1, a2, a3⟩ := walk_inline mem (walk_start uc) uc.reserved I hI rfl hx
    refine ⟨a1, a2, a3, fun h => ?_, fun h => ?_⟩
    · exact last_tagged_found mem _ _ (layout_mem mem I _ hI) (by rw [layout_map_snd]; exact h)
    · exact last_tagged_found mem _ _ (layout_mem mem I _ hI) (by rw [layout_map_snd]; exact h)
  · intro O hO hnx
    obtain ⟨b1, b2, b3⟩ := walk_overflow mem (walk_start uc) uc.reserved I O hI rfl hO hnx
    have hal : ∀ x, x ∈ layout uc.reserved I
        ++ layout (last_datap mem 0 (layout uc.reserved I)) O →
        0 < x.1 ∧ rd32 mem (x.1 + off_ctx_magic) = x.2.tag := by
      intro x hx
      rcases List.mem_append.mp hx with h1 | h1
      · exact layout_mem mem I _ hI x h1
      · exact layout_mem mem O _ hO x h1
    refine ⟨b1, b2, b3, fun h => ?_, fun h => ?_⟩
    · exact last_tagged_found mem _ _ hal (by
        rw [List.map_append, layout_map_snd, layout_map_snd]; exact h)
    · exact last_tagged_found mem _ _ hal (by
        rw [List.map_append, layout_map_snd, layout_map_snd]; exact h)

theorem lays_out_w_inline : lays_out w_mem_extra (w_uc 0).reserved w_inline :=
  ⟨by decide, by decide, by decide, by decide, by decide, by decide, fun _ _ => rfl,
    by decide, by decide, by decide, by decide, by decide, by decide, fun _ _ => rfl,
    by decide, by decide⟩

theorem lays_out_w_overflow : lays_out w_mem_extra 0x3000 w_overflow :=
  ⟨by decide, by decide, by decide, by decide, by decide, by decide, fun _ _ => rfl,
    by decide, by decide⟩

theorem last_datap_w_inline :
    last_datap w_mem_extra 0 (layout (w_uc 0).reserved w_inline) = 0x3000 := by decide

/-- Witness of C17: an inline list of an FP/SIMD record and an `EXTRA_MAGIC`
record, and an overflow area with an SVE record: the walk takes five
iterations, at `0x1000`, `0x1210`, the zero tag `0x1230`, `0x3000` and the
zero tag `0x3010`, and finds both records. -/
theorem walk_terminates_witness :
    walk w_mem_extra 5 (walk_start (w_uc 0))
        = some { ctx := 0, extra := 0, fp := 0x1000, sve := 0x3000 }
    ∧ walk w_mem_extra 4 (walk_start (w_uc 0)) = none
    ∧ walk_trace w_mem_extra 5 (walk_start (w_uc 0))
        = [0x1000, 0x1210, 0x1230, 0x3000, 0x3010] := by
  have h := (walk_terminates w_mem_extra (w_uc 0) w_inline lays_out_w_inline).2 w_overflow
    (by rw [last_datap_w_inline]; exact lays_out_w_overflow)
    (by intro r hr; simp only [w_overflow, List.mem_singleton] at hr; subst hr; decide)
  refine ⟨(h.1 0).trans (by decide), h.2.1 4 (by decide), (h.2.2.1 0).trans ?_⟩
  rw [last_datap_w_inline]
  decide

theorem loop_mem_cycle :
    ∀ n, walk loop_mem n { ctx := 0x2000, extra := 0, fp := 0, sve := 0 } = none
      ∧ walk loop_mem n { ctx := 0x2020, extra := 0x2000, fp := 0, sve := 0 } = none := by
  intro n
  induction n with
  | zero => exact ⟨by decide, by decide⟩
  | succ n ih =>
    have hA : walk_step loop_mem { ctx := 0x2000, extra := 0, fp := 0, sve := 0 }
        = { ctx := 0x2020, extra := 0x2000, fp := 0, sve := 0 } := by decide
    have hB : walk_step loop_mem { ctx := 0x2020, extra := 0x2000, fp := 0, sve := 0 }
        = { ctx := 0x2000, extra := 0, fp := 0, sve := 0 } := by decide
    constructor
    · unfold walk
      rw [if_neg (by decide), hA]
      exact ih.2
    · unfold walk
      rw [if_neg (by decide), hB]
      exact ih.1

/-- Counterexample to C17: both the inline list and the overflow area consist
of one record of positive declared size followed by a zero tag, but the
record of the overflow area is an `EXTRA_MAGIC` record that points to the
overflow area itself: the walk never ends. -/
theorem walk_loops_on_nested_extra :
    lays_out loop_mem (w_uc 0).reserved [⟨EXTRA_MAGIC, 32, ptr_add loop_mem 0x1000⟩]
    ∧ last_datap loop_mem 0
        (layout (w_uc 0).reserved [⟨EXTRA_MAGIC, 32, ptr_add loop_mem 0x1000⟩]) = 0x2000
    ∧ lays_out loop_mem 0x2000 [⟨EXTRA_MAGIC, 32, ptr_add loop_mem 0x2000⟩]
    ∧ ¬ ∃ fuel, (walk loop_mem fuel (walk_start (w_uc 0))).isSome = true := by
  refine ⟨⟨by decide, by decide, by decide, by decide, by decide, by decide, fun _ _ => rfl,
    by decide, by decide⟩, by decide,
    ⟨by decide, by decide, by decide, by decide, by decide, by decide, fun _ _ => rfl,
    by decide, by decide⟩, ?_⟩
  rintro ⟨fuel, h⟩
  have h2 : ∀ n, walk loop_mem (n + 2) (walk_start (w_uc 0))
      = walk loop_mem n { ctx := 0x2000, extra := 0, fp := 0, sve := 0 } := by
    intro n
    have s1 : walk_step loop_mem (walk_start (w_uc 0))
        = { ctx := 0x1020, extra := 0x2000, fp := 0, sve := 0 } := by decide
    have s2 : walk_step loop_mem { ctx := 0x1020, extra := 0x2000, fp := 0, sve := 0 }
        = { ctx := 0x2000, extra := 0, fp := 0, sve := 0 } := by decide
    conv_lhs => unfold walk
    rw [if_neg (by decide), s1]
    conv_lhs => unfold walk
    rw [if_neg (by decide), s2]
  match fuel, h with
  | 0, h => exact absurd h (by decide)
  | 1, h => exact absurd h (by decide)
  | n + 2, h =>
    rw [h2 n, (loop_mem_cycle n).1] at h
    exact absurd h (by decide)

/-! ### Insertion of an unrecognised record -/

theorem last_of_insert (t : Nat) (u : record) (hu : u.tag ≠ t) (A B : List record) :
    last_of t (A ++ u :: B) = last_of t (A ++ B) := by
  unfold last_of
  rw [List.foldl_append, List.foldl_append, List.foldl_cons, if_neg hu]

theorem last_of_inserted (t : Nat) (u : record) (hu : u.tag ≠ t) (l1 l2 : List record)
    (h : l2 = l1 ∨ inserted u l1 l2) : last_of t l2 = last_of t l1 := by
  rcases h with h | ⟨A, B, h1, h2⟩
  · rw [h]
  · rw [h1, h2]
    exact last_of_insert t u hu A B

theorem inserted_append (u : record) (I1 I2 O1 O2 : List record)
    (h : (inserted u I1 I2 ∧ O2 = O1) ∨ (I2 = I1 ∧ inserted u O1 O2)) :
    inserted u (I1 ++ O1) (I2 ++ O2) := by
  rcases h with ⟨⟨A, B, h1, h2⟩, h3⟩ | ⟨h3, ⟨A, B, h1, h2⟩⟩
  · exact ⟨A, B ++ O1, by rw [h1, List.append_assoc], by
      rw [h2, h3, List.append_assoc, List.cons_append]⟩
  · exact ⟨I1 ++ A, B, by rw [h1, List.append_assoc], by rw [h2, h3, List.append_assoc]⟩

theorem layout_bytes (mem : Mem) :
    ∀ (l : List record) (a : Nat), lays_out mem a l →
      ∀ x, x ∈ layout a l → 0 < x.1 ∧ rd32 mem (x.1 + off_ctx_size) = x.2.size
        ∧ ∀ j, j < x.2.size → mem (x.1 + j) = x.2.body j := by
  intro l
  induction l with
  | nil => intro a _ x hx; simp [layout] at hx
  | cons r l ih =>
    intro a h x hx
    obtain ⟨ha, _, _, hsz, _, _, hb, hrest⟩ := h
    unfold layout at hx
    rcases List.mem_cons.mp hx with h1 | h1
    · rw [h1]
      exact ⟨ha, hsz, hb⟩
    · exact ih (a + r.size) hrest x h1

theorem points_to_foldl (mem : Mem) (t : Nat) :
    ∀ (al : List (Nat × record)) (p0 : Nat) (o0 : Option record),
      (∀ x, x ∈ al → 0 < x.1 ∧ rd32 mem (x.1 + off_ctx_size) = x.2.size
        ∧ ∀ j, j < x.2.size → mem (x.1 + j) = x.2.body j) →
      points_to mem p0 o0 →
      points_to mem (last_tagged t p0 al)
        ((al.map Prod.snd).foldl (fun o r => if r.tag = t then some r else o) o0) := by
  intro al
  induction al with
  | nil => intro p0 o0 _ h; exact h
  | cons x al ih =>
    intro p0 o0 hal h
    unfold last_tagged
    rw [List.map_cons, List.foldl_cons, List.foldl_cons]
    apply ih _ _ (fun y hy => hal y (List.mem_cons_of_mem _ hy))
    by_cases hx : x.2.tag = t
    · rw [if_pos hx, if_pos hx]
      obtain ⟨h1, h2, h3⟩ := hal x (List.mem_cons_self _ _)
      exact ⟨by omega, h2, h3⟩
    · rw [if_neg hx, if_neg hx]
      exact h

/-- The pointer the walk ends with points to the last record of its tag. -/
theorem points_to_last (mem : Mem) (t : Nat) (al : List (Nat × record))
    (hal : ∀ x, x ∈ al → 0 < x.1 ∧ rd32 mem (x.1 + off_ctx_size) = x.2.size
      ∧ ∀ j, j < x.2.size → mem (x.1 + j) = x.2.body j) :
    points_to mem (last_tagged t 0 al) (last_of t (al.map Prod.snd)) :=
  points_to_foldl mem t al 0 none hal rfl

theorem last_of_foldl_mem (t : Nat) :
    ∀ (l : List record) (o0 : Option record) (r : record),
      l.foldl (fun o r => if r.tag = t then some r else o) o0 = some r →
      (r ∈ l ∧ r.tag = t) ∨ o0 = some r := by
  intro l
  induction l with
  | nil => intro o0 r h; exact Or.inr h
  | cons x l ih =>
    intro o0 r h
    rw [List.foldl_cons] at h
    rcases ih _ r h with ⟨h1, h2⟩ | h1
    · exact Or.inl ⟨List.mem_cons_of_mem _ h1, h2⟩
    · by_cases hx : x.tag = t
      · rw [if_pos hx] at h1
        have : x = r := Option.some.inj h1
        subst this
        exact Or.inl ⟨List.mem_cons_self _ _, hx⟩
      · rw [if_neg hx] at h1
        exact Or.inr h1

theorem last_of_mem (t : Nat) (l : List record) (r : record) (h : last_of t l = some r) :
    r ∈ l ∧ r.tag = t := by
  rcases last_of_foldl_mem t l none r h with h1 | h1
  · exact h1
  · exact absurd h1 (by simp)

theorem rd_congr_of_points (mem1 mem2 : Mem) (p1 p2 : Nat) (r : record)
    (h1 : ∀ j, j < r.size → mem1 (p1 + j) = r.body j)
    (h2 : ∀ j, j < r.size → mem2 (p2 + j) = r.body j) (off n : Nat) (hn : off + n ≤ r.size) :
    load mem1 (p1 + off) n = load mem2 (p2 + off) n := by
  apply load_congr
  intro j hj
  rw [Nat.add_assoc, Nat.add_assoc, h1 (off + j) (by omega), h2 (off + j) (by omega)]

theorem init_fp_congr (mem1 mem2 : Mem) (ri : reginfo) (p1 p2 : Nat) (r : record)
    (h1 : ∀ j, j < r.size → mem1 (p1 + j) = r.body j)
    (h2 : ∀ j, j < r.size → mem2 (p2 + j) = r.body j) (hsz : 16 ≤ r.size) :
    init_fp mem1 ri p1 = init_fp mem2 ri p2 := by
  unfold init_fp rd32
  rw [rd_congr_of_points mem1 mem2 p1 p2 r h1 h2 off_fpsimd_fpsr 4
      (by unfold off_fpsimd_fpsr; omega),
    rd_congr_of_points mem1 mem2 p1 p2 r h1 h2 off_fpsimd_fpcr 4
      (by unfold off_fpsimd_fpcr; omega)]

theorem init_simd_congr (mem1 mem2 : Mem) (ri : reginfo) (p1 p2 : Nat) (r : record)
    (h1 : ∀ j, j < r.size → mem1 (p1 + j) = r.body j)
    (h2 : ∀ j, j < r.size → mem2 (p2 + j) = r.body j) (hsz : 528 ≤ r.size) :
    init_simd mem1 ri p1 = init_simd mem2 ri p2 := by
  funext i
  unfold init_simd memcpy ptr_add
  by_cases hi : reginfo_vreg_off 0 ≤ i ∧ i < reginfo_vreg_off 0 + RISU_SIMD_REGS_SIZE
  · rw [if_pos hi, if_pos hi]
    have hlt : off_fpsimd_vregs + (i - reginfo_vreg_off 0) < r.size := by
      have := hi.2
      unfold RISU_SIMD_REGS_SIZE at this
      unfold off_fpsimd_vregs
      omega
    rw [Nat.add_assoc, Nat.add_assoc, h1 _ hlt, h2 _ hlt]
  · rw [if_neg hi, if_neg hi]

theorem init_sve_congr (mem1 mem2 : Mem) (ts : Nat) (ri : reginfo) (p1 p2 : Nat) (r : record)
    (h1 : ∀ j, j < r.size → mem1 (p1 + j) = r.body j)
    (h2 : ∀ j, j < r.size → mem2 (p2 + j) = r.body j)
    (hsz : SVE_SIG_CONTEXT_SIZE ts ≤ r.size) :
    init_sve mem1 ts ri p1 = init_sve mem2 ts ri p2 := by
  rw [SVE_SIG_CONTEXT_SIZE_eq] at hsz
  funext i
  unfold init_sve memcpy ptr_add rd16
  rw [SVE_SIG_REGS_SIZE_eq, SVE_SIG_REGS_OFFSET_eq,
    rd_congr_of_points mem1 mem2 p1 p2 r h1 h2 off_sve_vl_ctx 2
      (by unfold off_sve_vl_ctx; omega)]
  by_cases hi : reginfo_zreg_off ts 0 ≤ i ∧ i < reginfo_zreg_off ts 0 + 546 * ts
  · rw [if_pos hi, if_pos hi]
    have hlt : 16 + (i - reginfo_zreg_off ts 0) < r.size := by omega
    rw [Nat.add_assoc, Nat.add_assoc, h1 _ hlt, h2 _ hlt]
  · rw [if_neg hi, if_neg hi]

/-- The copies made from the records found depend only on the bytes of those
records, not on where they lie. -/
theorem init_finish_congr (mem1 mem2 : Mem) (ts : Nat) (ri : reginfo)
    (fp1 fp2 sve1 sve2 : Nat) (ofp osv : Option record)
    (hf1 : points_to mem1 fp1 ofp) (hf2 : points_to mem2 fp2 ofp)
    (hs1 : points_to mem1 sve1 osv) (hs2 : points_to mem2 sve2 osv)
    (hss : ∀ r, osv = some r → 16 ≤ r.size) :
    init_finish mem1 ts ri fp1 sve1 = init_finish mem2 ts ri fp2 sve2 := by
  cases ofp with
  | none =>
    have e1 : fp1 = 0 ∨ rd32 mem1 (fp1 + off_ctx_size) ≠ sizeof_fpsimd_context := Or.inl hf1
    have e2 : fp2 = 0 ∨ rd32 mem2 (fp2 + off_ctx_size) ≠ sizeof_fpsimd_context := Or.inl hf2
    unfold init_finish
    rw [if_pos e1, if_pos e2]
  | some r =>
    obtain ⟨a1, a2, a3⟩ := hf1
    obtain ⟨b1, b2, b3⟩ := hf2
    by_cases hsz : r.size = sizeof_fpsimd_context
    · have hsz2 : r.size = 528 := hsz
      have E1 := init_fp_congr mem1 mem2 ri fp1 fp2 r a3 b3 (by omega)
      have E2 := fun ri => init_simd_congr mem1 mem2 ri fp1 fp2 r a3 b3 (by omega)
      have hc1 : ¬ (fp1 = 0 ∨ rd32 mem1 (fp1 + off_ctx_size) ≠ sizeof_fpsimd_context) := by
        rw [a2]; simp [a1, hsz]
      have hc2 : ¬ (fp2 = 0 ∨ rd32 mem2 (fp2 + off_ctx_size) ≠ sizeof_fpsimd_context) := by
        rw [b2]; simp [b1, hsz]
      unfold init_finish
      rw [if_neg hc1, if_neg hc2, E1, E2]
      by_cases hts : ts ≠ 0
      · rw [if_pos hts, if_pos hts]
        cases osv with
        | none =>
          have e1 : sve1 = 0 := hs1
          have e2 : sve2 = 0 := hs2
          rw [if_pos e1, if_pos e2]
        | some q =>
          obtain ⟨c1, c2, c3⟩ := hs1
          obtain ⟨d1, d2, d3⟩ := hs2
          have hq := hss q rfl
          have hvl : rd16 mem1 (sve1 + off_sve_vl_ctx) = rd16 mem2 (sve2 + off_sve_vl_ctx) :=
            rd_congr_of_points mem1 mem2 sve1 sve2 q c3 d3 off_sve_vl_ctx 2
              (by unfold off_sve_vl_ctx; omega)
          rw [if_neg c1, if_neg d1, hvl, c2, d2]
          by_cases h1 : rd16 mem2 (sve2 + off_sve_vl_ctx) ≠ sve_vl_from_vq ts
          · rw [if_pos h1, if_pos h1]
          · rw [if_neg h1, if_neg h1]
            by_cases h2 : q.size ≤ SVE_SIG_CONTEXT_SIZE 0
            · rw [if_pos h2, if_pos h2]
            · rw [if_neg h2, if_neg h2]
              by_cases h3 : q.size < SVE_SIG_CONTEXT_SIZE ts
              · rw [if_pos h3, if_pos h3]
              · rw [if_neg h3, if_neg h3,
                  init_sve_congr mem1 mem2 ts _ sve1 sve2 q c3 d3 (by omega)]
      · rw [if_neg hts, if_neg hts]
    · have hc1 : fp1 = 0 ∨ rd32 mem1 (fp1 + off_ctx_size) ≠ sizeof_fpsimd_context :=
        Or.inr (by rw [a2]; exact hsz)
      have hc2 : fp2 = 0 ∨ rd32 mem2 (fp2 + off_ctx_size) ≠ sizeof_fpsimd_context :=
        Or.inr (by rw [b2]; exact hsz)
      unfold init_finish
      rw [if_pos hc1, if_pos hc2]

/-- The walk of a well-formed context ends, with the last FP/SIMD record and
the last SVE record of the inline list followed by the overflow area. -/
theorem walk_well_formed (mem : Mem) (uc : ucontext_t) (I O : List record)
    (h : well_formed mem uc.reserved I O) :
    ∃ w, (∀ k, walk mem (I.length + O.length + 2 + k) (walk_start uc) = some w)
      ∧ points_to mem w.fp (last_of FPSIMD_MAGIC (I ++ O))
      ∧ points_to mem w.sve (last_of SVE_MAGIC (I ++ O)) := by
  obtain ⟨hI, hfI, hfO, hz, hnz⟩ := h
  by_cases hd : last_datap mem 0 (layout uc.reserved I) = 0
  · have hO := hz hd
    subst hO
    obtain ⟨a1, _, _⟩ := walk_inline mem (walk_start uc) uc.reserved I hI rfl hd
    refine ⟨{ ctx := 0, extra := 0, fp := last_tagged FPSIMD_MAGIC 0 (layout uc.reserved I),
              sve := last_tagged SVE_MAGIC 0 (layout uc.reserved I) }, fun k => ?_, ?_, ?_⟩
    · have := a1 (k + 1)
      rw [show I.length + ([] : List record).length + 2 + k = I.length + 1 + (k + 1) by
        simp only [List.length_nil]; omega]
      exact this
    · have := points_to_last mem FPSIMD_MAGIC (layout uc.reserved I) (layout_bytes mem I _ hI)
      rw [layout_map_snd] at this
      rw [List.append_nil]
      exact this
    · have := points_to_last mem SVE_MAGIC (layout uc.reserved I) (layout_bytes mem I _ hI)
      rw [layout_map_snd] at this
      rw [List.append_nil]
      exact this
  · have hO := hnz hd
    obtain ⟨b1, _, _⟩ := walk_overflow mem (walk_start uc) uc.reserved I O hI rfl hO
      (fun r hr => (hfO r hr).2)
    have hal : ∀ x, x ∈ layout uc.reserved I
        ++ layout (last_datap mem 0 (layout uc.reserved I)) O →
        0 < x.1 ∧ rd32 mem (x.1 + off_ctx_size) = x.2.size
          ∧ ∀ j, j < x.2.size → mem (x.1 + j) = x.2.body j := by
      intro x hx
      rcases List.mem_append.mp hx with h1 | h1
      · exact layout_bytes mem I _ hI x h1
      · exact layout_bytes mem O _ hO x h1
    refine ⟨{ ctx := 0, extra := 0
              fp := last_tagged FPSIMD_MAGIC 0
                (layout uc.reserved I ++ layout (last_datap mem 0 (layout uc.reserved I)) O)
              sve := last_tagged SVE_MAGIC 0
                (layout uc.reserved I ++ layout (last_datap mem 0 (layout uc.reserved I)) O) },
      fun k => ?_, ?_, ?_⟩
    · have := b1 k
      rw [show I.length + O.length + 2 + k = I.length + 1 + (O.length + 1) + k by omega]
      exact this
    · have := points_to_last mem FPSIMD_MAGIC _ hal
      rw [List.map_append, layout_map_snd, layout_map_snd] at this
      exact this
    · have := points_to_last mem SVE_MAGIC _ hal
      rw [List.map_append, layout_map_snd, layout_map_snd] at this
      exact this

theorem init_header_congr (mem1 mem2 : Mem) (isa : Nat) (ri : reginfo) (uc : ucontext_t)
    (a2 : Nat) (h : rd32 mem1 uc.pc = rd32 mem2 uc.pc) :
    init_header mem1 isa ri uc = init_header mem2 isa ri { uc with reserved := a2 } := by
  unfold init_header
  simp only [h]

/-- C16. For a well-formed context (inline records `I1`, overflow records
`O1`), inserting a record `u` whose tag is none of `FPSIMD_MAGIC`,
`SVE_MAGIC`, `EXTRA_MAGIC` (and, as a laid-out record, is not 0 and has a
positive declared size) at any position of the inline list or of the
overflow list gives a context (in memory `mem2`, records from `a2`) on which
`reginfo_init` returns the same snapshot and the same diagnostic, for every
fuel that covers the records. -/
theorem reginfo_init_skips_unknown (mem1 mem2 : Mem) (isa ts : Nat) (ri : reginfo)
    (uc : ucontext_t) (a2 : Nat) (I1 O1 I2 O2 : List record) (u : record)
    (hu : u.tag ≠ FPSIMD_MAGIC ∧ u.tag ≠ SVE_MAGIC ∧ u.tag ≠ EXTRA_MAGIC)
    (h1 : well_formed mem1 uc.reserved I1 O1)
    (h2 : well_formed mem2 a2 I2 O2)
    (hins : (inserted u I1 I2 ∧ O2 = O1) ∨ (I2 = I1 ∧ inserted u O1 O2))
    (hinsn : rd32 mem1 uc.pc = rd32 mem2 uc.pc) :
    ∃ out,
      (∀ k, reginfo_init mem1 isa ts (I1.length + O1.length + 2 + k) ri uc = some out)
      ∧ (∀ k, reginfo_init mem2 isa ts (I2.length + O2.length + 2 + k) ri
            { uc with reserved := a2 } = some out) := by
  obtain ⟨w1, hw1, hfp1, hsv1⟩ := walk_well_formed mem1 uc I1 O1 h1
  obtain ⟨w2, hw2, hfp2, hsv2⟩ := walk_well_formed mem2 { uc with reserved := a2 } I2 O2 h2
  have hi := inserted_append u I1 I2 O1 O2 hins
  rw [last_of_inserted FPSIMD_MAGIC u hu.1 _ _ (Or.inr hi)] at hfp2
  rw [last_of_inserted SVE_MAGIC u hu.2.1 _ _ (Or.inr hi)] at hsv2
  have hss : ∀ r, last_of SVE_MAGIC (I1 ++ O1) = some r → 16 ≤ r.size := by
    intro r hr
    obtain ⟨hm, ht⟩ := last_of_mem SVE_MAGIC _ r hr
    rcases List.mem_append.mp hm with h | h
    · exact h1.2.1 r h ht
    · exact (h1.2.2.1 r h).1 ht
  have hfin := init_finish_congr mem1 mem2 ts (init_header mem1 isa ri uc) w1.fp w2.fp
    w1.sve w2.sve _ _ hfp1 hfp2 hsv1 hsv2 hss
  refine ⟨init_finish mem1 ts (init_header mem1 isa ri uc) w1.fp w1.sve, fun k => ?_,
    fun k => ?_⟩
  · rw [reginfo_init_eq, hw1 k]
    rfl
  · rw [reginfo_init_eq, hw2 k, ← init_header_congr mem1 mem2 isa ri uc a2 hinsn, hfin]
    rfl

theorem well_formed_w_mem : well_formed w_mem (w_uc 0).reserved [w_fpsimd] [] := by
  refine ⟨⟨by decide, by decide, by decide, by decide, by decide, by decide, fun _ _ => rfl,
    by decide, by decide⟩, ?_, ?_, fun _ => rfl, fun h => absurd (by decide) h⟩
  · intro r hr
    rw [List.mem_singleton] at hr
    subst hr
    intro h
    exact absurd h (by decide)
  · intro r hr
    simp at hr

theorem well_formed_w_mem_ins : well_formed w_mem_ins 0x1000 [w_unknown, w_fpsimd] [] := by
  refine ⟨⟨by decide, by decide, by decide, by decide, by decide, by decide, fun _ _ => rfl,
    by decide, by decide, by decide, by decide, by decide, by decide, ?_,
    by decide, by decide⟩, ?_, ?_, fun _ => rfl, fun h => absurd (by decide) h⟩
  · intro j hj
    have hj2 : j < 528 := hj
    show w_mem_ins (0x1000 + 16 + j) = w_mem (0x1000 + j)
    unfold w_mem_ins
    rw [store_apply_outside _ _ _ _ _ (by omega), store_apply_outside _ _ _ _ _ (by omega),
      store_apply_outside _ _ _ _ _ (by omega)]
    unfold memcpy ptr_add
    rw [if_pos (by omega), show 0x1000 + 16 + j - 0x1010 = j by omega]
  · intro r hr
    rcases List.mem_cons.mp hr with h | h
    · subst h
      intro h
      exact absurd h (by decide)
    · rw [List.mem_singleton] at h
      subst h
      intro h
      exact absurd h (by decide)
  · intro r hr
    simp at hr

/-- Witness of C16: the capture of the context of `w_mem`, with one FP/SIMD
record, and the capture of the same context after a record of tag
`0x4b564d01` and size 16 has been inserted in front of the FP/SIMD record,
return the same snapshot and diagnostic. -/
theorem reginfo_init_skips_unknown_witness :
    ∃ out, reginfo_init w_mem 0 0 3 zero_reginfo (w_uc 0) = some out
      ∧ reginfo_init w_mem_ins 0 0 4 zero_reginfo (w_uc 0) = some out := by
  obtain ⟨out, h1, h2⟩ := reginfo_init_skips_unknown w_mem w_mem_ins 0 0 zero_reginfo (w_uc 0)
    0x1000 [w_fpsimd] [] [w_unknown, w_fpsimd] [] w_unknown
    (by decide) well_formed_w_mem well_formed_w_mem_ins
    (Or.inl ⟨⟨[], [w_fpsimd], rfl, rfl⟩, rfl⟩) (by decide)
  exact ⟨out, h1 0, h2 0⟩

end Risu
